import Mathlib

/-!
# Ledger core of billing-web: invoice numbering, the invoice transaction, analytics

Shallow embedding of `src/server/database.js` (the models `Product`, `Customer` and `Invoice`
and the parts of the sql.js store they talk to), of the analytics handlers of `src/main.js`,
`src/server.js` and `src/server/routes/invoices.js`, of the `PUT` and `DELETE` handlers of
products and customers, and of the JavaScript built-ins they call.

Modelling conventions

* JS strings are lists of characters (`JSString`).
* The Number values that occur in the numbering code are NaN or an integer (`JSNum`);
  integers are exact, which agrees with IEEE doubles below `2 ^ 53`.
* Numbers in general are IEEE 754 binary64 values (`F64`): a finite Number is the dyadic
  fraction it denotes, addition gives the exact sum rounded to the nearest Number (ties to
  the even significand, overflow to an infinity), `parseFloat` reads the longest decimal
  literal at the start of a text and rounds it the same way, and `String(x)` is the shortest
  decimal that reads back as `x`.
* A JS value that can be handed to `db.run` is `JSVal`: `undefined`, `null`, a Number or a
  string. sql.js refuses to bind `undefined`; `null` and NaN are bound as SQL NULL. A stored
  column keeps the bound value (SQLite's storage-class conversion of numeric-looking text is
  not modelled).
* `new Date()` is a parameter of `Invoice.create`; a `JSDate` carries the local calendar
  year and month and the milliseconds elapsed inside that month, which is all the code
  reads from it. `toISOString` followed by `new Date(text)` is the identity on instants,
  so a row holds the `JSDate` itself.
* The database connection is an explicit state `Db`: the four tables with their
  `sqlite_sequence` counters, the snapshot of an open transaction and
  `last_insert_rowid()`. Foreign keys are not enforced (SQLite's default). `saveDatabase`,
  which copies the committed tables to the file, is left out.
* Date objects are compared as instants, that is by (year, month, msInMonth); `ORDER BY
  i.date` compares the stored text, which orders the same way. `createdAt` of a customer row
  holds the Date that `new Date(cust.createdAt)` yields.
* A revenue figure is the `F64` the handler accumulates, `sum + parseFloat(inv.total)` from
  0 along the listing of `Invoice.findAll`; the order matters, since Number addition rounds.
* The locale table behind `toLocaleString` is a parameter `monthName` of the handlers.
* The `id` argument of `update`, `destroy` and `findOne` is a Number, as the routes pass it
  (`parseInt(req.params.id)`); the Date read back from the `CURRENT_TIMESTAMP` default of a new
  customer row is a parameter of `Customer.create`. The columns `updatedAt` and, for products,
  `createdAt` are left out: the models only hand them through.
-/

namespace Billing

/-! ## JavaScript values and built-ins -/

/-- JS strings. -/
abbrev JSString := List Char

/-- Numbers of the numbering code: NaN or an integer. -/
inductive JSNum where
  | nan
  | int (z : Int)
  deriving DecidableEq, Repr

/-- A JavaScript Number as an IEEE 754 binary64 value: NaN, an infinity, the negative zero, or
the finite value `num / 2 ^ exp` in lowest terms (`exp = 0` or `num` odd); `fin 0 0` is the
positive zero. -/
inductive F64 where
  | nan
  | inf (neg : Bool)
  | negZero
  | fin (num : Int) (exp : Nat)
  deriving DecidableEq, Repr

/-- Values a caller can put in a request field, and values a column holds: `num n` is the
Number that is the integer `n`, `real x` a Number that is not an integer (a Number with a
fraction, an infinity, NaN, the negative zero). -/
inductive JSVal where
  | undefined
  | null
  | num (n : Int)
  | real (x : F64)
  | str (s : JSString)
  deriving DecidableEq, Repr

/-- Result of `new Date()`: local year (`getFullYear()`), local month (`getMonth()`, 0 to 11)
and the milliseconds elapsed since the first instant of that month. -/
structure JSDate where
  year : Int
  month : Fin 12
  msInMonth : Nat
  deriving DecidableEq, Repr

/-- `String(n)` for a non-negative integer `n`. -/
def natToString (n : Nat) : JSString := Nat.toDigits 10 n

/-- `String(z)` for an integer `z`. -/
def intToString (z : Int) : JSString :=
  if z < 0 then '-' :: natToString z.natAbs else natToString z.natAbs

/-- `String(x)` for a Number. -/
def JSNum.toJSString : JSNum → JSString
  | .nan => ['N', 'a', 'N']
  | .int z => intToString z

/-- `x + 1` for a Number. -/
def JSNum.succ : JSNum → JSNum
  | .nan => .nan
  | .int z => .int (z + 1)

/-- `s.padStart(len, fill)` with a one-character filler. -/
def padStart (len : Nat) (fill : Char) (s : JSString) : JSString :=
  List.replicate (len - s.length) fill ++ s

/-- `s.slice(-k)`: the last `k` characters (the whole string when it is shorter). -/
def sliceLast (k : Nat) (s : JSString) : JSString :=
  s.drop (s.length - k)

/-- `s.split(sep)[0]`: the segment before the first separator. -/
def splitHead (sep : Char) (s : JSString) : JSString :=
  s.takeWhile (fun c => c != sep)

/-- White space and line terminators skipped by `parseInt`. -/
def isJSWhiteSpace (c : Char) : Bool :=
  let n := c.toNat
  n = 0x09 || n = 0x0A || n = 0x0B || n = 0x0C || n = 0x0D || n = 0x20 || n = 0xA0 ||
  n = 0x1680 || (0x2000 ≤ n && n ≤ 0x200A) || n = 0x2028 || n = 0x2029 || n = 0x202F ||
  n = 0x205F || n = 0x3000 || n = 0xFEFF

/-- Value of a character as a digit of the given radix (10 or 16). -/
def digitValue (radix : Nat) (c : Char) : Option Nat :=
  let n := c.toNat
  if 48 ≤ n ∧ n ≤ 57 then some (n - 48)
  else if radix = 16 ∧ 97 ≤ n ∧ n ≤ 102 then some (n - 87)
  else if radix = 16 ∧ 65 ≤ n ∧ n ≤ 70 then some (n - 55)
  else none

/-- Longest prefix of digits of the radix, as digit values. -/
def digitPrefix (radix : Nat) : JSString → List Nat
  | [] => []
  | c :: cs =>
    match digitValue radix c with
    | some d => d :: digitPrefix radix cs
    | none => []

/-- Value of a big-endian digit list. -/
def digitsToNat (radix : Nat) (ds : List Nat) : Nat :=
  ds.foldl (fun acc d => acc * radix + d) 0

/-- Sign of `parseInt`: a leading `-` or `+` is consumed. -/
def stripSign : JSString → Bool × JSString
  | c :: cs => if c = '-' then (true, cs) else if c = '+' then (false, cs) else (false, c :: cs)
  | [] => (false, [])

/-- Radix of `parseInt` without a radix argument: 16 after `0x` or `0X`, else 10. -/
def stripRadix : JSString → Nat × JSString
  | c :: d :: cs => if c = '0' ∧ (d = 'x' ∨ d = 'X') then (16, cs) else (10, c :: d :: cs)
  | s => (10, s)

/-- `parseInt(s)`. -/
def parseInt (s : JSString) : JSNum :=
  let trimmed := s.dropWhile isJSWhiteSpace
  let signed := stripSign trimmed
  let body := stripRadix signed.2
  let ds := digitPrefix body.1 body.2
  if ds.isEmpty then .nan
  else if signed.1 then .int (-(digitsToNat body.1 ds : Int))
  else .int (digitsToNat body.1 ds)

/-! ## Numbers: binary64 arithmetic, `parseFloat` and `String` -/

/-- Number of binary digits of `n`, by halving. -/
def bitLenAux : Nat → Nat → Nat
  | 0, _ => 0
  | fuel + 1, n => if n = 0 then 0 else bitLenAux fuel (n / 2) + 1

/-- Number of binary digits of `n` (0 for 0). -/
def bitLen (n : Nat) : Nat := bitLenAux n n

/-- The fraction `c / 2 ^ k` in lowest terms. -/
def lowestTerms : Nat → Int → Int × Nat
  | 0, c => (c, 0)
  | k + 1, c => if c % 2 = 0 then lowestTerms k (c / 2) else (c, k + 1)

/-- The zero of the given sign. -/
def F64.zero (neg : Bool) : F64 := if neg then .negZero else .fin 0 0

/-- The finite Number `± m * 2 ^ e`. -/
def F64.ofScaled (neg : Bool) (m : Nat) (e : Int) : F64 :=
  if m = 0 then F64.zero neg
  else if 0 ≤ e then .fin ((if neg then -1 else 1) * ((m : Int) * 2 ^ e.toNat)) 0
  else
    .fin (lowestTerms (-e).toNat ((if neg then -1 else 1) * (m : Int))).1
      (lowestTerms (-e).toNat ((if neg then -1 else 1) * (m : Int))).2

/-- The integer nearest to `p / q`, the even one of two that are equally near. -/
def roundHalfEven (p q : Nat) : Nat :=
  if 2 * (p % q) < q then p / q
  else if q < 2 * (p % q) then p / q + 1
  else if (p / q) % 2 = 0 then p / q
  else p / q + 1

/-- The exponent of the leading binary digit of `a / b`. -/
def binaryExponent (a b : Nat) : Int :=
  if bitLen b ≤ bitLen a then
    (if b * 2 ^ (bitLen a - bitLen b) ≤ a then ((bitLen a - bitLen b : Nat) : Int)
     else ((bitLen a - bitLen b : Nat) : Int) - 1)
  else
    (if b ≤ a * 2 ^ (bitLen b - bitLen a) then -((bitLen b - bitLen a : Nat) : Int)
     else -((bitLen b - bitLen a : Nat) : Int) - 1)

/-- The Number value of the positive rational `a / b` with the given sign: the nearest
binary64 value, ties to the even significand; 53 significant bits, least exponent `-1074`,
overflow to infinity from `2 ^ 1024`. -/
def roundRat (neg : Bool) (a b : Nat) : F64 :=
  if a = 0 then F64.zero neg
  else
    let e : Int := max (binaryExponent a b - 52) (-1074)
    let m : Nat :=
      if 0 ≤ e then roundHalfEven a (b * 2 ^ e.toNat) else roundHalfEven (a * 2 ^ (-e).toNat) b
    if 0 ≤ e ∧ 2 ^ 1024 ≤ m * 2 ^ e.toNat then .inf neg
    else F64.ofScaled neg m e

/-- The Number value of an integer: the integer itself below `2 ^ 53`, the nearest Number
otherwise. -/
def F64.ofInt (z : Int) : F64 :=
  if z.natAbs < 2 ^ 53 then .fin z 0 else roundRat (decide (z < 0)) z.natAbs 1

/-- `x + y` on Numbers: the exact sum when that is a Number, else the Number nearest to
it. -/
def F64.add : F64 → F64 → F64
  | .nan, _ => .nan
  | _, .nan => .nan
  | .inf a, .inf b => if a = b then .inf a else .nan
  | .inf a, _ => .inf a
  | _, .inf b => .inf b
  | .negZero, .negZero => .negZero
  | .negZero, .fin b q => .fin b q
  | .fin a p, .negZero => .fin a p
  | .fin a p, .fin b q =>
    let c : Int := a * 2 ^ (max p q - p) + b * 2 ^ (max p q - q)
    if c = 0 then .fin 0 0
    else if c.natAbs < 2 ^ 53 ∧ max p q ≤ 1074 then
      .fin (lowestTerms (max p q) c).1 (lowestTerms (max p q) c).2
    else roundRat (decide (c < 0)) c.natAbs (2 ^ max p q)

/-- Numeric order `x <= y` of two Numbers, false when either is NaN; the two zeros are
equal. -/
def F64.le : F64 → F64 → Bool
  | .nan, _ => false
  | _, .nan => false
  | .inf true, _ => true
  | _, .inf false => true
  | .inf false, _ => false
  | _, .inf true => false
  | .negZero, .negZero => true
  | .negZero, .fin b _ => decide (0 ≤ b)
  | .fin a _, .negZero => decide (a ≤ 0)
  | .fin a p, .fin b q => decide (a * 2 ^ q ≤ b * 2 ^ p)

/-- The fraction digits of a decimal literal: the digits after a `.` that follows the integer
digits. -/
def fractionDigits : JSString → List Nat
  | '.' :: cs => digitPrefix 10 cs
  | _ => []

/-- The text after the integer digits and the fraction of a decimal literal. -/
def afterFraction (s : JSString) : JSString :=
  match s with
  | '.' :: cs => cs.drop (digitPrefix 10 cs).length
  | _ => s

/-- The exponent part of a decimal literal: `e` or `E`, an optional sign and at least one
digit; 0 when there is none. -/
def exponentPart : JSString → Int
  | c :: cs =>
    if c = 'e' ∨ c = 'E' then
      (if (digitPrefix 10 (stripSign cs).2).isEmpty then 0
       else if (stripSign cs).1 then -(digitsToNat 10 (digitPrefix 10 (stripSign cs).2) : Int)
       else (digitsToNat 10 (digitPrefix 10 (stripSign cs).2) : Int))
    else 0
  | [] => 0

/-- `parseFloat(text)`: leading white space is skipped; the longest prefix that is a decimal
literal (a sign, then `Infinity` or digits with an optional fraction and exponent) is read and
rounded to the nearest Number; NaN when there is no such prefix. -/
def parseFloatText (s : JSString) : F64 :=
  let signed := stripSign (s.dropWhile isJSWhiteSpace)
  if "Infinity".toList <+: signed.2 then .inf signed.1
  else
    let intDigits := digitPrefix 10 signed.2
    let rest := signed.2.drop intDigits.length
    let fracDigits := fractionDigits rest
    if intDigits.isEmpty ∧ fracDigits.isEmpty then .nan
    else
      let mantissa := digitsToNat 10 (intDigits ++ fracDigits)
      let scale : Int := exponentPart (afterFraction rest) - (fracDigits.length : Int)
      if 0 ≤ scale then roundRat signed.1 (mantissa * 10 ^ scale.toNat) 1
      else roundRat signed.1 mantissa (10 ^ (-scale).toNat)

/-- The least `j` from 1 on with `b ≤ a * 10 ^ j`, searched with fuel. -/
def decimalShift (a b : Nat) : Nat → Nat → Nat
  | 0, j => j
  | fuel + 1, j => if b ≤ a * 10 ^ j then j else decimalShift a b fuel (j + 1)

/-- The decimal exponent `n` of the positive rational `a / b`: `10 ^ (n - 1) ≤ a / b <
10 ^ n`. -/
def decimalExponent (a b : Nat) : Int :=
  if b ≤ a then ((natToString (a / b)).length : Int)
  else 1 - (decimalShift a b 400 1 : Int)

/-- The value `s * 10 ^ z` as a Number. -/
def decimalValue (s : Nat) (z : Int) : F64 :=
  if 0 ≤ z then roundRat false (s * 10 ^ z.toNat) 1 else roundRat false s (10 ^ (-z).toNat)

/-- The integer part of `a / b * 10 ^ z`. -/
def scaledFloor (a b : Nat) (z : Int) : Nat :=
  if 0 ≤ z then a * 10 ^ z.toNat / b else a / (b * 10 ^ (-z).toNat)

/-- Whether `a / b * 10 ^ z` is nearer to `lo` than to `lo + 1`, or as near and `lo` is
even. -/
def nearerLower (a b : Nat) (z : Int) (lo : Nat) : Bool :=
  if 0 ≤ z then
    decide (2 * (a * 10 ^ z.toNat) < (2 * lo + 1) * b) ||
      (decide (2 * (a * 10 ^ z.toNat) = (2 * lo + 1) * b) && decide (lo % 2 = 0))
  else
    decide (2 * a < (2 * lo + 1) * (b * 10 ^ (-z).toNat)) ||
      (decide (2 * a = (2 * lo + 1) * (b * 10 ^ (-z).toNat)) && decide (lo % 2 = 0))

/-- The digits `s` and the exponent `n` of `Number::toString` for the positive Number `a / b`
whose decimal exponent is `n0`: for the least number of digits `k`, tried from the given one
on, for which a `k`-digit neighbour `s` of `a / b * 10 ^ (k - n0)` has `s * 10 ^ (n0 - k)`
read back as the Number; the nearer neighbour when both do. -/
def shortestDigits (a b : Nat) (n0 : Int) : Nat → Nat → Nat × Int
  | 0, k => (scaledFloor a b ((k : Int) - n0), n0)
  | fuel + 1, k =>
    if decimalValue (scaledFloor a b ((k : Int) - n0)) (n0 - (k : Int)) = roundRat false a b ∧
        (nearerLower a b ((k : Int) - n0) (scaledFloor a b ((k : Int) - n0)) = true ∨
          decimalValue (scaledFloor a b ((k : Int) - n0) + 1) (n0 - (k : Int)) ≠
            roundRat false a b) then
      (scaledFloor a b ((k : Int) - n0), n0)
    else if decimalValue (scaledFloor a b ((k : Int) - n0) + 1) (n0 - (k : Int)) =
        roundRat false a b then
      (if scaledFloor a b ((k : Int) - n0) + 1 = 10 ^ k then (10 ^ (k - 1), n0 + 1)
       else (scaledFloor a b ((k : Int) - n0) + 1, n0))
    else shortestDigits a b n0 fuel (k + 1)

/-- The text of `Number::toString` for the digits `ds` and the exponent `n`: plain decimal
notation when `-6 < n ≤ 21`, exponent notation otherwise. -/
def formatDecimal (ds : JSString) (n : Int) : JSString :=
  if (ds.length : Int) ≤ n ∧ n ≤ 21 then ds ++ List.replicate (n.toNat - ds.length) '0'
  else if 0 < n ∧ n ≤ 21 then ds.take n.toNat ++ '.' :: ds.drop n.toNat
  else if -6 < n ∧ n ≤ 0 then '0' :: '.' :: (List.replicate (-n).toNat '0' ++ ds)
  else
    (if ds.length = 1 then ds else ds.take 1 ++ '.' :: ds.drop 1) ++
      'e' :: (if n - 1 < 0 then '-' else '+') :: natToString (n - 1).natAbs

/-- `String(x)` for a Number. -/
def F64.toJSString : F64 → JSString
  | .nan => ['N', 'a', 'N']
  | .inf neg => if neg then "-Infinity".toList else "Infinity".toList
  | .negZero => ['0']
  | .fin num exp =>
    if num = 0 then ['0']
    else
      (if num < 0 then ['-'] else []) ++
        formatDecimal
          (natToString (shortestDigits num.natAbs (2 ^ exp)
            (decimalExponent num.natAbs (2 ^ exp)) 17 1).1)
          (shortestDigits num.natAbs (2 ^ exp) (decimalExponent num.natAbs (2 ^ exp)) 17 1).2

/-! ## `LIKE` -/

/-- Letters of the ASCII alphabet. -/
def isAsciiLetter (c : Char) : Bool :=
  (65 ≤ c.toNat && c.toNat ≤ 90) || (97 ≤ c.toNat && c.toNat ≤ 122)

/-- Character comparison of SQLite's `LIKE`: equal up to the case of ASCII letters. -/
def likeCharEq (a c : Char) : Bool :=
  a = c || (isAsciiLetter a && isAsciiLetter c &&
    (a.toNat + 32 = c.toNat || c.toNat + 32 = a.toNat))

/-- SQLite's `text LIKE pattern` (no escape character): `%` matches any run of characters,
`_` any one character, every other character itself up to ASCII case. -/
def like : JSString → JSString → Bool
  | [], text => text.isEmpty
  | p :: ps, text =>
    if p = '%' then text.tails.any (like ps)
    else
      match text with
      | [] => false
      | c :: cs => (p = '_' || likeCharEq p c) && like ps cs

/-! ## The store -/

/-- Row of `Products` (columns `id, name, rate`). -/
structure ProductRow where
  id : Nat
  name : JSVal
  rate : JSVal
  deriving DecidableEq, Repr

/-- Row of `Customers` (columns `id, name, mobile, address, createdAt`). -/
structure CustomerRow where
  id : Nat
  name : JSVal
  mobile : JSVal
  address : JSVal
  createdAt : JSDate
  deriving DecidableEq, Repr

/-- Row of `Invoices` (columns `id, invoiceNumber, date, total, CustomerId`). -/
structure InvoiceRow where
  id : Nat
  invoiceNumber : JSString
  date : JSDate
  total : JSVal
  CustomerId : JSVal
  deriving DecidableEq, Repr

/-- Row of `InvoiceItems` (columns `id, InvoiceId, ProductId, quantity, rate, total`). -/
structure InvoiceItemRow where
  id : Nat
  InvoiceId : Nat
  ProductId : JSVal
  quantity : JSVal
  rate : JSVal
  total : JSVal
  deriving DecidableEq, Repr

/-- The tables of `SCHEMA`, rows in insertion order, with the `sqlite_sequence` counters of
their `AUTOINCREMENT` keys. -/
structure Tables where
  products : List ProductRow
  customers : List CustomerRow
  invoices : List InvoiceRow
  invoiceItems : List InvoiceItemRow
  invoiceSeq : Nat
  invoiceItemSeq : Nat
  productSeq : Nat
  customerSeq : Nat
  deriving DecidableEq, Repr

/-- The connection `db`: current tables, the snapshot taken by an open transaction, and
`last_insert_rowid()`. -/
structure Db where
  tables : Tables
  txn : Option Tables
  lastInsertRowid : Nat
  deriving DecidableEq, Repr

/-- Exceptions raised while `Invoice.create` runs: sql.js cannot bind a parameter
(`undefined`), a `NOT NULL` or `UNIQUE` constraint fails, a JS `TypeError` (`items.forEach` on
a value that is not an array), or `BEGIN`, `COMMIT`, `ROLLBACK` issued in the wrong
transaction state. -/
inductive JSError where
  | bindUnknownType
  | notNullConstraint
  | uniqueConstraint
  | typeError
  | transactionState
  deriving DecidableEq, Repr

/-- The store after `initializeDB` created the tables. -/
def Db.empty : Db :=
  { tables := { products := [], customers := [], invoices := [], invoiceItems := [],
                invoiceSeq := 0, invoiceItemSeq := 0, productSeq := 0, customerSeq := 0 },
    txn := none, lastInsertRowid := 0 }

/-- `db.run('BEGIN TRANSACTION')`. -/
def Db.begin (db : Db) : Except JSError Db :=
  match db.txn with
  | some _ => .error .transactionState
  | none => .ok { db with txn := some db.tables }

/-- `db.run('COMMIT')`. -/
def Db.commit (db : Db) : Except JSError Db :=
  match db.txn with
  | none => .error .transactionState
  | some _ => .ok { db with txn := none }

/-- `db.run('ROLLBACK')`. -/
def Db.rollback (db : Db) : Except JSError Db :=
  match db.txn with
  | none => .error .transactionState
  | some saved => .ok { db with tables := saved, txn := none }

/-- Binding the parameter array of `db.run`: sql.js throws on a value of unknown type. -/
def bindParams (params : List JSVal) : Except JSError Unit :=
  if params.any (fun v => v = JSVal.undefined) then .error .bindUnknownType else .ok ()

/-- The values sql.js hands to SQLite as NULL: `null`, and a NaN (bound as a double, which
SQLite stores as NULL). -/
def bindsNull (v : JSVal) : Bool := decide (v = JSVal.null) || decide (v = JSVal.real .nan)

/-- `NOT NULL` check on the bound values of the constrained columns. -/
def checkNotNull (values : List JSVal) : Except JSError Unit :=
  if values.any bindsNull then .error .notNullConstraint else .ok ()

/-- Key chosen by `INTEGER PRIMARY KEY AUTOINCREMENT`: one more than the largest key the
table ever held. -/
def nextRowid (seq : Nat) (ids : List Nat) : Nat :=
  max seq (ids.foldr max 0) + 1

/-- The connection after a row was appended to `Invoices` under a fresh key. -/
def Db.appendInvoice (db : Db) (invoiceNumber : JSString) (date : JSDate)
    (total customerId : JSVal) : Db :=
  let id := nextRowid db.tables.invoiceSeq (db.tables.invoices.map (fun r => r.id))
  { db with
    tables := { db.tables with
                invoices := db.tables.invoices ++
                  [{ id := id, invoiceNumber := invoiceNumber, date := date,
                     total := total, CustomerId := customerId }],
                invoiceSeq := id },
    lastInsertRowid := id }

/-- `db.run(createInvoiceQuery, [invoiceNumber, date.toISOString(), total, customerId])`:
`total` and `CustomerId` are `NOT NULL`, `invoiceNumber` is `UNIQUE`. -/
def Db.insertInvoice (db : Db) (invoiceNumber : JSString) (date : JSDate)
    (total customerId : JSVal) : Except JSError Db :=
  match bindParams [JSVal.str invoiceNumber, total, customerId] with
  | .error e => .error e
  | .ok _ =>
    match checkNotNull [total, customerId] with
    | .error e => .error e
    | .ok _ =>
      if db.tables.invoices.any (fun r => r.invoiceNumber = invoiceNumber) then
        .error .uniqueConstraint
      else
        .ok (db.appendInvoice invoiceNumber date total customerId)

/-- The connection after a row was appended to `InvoiceItems` under a fresh key. -/
def Db.appendInvoiceItem (db : Db) (invoiceId : Nat)
    (productRef quantity rate total : JSVal) : Db :=
  let id := nextRowid db.tables.invoiceItemSeq (db.tables.invoiceItems.map (fun r => r.id))
  { db with
    tables := { db.tables with
                invoiceItems := db.tables.invoiceItems ++
                  [{ id := id, InvoiceId := invoiceId, ProductId := productRef,
                     quantity := quantity, rate := rate, total := total }],
                invoiceItemSeq := id },
    lastInsertRowid := id }

/-- `db.run(createItemQuery, [invoiceId, productRef, quantity, rate, total])`: every column
is `NOT NULL`. -/
def Db.insertInvoiceItem (db : Db) (invoiceId : Nat) (productRef quantity rate total : JSVal) :
    Except JSError Db :=
  match bindParams [productRef, quantity, rate, total] with
  | .error e => .error e
  | .ok _ =>
    match checkNotNull [productRef, quantity, rate, total] with
    | .error e => .error e
    | .ok _ => .ok (db.appendInvoiceItem invoiceId productRef quantity rate total)

/-- `ORDER BY id DESC LIMIT 1` over a list of invoice rows. -/
def latestById : List InvoiceRow → Option InvoiceRow
  | [] => none
  | r :: rs =>
    match latestById rs with
    | none => some r
    | some best => if r.id < best.id then some best else some r

/-- `db.exec(lastInvoiceQuery, [pattern])`: the `invoiceNumber` of the matching row with the
largest `id`, if any. -/
def lastInvoiceQuery (t : Tables) (pattern : JSString) : Option JSString :=
  (latestById (t.invoices.filter (fun r => like pattern r.invoiceNumber))).map
    (fun r => r.invoiceNumber)

/-! ## `Invoice.create` -/

/-- An element of the request's `items` array; a field the caller left out is `undefined`. -/
structure Item where
  id : JSVal
  productId : JSVal
  quantity : JSVal
  rate : JSVal
  total : JSVal
  deriving DecidableEq, Repr

/-- The argument `data` of `Invoice.create`; `items` is `none` when it is not an array. -/
structure InvoiceData where
  customerId : JSVal
  total : JSVal
  items : Option (List Item)
  deriving DecidableEq, Repr

/-- The `invoice` object of the value returned by `Invoice.create`. -/
structure InvoiceRecord where
  id : Nat
  invoiceNumber : JSString
  date : JSDate
  total : JSVal
  items : List Item
  deriving DecidableEq, Repr

/-- The value returned by `Invoice.create`. -/
structure CreateResult where
  success : Bool
  invoice : InvoiceRecord
  deriving DecidableEq, Repr

/-- `String(date.getMonth() + 1).padStart(2, '0')`. -/
def month (date : JSDate) : JSString :=
  padStart 2 '0' (natToString (date.month.val + 1))

/-- `String(date.getFullYear()).slice(-2)`. -/
def year (date : JSDate) : JSString :=
  sliceLast 2 (intToString date.year)

/-- The text `/MM/YY` every number of the date's scope ends with. -/
def scopeSuffix (date : JSDate) : JSString :=
  '/' :: month date ++ '/' :: year date

/-- `nextNumber` after the lookup of the last invoice of the scope. -/
def nextNumber (t : Tables) (date : JSDate) : JSNum :=
  match lastInvoiceQuery t ('%' :: scopeSuffix date) with
  | none => .int 1
  | some last => (parseInt (splitHead '/' last)).succ

/-- The template literal that builds `invoiceNumber` from `nextNumber`, `month`, `year`. -/
def formatInvoiceNumber (n : JSNum) (date : JSDate) : JSString :=
  padStart 3 '0' n.toJSString ++ scopeSuffix date

/-- The `invoiceNumber` computed by `Invoice.create`. -/
def invoiceNumber (t : Tables) (date : JSDate) : JSString :=
  formatInvoiceNumber (nextNumber t date) date

/-- The `items.forEach` loop: the result and the connection state where it stopped. -/
def insertItems (invoiceId : Nat) : Db → List Item → Except JSError Unit × Db
  | db, [] => (.ok (), db)
  | db, item :: rest =>
    match db.insertInvoiceItem invoiceId item.id item.quantity item.rate item.total with
    | .error e => (.error e, db)
    | .ok db1 => insertItems invoiceId db1 rest

/-- The `try` block of `Invoice.create`: the returned value or the exception, with the
connection state reached. -/
def Invoice.createTry (db : Db) (date : JSDate) (data : InvoiceData) :
    Except JSError CreateResult × Db :=
  match db.begin with
  | .error e => (.error e, db)
  | .ok db1 =>
    let number := invoiceNumber db1.tables date
    match db1.insertInvoice number date data.total data.customerId with
    | .error e => (.error e, db1)
    | .ok db2 =>
      let invoiceId := db2.lastInsertRowid
      match data.items with
      | none => (.error .typeError, db2)
      | some items =>
        match insertItems invoiceId db2 items with
        | (.error e, db3) => (.error e, db3)
        | (.ok _, db3) =>
          match db3.commit with
          | .error e => (.error e, db3)
          | .ok db4 =>
            (.ok { success := true,
                   invoice := { id := invoiceId, invoiceNumber := number, date := date,
                                total := data.total, items := items } }, db4)

/-- `Invoice.create(data)` run at the instant `date`: the `catch` block rolls back and
rethrows. -/
def Invoice.create (db : Db) (date : JSDate) (data : InvoiceData) :
    Except JSError CreateResult × Db :=
  match Invoice.createTry db date data with
  | (.ok result, db1) => (.ok result, db1)
  | (.error e, db1) =>
    match db1.rollback with
    | .error e1 => (.error e1, db1)
    | .ok db2 => (.error e, db2)

/-- Successive `Invoice.create` calls; the store after the last one. -/
def runCreates : Db → List (JSDate × InvoiceData) → Db
  | db, [] => db
  | db, (date, data) :: rest => runCreates (Invoice.create db date data).2 rest

/-! ## Predicates and invariants used in the statements -/

/-- A character `0` to `9`. -/
def IsDecDigit (c : Char) : Prop := 48 ≤ c.toNat ∧ c.toNat ≤ 57

instance : DecidablePred IsDecDigit := fun c =>
  inferInstanceAs (Decidable (48 ≤ c.toNat ∧ c.toNat ≤ 57))

/-- A pattern character that `LIKE` compares literally and case-sensitively. -/
def IsPlain (c : Char) : Prop := c ≠ '%' ∧ c ≠ '_' ∧ isAsciiLetter c = false

/-- A character of `String(z)` for an integer `z`. -/
def IsNumChar (c : Char) : Prop := IsDecDigit c ∨ c = '-'

/-- A value that binds and passes `NOT NULL`. -/
def Storable (v : JSVal) : Prop := v ≠ .undefined ∧ v ≠ .null ∧ v ≠ .real .nan

/-- The line item row written for an item of the request. -/
def ItemStored (invoiceId : Nat) (row : InvoiceItemRow) (item : Item) : Prop :=
  row.InvoiceId = invoiceId ∧ row.ProductId = item.id ∧ row.quantity = item.quantity ∧
    row.rate = item.rate ∧ row.total = item.total

/-- An item all of whose stored fields bind and pass `NOT NULL`. -/
def Item.Insertable (item : Item) : Prop :=
  Storable item.id ∧ Storable item.quantity ∧ Storable item.rate ∧ Storable item.total

instance (v : JSVal) : Decidable (Storable v) :=
  inferInstanceAs (Decidable (v ≠ .undefined ∧ v ≠ .null ∧ v ≠ .real .nan))

instance (item : Item) : Decidable item.Insertable :=
  inferInstanceAs (Decidable (Storable item.id ∧ Storable item.quantity ∧ Storable item.rate ∧
    Storable item.total))

/-- What a successful `Invoice.create` did. -/
structure CreateOk (db : Db) (date : JSDate) (data : InvoiceData) (res : CreateResult)
    (db1 : Db) (items : List Item) (rows : List InvoiceItemRow) : Prop where
  txn_before : db.txn = none
  txn_after : db1.txn = none
  total_storable : Storable data.total
  customer_storable : Storable data.customerId
  fresh : ∀ r ∈ db.tables.invoices, r.invoiceNumber ≠ invoiceNumber db.tables date
  items_eq : data.items = some items
  insertable : ∀ it ∈ items, it.Insertable
  result : res =
    { success := true,
      invoice := { id := nextRowid db.tables.invoiceSeq (db.tables.invoices.map (fun r => r.id)),
                   invoiceNumber := invoiceNumber db.tables date, date := date,
                   total := data.total, items := items } }
  invoices : db1.tables.invoices = db.tables.invoices ++
    [{ id := nextRowid db.tables.invoiceSeq (db.tables.invoices.map (fun r => r.id)),
       invoiceNumber := invoiceNumber db.tables date, date := date, total := data.total,
       CustomerId := data.customerId }]
  invoiceItems : db1.tables.invoiceItems = db.tables.invoiceItems ++ rows
  stored : List.Forall₂
    (ItemStored (nextRowid db.tables.invoiceSeq (db.tables.invoices.map (fun r => r.id))))
    rows items
  products : db1.tables.products = db.tables.products
  customers : db1.tables.customers = db.tables.customers

/-- The sequence number of an invoice number: `parseInt(number.split('/')[0])`. -/
def serialOf (number : JSString) : JSNum := parseInt (splitHead '/' number)

/-- Numeric `<` on Numbers (false when either side is NaN). -/
def JSNum.lt : JSNum → JSNum → Prop
  | .int a, .int b => a < b
  | _, _ => False

/-- Order of two invoice rows, the first created before the second: keys increase, and
inside one scope the sequence numbers increase. -/
def RowBefore (a b : InvoiceRow) : Prop :=
  a.id < b.id ∧
    (scopeSuffix a.date = scopeSuffix b.date →
      (serialOf a.invoiceNumber).lt (serialOf b.invoiceNumber))

/-- Invariant of the `Invoices` table. -/
structure StoreInv (t : Tables) : Prop where
  fmt : ∀ r ∈ t.invoices, ∃ n : Nat, 1 ≤ n ∧
    r.invoiceNumber = formatInvoiceNumber (.int n) r.date
  order : t.invoices.Pairwise RowBefore

/-- Stores reached from the empty store by `Invoice.create` calls, failed ones included. -/
inductive Reachable : Db → Prop where
  | empty : Reachable Db.empty
  | create (db : Db) (date : JSDate) (data : InvoiceData) :
      Reachable db → Reachable (Invoice.create db date data).2

/-- The invoices returned by the successful calls of a sequence of `Invoice.create` calls, in
creation order. -/
def createdInvoices : Db → List (JSDate × InvoiceData) → List InvoiceRecord
  | _, [] => []
  | db, (date, data) :: rest =>
    match Invoice.create db date data with
    | (.ok res, db1) => res.invoice :: createdInvoices db1 rest
    | (.error _, db1) => createdInvoices db1 rest

/-- Number of the calendar month of a date, counted from year 0. -/
def monthIndex (date : JSDate) : Int := date.year * 12 + date.month.val

/-! ## Scenario data -/

/-- A creation date in March 2024. -/
def march2024 : JSDate := { year := 2024, month := 2, msInMonth := 0 }

/-- A creation date in April 2024. -/
def april2024 : JSDate := { year := 2024, month := 3, msInMonth := 0 }

/-- A creation date in March 2124. -/
def march2124 : JSDate := { year := 2124, month := 2, msInMonth := 0 }

/-- An item that carries its product reference in `id`. -/
def itemWithId : Item :=
  { id := .num 3, productId := .undefined, quantity := .num 2, rate := .num 50,
    total := .num 100 }

/-- The item `{productId: 3, quantity: 2, rate: 50, total: 100}` of the documented shape. -/
def itemDocumented : Item :=
  { id := .undefined, productId := .num 3, quantity := .num 2, rate := .num 50,
    total := .num 100 }

/-- A request whose item carries `id`. -/
def requestWithId : InvoiceData :=
  { customerId := .num 7, total := .num 100, items := some [itemWithId] }

/-- The request `customerId=7, items=[{productId:3, quantity:2, rate:50, total:100}],
total=100`. -/
def requestDocumented : InvoiceData :=
  { customerId := .num 7, total := .num 100, items := some [itemDocumented] }

/-- A store holding `013/03/24`, `001/04/24` and `014/03/24`, in this order. -/
def sampleTables : Tables :=
  { products := [], customers := [],
    invoices :=
      [{ id := 1, invoiceNumber := "013/03/24".toList, date := march2024, total := .num 10,
         CustomerId := .num 7 },
       { id := 2, invoiceNumber := "001/04/24".toList, date := april2024, total := .num 20,
         CustomerId := .num 7 },
       { id := 3, invoiceNumber := "014/03/24".toList, date := march2024, total := .num 30,
         CustomerId := .num 7 }],
    invoiceItems := [], invoiceSeq := 3, invoiceItemSeq := 0, productSeq := 0,
    customerSeq := 0 }

/-- The row of the first invoice of March 2024. -/
def marchRow : InvoiceRow :=
  { id := 1, invoiceNumber := "001/03/24".toList, date := march2024, total := .num 100,
    CustomerId := .num 7 }

/-- The value returned for the first invoice of April 2024, created after `marchRow`. -/
def aprilResult : CreateResult :=
  { success := true,
    invoice := { id := 2, invoiceNumber := "001/04/24".toList, date := april2024,
                 total := .num 100, items := [itemWithId] } }

/-- A request whose second item has the documented shape, without `id`. -/
def requestSecondItemFails : InvoiceData :=
  { customerId := .num 7, total := .num 200, items := some [itemWithId, itemDocumented] }

/-- A request whose total (999) is not the sum of its line totals (100). -/
def requestMismatch : InvoiceData :=
  { customerId := .num 7, total := .num 999, items := some [itemWithId] }

/-- The value returned for `requestWithId` on the empty store in March 2024. -/
def marchResult : CreateResult :=
  { success := true,
    invoice := { id := 1, invoiceNumber := "001/03/24".toList, date := march2024,
                 total := .num 100, items := [itemWithId] } }

/-- The value returned for `requestMismatch` on the empty store in March 2024. -/
def mismatchResult : CreateResult :=
  { success := true,
    invoice := { id := 1, invoiceNumber := "001/03/24".toList, date := march2024,
                 total := .num 999, items := [itemWithId] } }

/-! ## Listing invoices and the analytics report -/

/-- Order of two Date objects as instants, `a >= b`. -/
def JSDate.ge (a b : JSDate) : Bool :=
  decide (monthIndex b < monthIndex a) ||
    (decide (monthIndex a = monthIndex b) && decide (b.msInMonth ≤ a.msInMonth))

/-- Order of two Date objects as instants, `a < b`. -/
def JSDate.lt (a b : JSDate) : Bool := !(a.ge b)

/-- `new Date(year, month, 1)`: a year argument from 0 to 99 stands for 1900 + year, and a
month outside 0 to 11 carries into the year. -/
def newDate (year month : Int) : JSDate :=
  { year := (if 0 ≤ year ∧ year ≤ 99 then 1900 + year else year) + month / 12,
    month := ⟨(month % 12).toNat, by omega⟩,
    msInMonth := 0 }

/-- Byte order of two texts (SQLite's `BINARY` collation), `a <= b`. -/
def textLe : JSString → JSString → Bool
  | [], _ => true
  | _ :: _, [] => false
  | a :: as, b :: bs => decide (a.toNat < b.toNat) || (decide (a = b) && textLe as bs)

/-- Sort order of `ORDER BY ... ASC` on column values: NULL first (a NaN is held as NULL),
then numbers in numeric order, then text. -/
def sqlLe : JSVal → JSVal → Bool
  | .undefined, _ => true
  | .null, _ => true
  | .num _, .undefined => false
  | .num _, .null => false
  | .num a, .num b => decide (a ≤ b)
  | .num a, .real y => F64.le (.fin a 0) y
  | .num _, .str _ => true
  | .real x, .undefined => decide (x = .nan)
  | .real x, .null => decide (x = .nan)
  | .real x, .num b => decide (x = .nan) || x.le (.fin b 0)
  | .real x, .real y => decide (x = .nan) || x.le y
  | .real _, .str _ => true
  | .str a, .str b => textLe a b
  | .str _, _ => false

/-- `Product.findAll()`: `SELECT * FROM Products ORDER BY name ASC`. -/
def Product.findAll (db : Db) : List ProductRow :=
  db.tables.products.insertionSort (fun a b => sqlLe a.name b.name = true)

/-- `Customer.findAll()`: `SELECT * FROM Customers ORDER BY name ASC`; `createdAt` of a
returned object is read through `new Date(cust.createdAt)`. -/
def Customer.findAll (db : Db) : List CustomerRow :=
  db.tables.customers.insertionSort (fun a b => sqlLe a.name b.name = true)

/-- The join conditions `i.CustomerId = c.id` and `ii.ProductId = p.id`: a stored reference
equals an integer key only when it is that integer. -/
def sqlEqKey (ref : JSVal) (id : Nat) : Bool := decide (ref = JSVal.num (id : Int))

/-- The `customerDetails` object of a listed invoice. -/
structure CustomerDetails where
  name : JSVal
  mobile : JSVal
  address : JSVal
  deriving DecidableEq, Repr

/-- An element of the `items` array of a listed invoice: `id` is column 0 of the
`InvoiceItems` row, `name` the joined product name. -/
structure InvoiceItemView where
  id : Nat
  quantity : JSVal
  rate : JSVal
  total : JSVal
  name : JSVal
  deriving DecidableEq, Repr

/-- An element of the array returned by `Invoice.findAll`. -/
structure InvoiceView where
  id : Nat
  invoiceNumber : JSString
  date : JSDate
  total : JSVal
  CustomerId : JSVal
  customerDetails : CustomerDetails
  items : List InvoiceItemView
  deriving DecidableEq, Repr

/-- Property access `item[key]` on an element of `items`. -/
def InvoiceItemView.get (item : InvoiceItemView) (key : String) : JSVal :=
  if key = "id" then .num item.id
  else if key = "quantity" then item.quantity
  else if key = "rate" then item.rate
  else if key = "total" then item.total
  else if key = "name" then item.name
  else .undefined

/-- The rows `Invoices i LEFT JOIN Customers c ON i.CustomerId = c.id` yields for one invoice
row: one per matching customer, or one with NULL customer columns. -/
def leftJoinCustomers (customers : List CustomerRow) (i : InvoiceRow) :
    List (InvoiceRow × CustomerDetails) :=
  if (customers.filter (fun c => sqlEqKey i.CustomerId c.id)).isEmpty then
    [(i, { name := .null, mobile := .null, address := .null })]
  else
    (customers.filter (fun c => sqlEqKey i.CustomerId c.id)).map
      (fun c => (i, { name := c.name, mobile := c.mobile, address := c.address }))

/-- The rows `InvoiceItems ii LEFT JOIN Products p ON ii.ProductId = p.id` yields for one
line item row, with the joined `productName`. -/
def leftJoinProducts (products : List ProductRow) (ii : InvoiceItemRow) :
    List (InvoiceItemRow × JSVal) :=
  if (products.filter (fun p => sqlEqKey ii.ProductId p.id)).isEmpty then
    [(ii, .null)]
  else
    (products.filter (fun p => sqlEqKey ii.ProductId p.id)).map (fun p => (ii, p.name))

/-- `db.exec(itemsQuery, [invoice.id])` mapped to the `items` array. -/
def itemsQuery (t : Tables) (invoiceId : Nat) : List InvoiceItemView :=
  ((t.invoiceItems.filter (fun ii => ii.InvoiceId = invoiceId)).flatMap
      (leftJoinProducts t.products)).map
    (fun row => { id := row.1.id, quantity := row.1.quantity, rate := row.1.rate,
                  total := row.1.total, name := row.2 })

/-- `Invoice.findAll()`: the joined invoice rows `ORDER BY i.date DESC`, each with its
items. -/
def Invoice.findAll (db : Db) : List InvoiceView :=
  ((db.tables.invoices.flatMap (leftJoinCustomers db.tables.customers)).insertionSort
      (fun a b => a.1.date.ge b.1.date = true)).map
    (fun row => { id := row.1.id, invoiceNumber := row.1.invoiceNumber, date := row.1.date,
                  total := row.1.total, CustomerId := row.1.CustomerId,
                  customerDetails := row.2, items := itemsQuery db.tables row.1.id })

/-- `parseFloat(v)`: the argument is first turned into a string; the string of a Number reads
back as that Number, the negative zero as the positive one. -/
def parseFloat : JSVal → F64
  | .undefined => .nan
  | .null => .nan
  | .num n => F64.ofInt n
  | .real x => if x = .negZero then .fin 0 0 else x
  | .str s => parseFloatText s

/-- `invoices.reduce((sum, inv) => sum + parseFloat(inv.total), 0)`. -/
def sumTotals (invoices : List InvoiceView) : F64 :=
  invoices.foldl (fun sum inv => sum.add (parseFloat inv.total)) (.fin 0 0)

/-- An element of `monthlyRevenue`. -/
structure MonthRevenue where
  month : JSString
  revenue : F64
  deriving DecidableEq, Repr

/-- The report object built by `analytics:get` and by `GET /api/analytics`. -/
structure AnalyticsReport where
  currentMonthRevenue : F64
  lastMonthRevenue : F64
  currentYearRevenue : F64
  lastYearRevenue : F64
  totalCustomers : Nat
  newCustomersThisMonth : Nat
  totalProducts : Nat
  monthlyRevenue : List MonthRevenue
  deriving DecidableEq, Repr

/-- The property names of the object literal behind an `AnalyticsReport`. -/
def AnalyticsReport.keys (_ : AnalyticsReport) : List String :=
  ["currentMonthRevenue", "lastMonthRevenue", "currentYearRevenue", "lastYearRevenue",
   "totalCustomers", "newCustomersThisMonth", "totalProducts", "monthlyRevenue"]

/-- The handler of `analytics:get` in `main.js`, run at the instant `now`; `monthName` is
`month.toLocaleString` with the option `month: 'short'`, as a function of the month. -/
def analyticsGet (monthName : Fin 12 → JSString) (db : Db) (now : JSDate) : AnalyticsReport :=
  let currentYear := now.year
  let currentMonth : Int := now.month.val
  let invoices := Invoice.findAll db
  let startOfCurrentMonth := newDate currentYear currentMonth
  let startOfLastMonth := newDate currentYear (currentMonth - 1)
  let startOfCurrentYear := newDate currentYear 0
  let startOfLastYear := newDate (currentYear - 1) 0
  let currentMonthRevenue :=
    sumTotals (invoices.filter (fun inv => inv.date.ge startOfCurrentMonth))
  let lastMonthRevenue :=
    sumTotals (invoices.filter
      (fun inv => inv.date.ge startOfLastMonth && inv.date.lt startOfCurrentMonth))
  let currentYearRevenue :=
    sumTotals (invoices.filter (fun inv => inv.date.ge startOfCurrentYear))
  let lastYearRevenue :=
    sumTotals (invoices.filter
      (fun inv => inv.date.ge startOfLastYear && inv.date.lt startOfCurrentYear))
  let customers := Customer.findAll db
  let totalCustomers := customers.length
  let newCustomersThisMonth :=
    (customers.filter (fun cust => cust.createdAt.ge startOfCurrentMonth)).length
  let products := Product.findAll db
  let totalProducts := products.length
  let monthlyRevenue :=
    ((List.range 12).map (fun (i : Nat) =>
      let month := newDate currentYear (currentMonth - (i : Int))
      let monthRevenue :=
        sumTotals (invoices.filter (fun inv =>
          decide (inv.date.month = month.month) && decide (inv.date.year = month.year)))
      ({ month := monthName month.month, revenue := monthRevenue } : MonthRevenue))).reverse
  { currentMonthRevenue := currentMonthRevenue, lastMonthRevenue := lastMonthRevenue,
    currentYearRevenue := currentYearRevenue, lastYearRevenue := lastYearRevenue,
    totalCustomers := totalCustomers, newCustomersThisMonth := newCustomersThisMonth,
    totalProducts := totalProducts, monthlyRevenue := monthlyRevenue }

/-- The handler of `GET /api/analytics` in `server.js`, run at the instant `now`. -/
def apiAnalytics (monthName : Fin 12 → JSString) (db : Db) (now : JSDate) : AnalyticsReport :=
  let currentYear := now.year
  let currentMonth : Int := now.month.val
  let invoices := Invoice.findAll db
  let customers := Customer.findAll db
  let products := Product.findAll db
  let startOfCurrentMonth := newDate currentYear currentMonth
  let startOfLastMonth := newDate currentYear (currentMonth - 1)
  let startOfCurrentYear := newDate currentYear 0
  let startOfLastYear := newDate (currentYear - 1) 0
  let currentMonthRevenue :=
    sumTotals (invoices.filter (fun inv => inv.date.ge startOfCurrentMonth))
  let lastMonthRevenue :=
    sumTotals (invoices.filter
      (fun inv => inv.date.ge startOfLastMonth && inv.date.lt startOfCurrentMonth))
  let currentYearRevenue :=
    sumTotals (invoices.filter (fun inv => inv.date.ge startOfCurrentYear))
  let lastYearRevenue :=
    sumTotals (invoices.filter
      (fun inv => inv.date.ge startOfLastYear && inv.date.lt startOfCurrentYear))
  let totalCustomers := customers.length
  let newCustomersThisMonth :=
    (customers.filter (fun cust => cust.createdAt.ge startOfCurrentMonth)).length
  let totalProducts := products.length
  let monthlyRevenue :=
    ((List.range 12).map (fun (i : Nat) =>
      let month := newDate currentYear (currentMonth - (i : Int))
      let monthRevenue :=
        sumTotals (invoices.filter (fun inv =>
          decide (inv.date.month = month.month) && decide (inv.date.year = month.year)))
      ({ month := monthName month.month, revenue := monthRevenue } : MonthRevenue))).reverse
  { currentMonthRevenue := currentMonthRevenue, lastMonthRevenue := lastMonthRevenue,
    currentYearRevenue := currentYearRevenue, lastYearRevenue := lastYearRevenue,
    totalCustomers := totalCustomers, newCustomersThisMonth := newCustomersThisMonth,
    totalProducts := totalProducts, monthlyRevenue := monthlyRevenue }

/-- A value of the accumulator of `reduce((sum, inv) => sum + inv.total, 0)`: a Number, or a
string once a text total was appended. -/
inductive JSSum where
  | num (x : F64)
  | str (s : JSString)
  deriving DecidableEq, Repr

/-- The JS operator `sum + v` for an accumulator and a column value: Number addition when
both are Numbers (`null` counts as 0, `undefined` as NaN), concatenation of the strings of the
two once either is a string. -/
def jsPlus : JSSum → JSVal → JSSum
  | .num x, .num n => .num (x.add (F64.ofInt n))
  | .num x, .real y => .num (x.add y)
  | .num x, .null => .num (x.add (.fin 0 0))
  | .num _, .undefined => .num .nan
  | .num x, .str s => .str (x.toJSString ++ s)
  | .str t, .num n => .str (t ++ intToString n)
  | .str t, .real y => .str (t ++ y.toJSString)
  | .str t, .str s => .str (t ++ s)
  | .str t, .null => .str (t ++ ['n', 'u', 'l', 'l'])
  | .str t, .undefined => .str (t ++ ['u', 'n', 'd', 'e', 'f', 'i', 'n', 'e', 'd'])

/-- `invoices.reduce((sum, inv) => sum + inv.total, 0)`. -/
def sumRaw (invoices : List InvoiceView) : JSSum :=
  invoices.foldl (fun sum inv => jsPlus sum inv.total) (.num (.fin 0 0))

/-- An element of `monthlyRevenue` in the report of `routes/invoices.js`. -/
structure RouterMonthRevenue where
  month : JSString
  revenue : JSSum
  deriving DecidableEq, Repr

/-- The report object built by the `/analytics` route of `routes/invoices.js`. -/
structure RouterAnalyticsReport where
  currentMonthRevenue : JSSum
  lastMonthRevenue : JSSum
  currentYearRevenue : JSSum
  lastYearRevenue : JSSum
  monthlyRevenue : List RouterMonthRevenue
  deriving DecidableEq, Repr

/-- The property names of the object literal behind a `RouterAnalyticsReport`. -/
def RouterAnalyticsReport.keys (_ : RouterAnalyticsReport) : List String :=
  ["currentMonthRevenue", "lastMonthRevenue", "currentYearRevenue", "lastYearRevenue",
   "monthlyRevenue"]

/-- The handler of `router.get('/analytics')` in `routes/invoices.js`, run at the instant
`now`. -/
def routerAnalytics (monthName : Fin 12 → JSString) (db : Db) (now : JSDate) :
    RouterAnalyticsReport :=
  let currentYear := now.year
  let currentMonth : Int := now.month.val
  let invoices := Invoice.findAll db
  let startOfCurrentMonth := newDate currentYear currentMonth
  let startOfLastMonth := newDate currentYear (currentMonth - 1)
  let startOfCurrentYear := newDate currentYear 0
  let startOfLastYear := newDate (currentYear - 1) 0
  let currentMonthRevenue :=
    sumRaw (invoices.filter (fun inv => inv.date.ge startOfCurrentMonth))
  let lastMonthRevenue :=
    sumRaw (invoices.filter
      (fun inv => inv.date.ge startOfLastMonth && inv.date.lt startOfCurrentMonth))
  let currentYearRevenue :=
    sumRaw (invoices.filter (fun inv => inv.date.ge startOfCurrentYear))
  let lastYearRevenue :=
    sumRaw (invoices.filter
      (fun inv => inv.date.ge startOfLastYear && inv.date.lt startOfCurrentYear))
  let monthlyRevenue :=
    ((List.range 12).map (fun (i : Nat) =>
      let month := newDate currentYear (currentMonth - (i : Int))
      let monthRevenue :=
        sumRaw (invoices.filter (fun inv =>
          decide (inv.date.month = month.month) && decide (inv.date.year = month.year)))
      ({ month := monthName month.month, revenue := monthRevenue } :
        RouterMonthRevenue))).reverse
  { currentMonthRevenue := currentMonthRevenue, lastMonthRevenue := lastMonthRevenue,
    currentYearRevenue := currentYearRevenue, lastYearRevenue := lastYearRevenue,
    monthlyRevenue := monthlyRevenue }

/-- English short month names, one possible `monthName`. -/
def shortMonthName (m : Fin 12) : JSString :=
  (["Jan", "Feb", "Mar", "Apr", "May", "Jun", "Jul", "Aug", "Sep", "Oct", "Nov",
    "Dec"].getD m.val "").toList

/-- The customer columns joined to an invoice row when customer keys are unique. -/
def customerDetailsOf (customers : List CustomerRow) (i : InvoiceRow) : CustomerDetails :=
  match customers.filter (fun c => sqlEqKey i.CustomerId c.id) with
  | [] => { name := .null, mobile := .null, address := .null }
  | c :: _ => { name := c.name, mobile := c.mobile, address := c.address }

/-- The product name joined to a line item row when product keys are unique. -/
def productNameOf (products : List ProductRow) (ii : InvoiceItemRow) : JSVal :=
  match products.filter (fun p => sqlEqKey ii.ProductId p.id) with
  | [] => .null
  | p :: _ => p.name

/-- The invoice rows in the order in which `ORDER BY i.date DESC` lists them: later dates
first, rows of one date in table order. -/
def listedRows (rows : List InvoiceRow) : List InvoiceRow :=
  rows.insertionSort (fun a b => a.date.ge b.date = true)

/-- The accumulation `reduce((sum, r) => sum + parseFloat(r.total), init)` along a list of
invoice rows. -/
def accumulate (rows : List InvoiceRow) (init : F64) : F64 :=
  rows.foldl (fun sum r => sum.add (parseFloat r.total)) init

/-- The revenue of a window of dates: the accumulation from 0, in listing order, of
`parseFloat(total)` over the invoice rows whose date lies in the window. -/
def revenueOver (rows : List InvoiceRow) (window : JSDate → Bool) : F64 :=
  accumulate ((listedRows rows).filter (fun r => window r.date)) (.fin 0 0)

/-- A total that is a Number and a natural number. -/
def JSVal.isNatNumber : JSVal → Bool
  | .num n => decide (0 ≤ n)
  | _ => false

/-- The total of a row as a natural number (0 when it is not one). -/
def natTotal (r : InvoiceRow) : Nat :=
  match r.total with
  | .num n => n.toNat
  | _ => 0

/-- Every call of the sequence succeeds. -/
def AllSucceed : Db → List (JSDate × InvoiceData) → Prop
  | _, [] => True
  | db, (date, data) :: rest =>
    (∃ res, (Invoice.create db date data).1 = .ok res) ∧
      AllSucceed (Invoice.create db date data).2 rest

/-- Invariant of the connection between calls: no transaction is open and every line item
row belongs to a stored invoice. -/
structure LedgerInv (db : Db) : Prop where
  txn : db.txn = none
  owned : ∀ row ∈ db.tables.invoiceItems, ∃ r ∈ db.tables.invoices, r.id = row.InvoiceId

/-- A creation date in February 2024. -/
def february2024 : JSDate := { year := 2024, month := 1, msInMonth := 0 }

/-- An instant in March 2024, ten days into the month. -/
def midMarch2024 : JSDate := { year := 2024, month := 2, msInMonth := 864000000 }

/-- A store with customer 7 (created in March 2024), customer 8 (created in February 2024),
product 3 and no invoice. -/
def shopDb : Db :=
  { tables :=
      { products := [{ id := 3, name := .str "Pen".toList, rate := .num 50 }],
        customers :=
          [{ id := 7, name := .str "Asha".toList, mobile := .str "900".toList,
             address := .str "Pune".toList, createdAt := march2024 },
           { id := 8, name := .str "Ravi".toList, mobile := .str "901".toList,
             address := .str "Goa".toList, createdAt := february2024 }],
        invoices := [], invoiceItems := [], invoiceSeq := 0, invoiceItemSeq := 0,
        productSeq := 3, customerSeq := 8 },
    txn := none, lastInsertRowid := 0 }

/-- An item that carries the product reference 3 both in `id` and in `productId`. -/
def itemBoth : Item :=
  { id := .num 3, productId := .num 3, quantity := .num 2, rate := .num 50,
    total := .num 100 }

/-- A request with `itemBoth` as its only item. -/
def requestBoth : InvoiceData :=
  { customerId := .num 7, total := .num 100, items := some [itemBoth] }

/-- The first instant of the calendar month of `now`. -/
def startOfMonth (now : JSDate) : JSDate :=
  { year := now.year, month := now.month, msInMonth := 0 }

/-- The first instant of the calendar month before the month of `now`: the previous month of
January is December of the preceding year. -/
def startOfPreviousMonth (now : JSDate) : JSDate :=
  if h : now.month.val = 0 then { year := now.year - 1, month := 11, msInMonth := 0 }
  else { year := now.year, month := ⟨now.month.val - 1, by omega⟩, msInMonth := 0 }

/-- The first instant of the calendar year of `now`. -/
def startOfYear (now : JSDate) : JSDate :=
  { year := now.year, month := 0, msInMonth := 0 }

/-- The first instant of the calendar year before the year of `now`. -/
def startOfPreviousYear (now : JSDate) : JSDate :=
  { year := now.year - 1, month := 0, msInMonth := 0 }

/-- The first instant of the calendar month with the given number (see `monthIndex`). -/
def monthOfIndex (idx : Int) : JSDate :=
  { year := idx / 12, month := ⟨(idx % 12).toNat, by omega⟩, msInMonth := 0 }

/-- An instant in January 2025. -/
def january2025 : JSDate := { year := 2025, month := 0, msInMonth := 1000 }

/-- An instant in December 2024. -/
def december2024 : JSDate := { year := 2024, month := 11, msInMonth := 7000 }

/-- The shop store with invoices of 50 (February 2024), 100 (first instant of March 2024) and
200 (later in March 2024). -/
def ledgerDb : Db :=
  { shopDb with
    tables :=
      { shopDb.tables with
        invoices :=
          [{ id := 1, invoiceNumber := "001/02/24".toList, date := february2024,
             total := .num 50, CustomerId := .num 7 },
           { id := 2, invoiceNumber := "001/03/24".toList, date := march2024,
             total := .num 100, CustomerId := .num 7 },
           { id := 3, invoiceNumber := "002/03/24".toList,
             date := { year := 2024, month := 2, msInMonth := 5000 },
             total := .num 200, CustomerId := .num 8 }],
        invoiceSeq := 3 } }

/-- The ledger store with two more invoices, of 70 (April 2024) and 40 (January 2025), and a
customer created in April 2024. -/
def futureDb : Db :=
  { ledgerDb with
    tables :=
      { ledgerDb.tables with
        customers := ledgerDb.tables.customers ++
          [{ id := 9, name := .str "Zoya".toList, mobile := .str "902".toList,
             address := .str "Agra".toList, createdAt := april2024 }],
        invoices := ledgerDb.tables.invoices ++
          [{ id := 4, invoiceNumber := "001/04/24".toList, date := april2024,
             total := .num 70, CustomerId := .num 7 },
           { id := 5, invoiceNumber := "001/01/25".toList, date := january2025,
             total := .num 40, CustomerId := .num 8 }],
        invoiceSeq := 5 } }

/-- The shop store with one invoice of 40 dated December 2024. -/
def decemberDb : Db :=
  { shopDb with
    tables :=
      { shopDb.tables with
        invoices :=
          [{ id := 1, invoiceNumber := "001/12/24".toList, date := december2024,
             total := .num 40, CustomerId := .num 7 }],
        invoiceSeq := 1 } }

/-- The entry of `monthlyRevenue` for the calendar month that starts at `month`: its label and
the sum over the listed invoices of exactly that month and year. -/
def monthEntry (monthName : Fin 12 → JSString) (db : Db) (month : JSDate) : MonthRevenue :=
  { month := monthName month.month,
    revenue := sumTotals ((Invoice.findAll db).filter (fun inv =>
      decide (inv.date.month = month.month) && decide (inv.date.year = month.year))) }

/-- A request without customer id. -/
def requestNoCustomer : InvoiceData :=
  { customerId := .undefined, total := .num 100, items := some [itemWithId] }

/-- The Number written as a decimal literal. -/
def decimal (text : String) : F64 := parseFloatText text.toList

/-- The shop store with invoices of 0.1 and 0.2 (February 2024) and of 0.25 and 99.5 (March
2024), the totals being Numbers. -/
def fractionDb : Db :=
  { shopDb with
    tables :=
      { shopDb.tables with
        invoices :=
          [{ id := 1, invoiceNumber := "001/02/24".toList, date := february2024,
             total := .real (decimal "0.1"), CustomerId := .num 7 },
           { id := 2, invoiceNumber := "002/02/24".toList,
             date := { year := 2024, month := 1, msInMonth := 9000 },
             total := .real (decimal "0.2"), CustomerId := .num 7 },
           { id := 3, invoiceNumber := "001/03/24".toList, date := march2024,
             total := .real (decimal "0.25"), CustomerId := .num 7 },
           { id := 4, invoiceNumber := "002/03/24".toList,
             date := { year := 2024, month := 2, msInMonth := 5000 },
             total := .real (decimal "99.5"), CustomerId := .num 8 }],
        invoiceSeq := 4 } }

/-- The shop store with invoices of 0.1 and 0.1 (February 2024) and of 0.6 and 0.7 (March
2024), the totals being Numbers. -/
def roundingDb : Db :=
  { shopDb with
    tables :=
      { shopDb.tables with
        invoices :=
          [{ id := 1, invoiceNumber := "001/02/24".toList, date := february2024,
             total := .real (decimal "0.1"), CustomerId := .num 7 },
           { id := 2, invoiceNumber := "002/02/24".toList,
             date := { year := 2024, month := 1, msInMonth := 9000 },
             total := .real (decimal "0.1"), CustomerId := .num 7 },
           { id := 3, invoiceNumber := "001/03/24".toList, date := march2024,
             total := .real (decimal "0.6"), CustomerId := .num 7 },
           { id := 4, invoiceNumber := "002/03/24".toList,
             date := { year := 2024, month := 2, msInMonth := 5000 },
             total := .real (decimal "0.7"), CustomerId := .num 8 }],
        invoiceSeq := 4 } }

/-! ## Products, customers and their routes -/

/-- The argument `data` of `Product.create` and `Product.update`; a field the caller left out
is `undefined`. -/
structure ProductData where
  name : JSVal
  rate : JSVal
  deriving DecidableEq, Repr

/-- The argument `data` of `Customer.create` and `Customer.update`. -/
structure CustomerData where
  name : JSVal
  mobile : JSVal
  address : JSVal
  deriving DecidableEq, Repr

/-- The object returned by `Product.create`. -/
structure ProductRecord where
  id : Nat
  name : JSVal
  rate : JSVal
  deriving DecidableEq, Repr

/-- The object returned by `Customer.create`. -/
structure CustomerRecord where
  id : Nat
  name : JSVal
  mobile : JSVal
  address : JSVal
  deriving DecidableEq, Repr

/-- The rows `WHERE id = ?` selects when the parameter is a Number, which is what
`parseInt(req.params.id)` hands over: NaN is bound as NULL and selects no row. -/
def JSNum.selects (id : JSNum) (rowId : Nat) : Bool :=
  match id with
  | .nan => false
  | .int z => decide (z = (rowId : Int))

/-- The connection after a row was appended to `Products` under a fresh key. -/
def Db.appendProduct (db : Db) (name rate : JSVal) : Db :=
  let id := nextRowid db.tables.productSeq (db.tables.products.map (fun r => r.id))
  { db with
    tables := { db.tables with
                products := db.tables.products ++ [{ id := id, name := name, rate := rate }],
                productSeq := id },
    lastInsertRowid := id }

/-- `db.run('INSERT INTO Products (name, rate) VALUES (?, ?)', [name, rate])`: both columns are
`NOT NULL`, `name` is `UNIQUE`. A statement that fails changes nothing. -/
def Db.insertProduct (db : Db) (name rate : JSVal) : Except JSError Db :=
  match bindParams [name, rate] with
  | .error e => .error e
  | .ok _ =>
    match checkNotNull [name, rate] with
    | .error e => .error e
    | .ok _ =>
      if db.tables.products.any (fun r => r.name = name) then .error .uniqueConstraint
      else .ok (db.appendProduct name rate)

/-- `Product.create(data)`: the `catch` block logs and rethrows. -/
def Product.create (db : Db) (data : ProductData) : Except JSError ProductRecord × Db :=
  match db.insertProduct data.name data.rate with
  | .error e => (.error e, db)
  | .ok db1 =>
    (.ok { id := db1.lastInsertRowid, name := data.name, rate := data.rate }, db1)

/-- `db.run('UPDATE Products SET name = ?, rate = ?, updatedAt = CURRENT_TIMESTAMP WHERE id =
?', [name, rate, id])`: the constraints are checked on the row that is rewritten, so a
statement that selects no row succeeds and changes nothing. -/
def Db.updateProduct (db : Db) (id : JSNum) (name rate : JSVal) : Except JSError Db :=
  match bindParams [name, rate] with
  | .error e => .error e
  | .ok _ =>
    if db.tables.products.any (fun r => id.selects r.id) then
      match checkNotNull [name, rate] with
      | .error e => .error e
      | .ok _ =>
        if db.tables.products.any (fun r => !id.selects r.id && decide (r.name = name)) then
          .error .uniqueConstraint
        else
          .ok { db with
                tables := { db.tables with
                            products := db.tables.products.map (fun r =>
                              if id.selects r.id then { r with name := name, rate := rate }
                              else r) } }
    else .ok db

/-- `Product.update(id, data)`: returns `true` whenever the statement did not throw. -/
def Product.update (db : Db) (id : JSNum) (data : ProductData) : Except JSError Bool × Db :=
  match db.updateProduct id data.name data.rate with
  | .error e => (.error e, db)
  | .ok db1 => (.ok true, db1)

/-- `Product.destroy(id)`: `DELETE FROM Products WHERE id = ?`, then `return true`. -/
def Product.destroy (db : Db) (id : JSNum) : Except JSError Bool × Db :=
  (.ok true,
    { db with
      tables := { db.tables with
                  products := db.tables.products.filter (fun r => !id.selects r.id) } })

/-- `Product.findOne(id)`: the first row of `SELECT * FROM Products WHERE id = ? LIMIT 1`, or
`null`. -/
def Product.findOne (db : Db) (id : JSNum) : Option ProductRow :=
  (db.tables.products.filter (fun r => id.selects r.id)).head?

/-- The connection after a row was appended to `Customers` under a fresh key; `stamp` is the
Date read back from the `CURRENT_TIMESTAMP` default of `createdAt`. -/
def Db.appendCustomer (db : Db) (stamp : JSDate) (name mobile address : JSVal) : Db :=
  let id := nextRowid db.tables.customerSeq (db.tables.customers.map (fun r => r.id))
  { db with
    tables := { db.tables with
                customers := db.tables.customers ++
                  [{ id := id, name := name, mobile := mobile, address := address,
                     createdAt := stamp }],
                customerSeq := id },
    lastInsertRowid := id }

/-- `db.run('INSERT INTO Customers (name, mobile, address) VALUES (?, ?, ?)', [name, mobile,
address])`: the three columns are `NOT NULL`, `mobile` is `UNIQUE`. -/
def Db.insertCustomer (db : Db) (stamp : JSDate) (name mobile address : JSVal) :
    Except JSError Db :=
  match bindParams [name, mobile, address] with
  | .error e => .error e
  | .ok _ =>
    match checkNotNull [name, mobile, address] with
    | .error e => .error e
    | .ok _ =>
      if db.tables.customers.any (fun r => r.mobile = mobile) then .error .uniqueConstraint
      else .ok (db.appendCustomer stamp name mobile address)

/-- `Customer.create(data)` run when `CURRENT_TIMESTAMP` reads back as `stamp`. -/
def Customer.create (db : Db) (stamp : JSDate) (data : CustomerData) :
    Except JSError CustomerRecord × Db :=
  match db.insertCustomer stamp data.name data.mobile data.address with
  | .error e => (.error e, db)
  | .ok db1 =>
    (.ok { id := db1.lastInsertRowid, name := data.name, mobile := data.mobile,
           address := data.address }, db1)

/-- `db.run('UPDATE Customers SET name = ?, mobile = ?, address = ?, updatedAt =
CURRENT_TIMESTAMP WHERE id = ?', [name, mobile, address, id])`. -/
def Db.updateCustomer (db : Db) (id : JSNum) (name mobile address : JSVal) :
    Except JSError Db :=
  match bindParams [name, mobile, address] with
  | .error e => .error e
  | .ok _ =>
    if db.tables.customers.any (fun r => id.selects r.id) then
      match checkNotNull [name, mobile, address] with
      | .error e => .error e
      | .ok _ =>
        if db.tables.customers.any (fun r => !id.selects r.id && decide (r.mobile = mobile)) then
          .error .uniqueConstraint
        else
          .ok { db with
                tables := { db.tables with
                            customers := db.tables.customers.map (fun r =>
                              if id.selects r.id then
                                { r with name := name, mobile := mobile, address := address }
                              else r) } }
    else .ok db

/-- `Customer.update(id, data)`: returns `true` whenever the statement did not throw. -/
def Customer.update (db : Db) (id : JSNum) (data : CustomerData) : Except JSError Bool × Db :=
  match db.updateCustomer id data.name data.mobile data.address with
  | .error e => (.error e, db)
  | .ok db1 => (.ok true, db1)

/-- `Customer.destroy(id)`: `DELETE FROM Customers WHERE id = ?`, then `return true`. -/
def Customer.destroy (db : Db) (id : JSNum) : Except JSError Bool × Db :=
  (.ok true,
    { db with
      tables := { db.tables with
                  customers := db.tables.customers.filter (fun r => !id.selects r.id) } })

/-- `Customer.findOne(id)`: the first row of `SELECT * FROM Customers WHERE id = ? LIMIT 1`,
or `null`. -/
def Customer.findOne (db : Db) (id : JSNum) : Option CustomerRow :=
  (db.tables.customers.filter (fun r => id.selects r.id)).head?

/-- The `error` field of an error body: a text written in the handler, or the message of the
exception it caught. -/
inductive ErrorText where
  | literal (text : String)
  | ofException (e : JSError)
  deriving DecidableEq, Repr

/-- What a route handler sends: `res.json(body)`, or `res.status(code).json` of an object with
an `error` field. -/
inductive Reply (α : Type) where
  | json (body : α)
  | failure (code : Nat) (error : ErrorText)
  deriving DecidableEq, Repr

/-- The HTTP status of a reply: 200 unless `res.status` was called. -/
def Reply.status {α : Type} : Reply α → Nat
  | .json _ => 200
  | .failure code _ => code

/-- The handler of `PUT /api/products/:id` in `server.js` (the same text is the `router.put`
of `routes/products.js`); the body of a successful reply is the product, or `null`. -/
def putProduct (db : Db) (idParam : JSString) (body : ProductData) :
    Reply (Option ProductRow) × Db :=
  match Product.update db (parseInt idParam) body with
  | (.error e, db1) => (.failure 500 (.ofException e), db1)
  | (.ok updated, db1) =>
    if updated then (.json (Product.findOne db1 (parseInt idParam)), db1)
    else (.failure 404 (.literal "Product not found"), db1)

/-- The handler of `DELETE /api/products/:id` in `server.js`; the body of a successful reply
is the `success` flag. -/
def deleteProduct (db : Db) (idParam : JSString) : Reply Bool × Db :=
  match Product.destroy db (parseInt idParam) with
  | (.error e, db1) => (.failure 500 (.ofException e), db1)
  | (.ok success, db1) => (.json success, db1)

/-- The handler `router.put('/:id')` of `routes/customers.js` (the same text is `PUT
/api/customers/:id` of `server.js`). -/
def putCustomer (db : Db) (idParam : JSString) (body : CustomerData) :
    Reply (Option CustomerRow) × Db :=
  match Customer.update db (parseInt idParam) body with
  | (.error e, db1) => (.failure 500 (.ofException e), db1)
  | (.ok updated, db1) =>
    if updated then (.json (Customer.findOne db1 (parseInt idParam)), db1)
    else (.failure 404 (.literal "Customer not found"), db1)

/-- The handler `router.delete('/:id')` of `routes/customers.js`. -/
def deleteCustomer (db : Db) (idParam : JSString) : Reply Bool × Db :=
  match Customer.destroy db (parseInt idParam) with
  | (.error e, db1) => (.failure 500 (.ofException e), db1)
  | (.ok success, db1) => (.json success, db1)

/-- A call of one of the operations the store models expose. -/
inductive StoreOp where
  | productCreate (data : ProductData)
  | productUpdate (id : JSNum) (data : ProductData)
  | productDestroy (id : JSNum)
  | customerCreate (stamp : JSDate) (data : CustomerData)
  | customerUpdate (id : JSNum) (data : CustomerData)
  | customerDestroy (id : JSNum)
  | invoiceCreate (date : JSDate) (data : InvoiceData)
  | invoiceFindAll
  deriving DecidableEq, Repr

/-- The store after a call, whether it returned or threw. -/
def StoreOp.run (db : Db) : StoreOp → Db
  | .productCreate data => (Product.create db data).2
  | .productUpdate id data => (Product.update db id data).2
  | .productDestroy id => (Product.destroy db id).2
  | .customerCreate stamp data => (Customer.create db stamp data).2
  | .customerUpdate id data => (Customer.update db id data).2
  | .customerDestroy id => (Customer.destroy db id).2
  | .invoiceCreate date data => (Invoice.create db date data).2
  | .invoiceFindAll => db

/-- The store after a sequence of calls. -/
def runOps : Db → List StoreOp → Db
  | db, [] => db
  | db, op :: rest => runOps (op.run db) rest

/-- A request for a second product named `Pen`. -/
def duplicateProduct : ProductData := { name := .str "Pen".toList, rate := .num 60 }

/-- A request for a second customer with the mobile `900`. -/
def duplicateCustomer : CustomerData :=
  { name := .str "Mira".toList, mobile := .str "900".toList, address := .str "Kochi".toList }

/-- A request body that renames a product to `Ink`. -/
def inkProduct : ProductData := { name := .str "Ink".toList, rate := .num 10 }

/-- A sequence of calls: delete product 3, delete customer 7, rewrite customer 8, an
`Invoice.create` that fails, one that succeeds, a product creation and a listing. -/
def sampleOps : List StoreOp :=
  [.productDestroy (.int 3), .customerDestroy (.int 7),
   .customerUpdate (.int 8) duplicateCustomer,
   .invoiceCreate april2024 requestDocumented, .invoiceCreate april2024 requestWithId,
   .productCreate inkProduct, .invoiceFindAll]

/-- The row of the invoice `999/03/24`. -/
def rolloverRow : InvoiceRow :=
  { id := 999, invoiceNumber := "999/03/24".toList, date := march2024, total := .num 100,
    CustomerId := .num 7 }

/-- The shop store whose only invoice is `999/03/24`. -/
def rolloverDb : Db :=
  { shopDb with
    tables := { shopDb.tables with invoices := [rolloverRow], invoiceSeq := 999 } }

/-- The shop store with two invoices of March 2024 whose totals are held as text: `200` on
the earlier one and `100` on the later one, which `Invoice.findAll` lists first. -/
def textDb : Db :=
  { shopDb with
    tables :=
      { shopDb.tables with
        invoices :=
          [{ id := 1, invoiceNumber := "001/03/24".toList, date := march2024,
             total := .str "200".toList, CustomerId := .num 7 },
           { id := 2, invoiceNumber := "002/03/24".toList,
             date := { year := 2024, month := 2, msInMonth := 5000 },
             total := .str "100".toList, CustomerId := .num 8 }],
        invoiceSeq := 2 } }

/-- The same store with the totals `200 Rs` and `100 Rs`, texts that are no numerals. -/
def labelledDb : Db :=
  { shopDb with
    tables :=
      { shopDb.tables with
        invoices :=
          [{ id := 1, invoiceNumber := "001/03/24".toList, date := march2024,
             total := .str "200 Rs".toList, CustomerId := .num 7 },
           { id := 2, invoiceNumber := "002/03/24".toList,
             date := { year := 2024, month := 2, msInMonth := 5000 },
             total := .str "100 Rs".toList, CustomerId := .num 8 }],
        invoiceSeq := 2 } }

/-! ## Decimal rendering and `parseInt` -/

theorem digitChar_toNat {d : Nat} (h : d < 10) : (Nat.digitChar d).toNat = 48 + d := by
  interval_cases d <;> rfl

theorem digitChar_isDecDigit {d : Nat} (h : d < 10) : IsDecDigit (Nat.digitChar d) := by
  unfold IsDecDigit
  rw [digitChar_toNat h]
  omega

theorem toDigitsCore_fuel (n : Nat) : ∀ (fuel : Nat) (acc : List Char), n < fuel →
    Nat.toDigitsCore 10 fuel n acc = Nat.toDigitsCore 10 (n + 1) n [] ++ acc := by
  induction n using Nat.strong_induction_on with
  | _ n ih =>
    intro fuel acc hf
    obtain ⟨f, rfl⟩ : ∃ f, fuel = f + 1 := ⟨fuel - 1, by omega⟩
    by_cases h : n / 10 = 0
    · simp [Nat.toDigitsCore, h]
    · have hlt : n / 10 < n := by omega
      have h1 := ih (n / 10) hlt f (Nat.digitChar (n % 10) :: acc) (by omega)
      have h2 := ih (n / 10) hlt n [Nat.digitChar (n % 10)] hlt
      simp only [Nat.toDigitsCore, h, if_false]
      rw [h1, h2]
      simp

theorem natToString_lt_ten {n : Nat} (h : n < 10) : natToString n = [Nat.digitChar n] := by
  have h0 : n / 10 = 0 := by omega
  have h1 : n % 10 = n := by omega
  simp [natToString, Nat.toDigits, Nat.toDigitsCore, h0, h1]

theorem natToString_ge_ten {n : Nat} (h : 10 ≤ n) :
    natToString n = natToString (n / 10) ++ [Nat.digitChar (n % 10)] := by
  have h0 : ¬ n / 10 = 0 := by omega
  have hlt : n / 10 < n := by omega
  have h2 := toDigitsCore_fuel (n / 10) n [Nat.digitChar (n % 10)] hlt
  simp only [natToString, Nat.toDigits, Nat.toDigitsCore, h0, if_false]
  exact h2

theorem natToString_digits (n : Nat) : ∀ c ∈ natToString n, IsDecDigit c := by
  induction n using Nat.strong_induction_on with
  | _ n ih =>
    intro c hc
    by_cases h : n < 10
    · rw [natToString_lt_ten h] at hc
      simp only [List.mem_singleton] at hc
      subst hc
      exact digitChar_isDecDigit h
    · rw [natToString_ge_ten (by omega)] at hc
      simp only [List.mem_append, List.mem_singleton] at hc
      rcases hc with hc | hc
      · exact ih (n / 10) (by omega) c hc
      · subst hc
        exact digitChar_isDecDigit (Nat.mod_lt _ (by decide))

theorem natToString_ne_nil (n : Nat) : natToString n ≠ [] := by
  by_cases h : n < 10
  · rw [natToString_lt_ten h]; simp
  · rw [natToString_ge_ten (by omega)]; simp

theorem digitValue_of_isDecDigit {c : Char} (h : IsDecDigit c) :
    digitValue 10 c = some (c.toNat - 48) := by
  unfold IsDecDigit at h
  simp [digitValue, h.1, h.2]

theorem digitPrefix_append_of_digits (s t : JSString) (hs : ∀ c ∈ s, IsDecDigit c) :
    digitPrefix 10 (s ++ t) = s.map (fun c => c.toNat - 48) ++ digitPrefix 10 t := by
  induction s with
  | nil => rfl
  | cons c cs ih =>
    have hc := digitValue_of_isDecDigit (hs c (List.mem_cons_self _ _))
    have ih1 := ih (fun x hx => hs x (List.mem_cons_of_mem _ hx))
    rw [List.cons_append, List.map_cons, List.cons_append]
    simp only [digitPrefix, hc]
    rw [ih1]

theorem digitsToNat_append_singleton (radix : Nat) (ds : List Nat) (d : Nat) :
    digitsToNat radix (ds ++ [d]) = digitsToNat radix ds * radix + d := by
  simp [digitsToNat, List.foldl_append]

theorem digitsToNat_replicate_zero (radix k : Nat) (ds : List Nat) :
    digitsToNat radix (List.replicate k 0 ++ ds) = digitsToNat radix ds := by
  unfold digitsToNat
  induction k with
  | zero => rfl
  | succ k ih => simpa [List.replicate_succ] using ih

/-- Reading back the decimal rendering of `n` gives `n`. -/
theorem digitsToNat_natToString (n : Nat) :
    digitsToNat 10 ((natToString n).map (fun c => c.toNat - 48)) = n := by
  induction n using Nat.strong_induction_on with
  | _ n ih =>
    by_cases h : n < 10
    · rw [natToString_lt_ten h]
      simp [digitsToNat, digitChar_toNat h]
    · rw [natToString_ge_ten (by omega), List.map_append, List.map_singleton,
        digitsToNat_append_singleton, ih (n / 10) (by omega),
        digitChar_toNat (Nat.mod_lt _ (by decide))]
      omega

theorem ne_of_isDecDigit {c k : Char} (h : IsDecDigit c) (hk : ¬ IsDecDigit k) : c ≠ k :=
  fun e => hk (e ▸ h)

theorem isJSWhiteSpace_of_isDecDigit {c : Char} (h : IsDecDigit c) :
    isJSWhiteSpace c = false := by
  unfold IsDecDigit at h
  simp only [isJSWhiteSpace, Bool.or_eq_false_iff, Bool.and_eq_false_iff, decide_eq_false_iff_not]
  omega

theorem isAsciiLetter_of_isDecDigit {c : Char} (h : IsDecDigit c) :
    isAsciiLetter c = false := by
  unfold IsDecDigit at h
  simp only [isAsciiLetter, Bool.or_eq_false_iff, Bool.and_eq_false_iff, decide_eq_false_iff_not]
  omega

/-- On a non-empty run of decimal digits `parseInt` returns its decimal value. -/
theorem parseInt_digits (s : JSString) (hne : s ≠ []) (hs : ∀ c ∈ s, IsDecDigit c) :
    parseInt s = .int (digitsToNat 10 (s.map (fun c => c.toNat - 48))) := by
  obtain ⟨c, cs, rfl⟩ := List.exists_cons_of_ne_nil hne
  have hc : IsDecDigit c := hs c (List.mem_cons_self _ _)
  have hw : (c :: cs).dropWhile isJSWhiteSpace = c :: cs := by
    simp [List.dropWhile, isJSWhiteSpace_of_isDecDigit hc]
  have hsign : stripSign (c :: cs) = (false, c :: cs) := by
    simp [stripSign, ne_of_isDecDigit hc (k := '-') (by decide),
      ne_of_isDecDigit hc (k := '+') (by decide)]
  have hradix : stripRadix (c :: cs) = (10, c :: cs) := by
    cases cs with
    | nil => rfl
    | cons d r =>
      have hd : IsDecDigit d := hs d (by simp)
      simp [stripRadix, ne_of_isDecDigit hd (k := 'x') (by decide),
        ne_of_isDecDigit hd (k := 'X') (by decide)]
  have hp := digitPrefix_append_of_digits (c :: cs) [] hs
  rw [List.append_nil] at hp
  simp only [parseInt, hw, hsign, hradix, hp]
  simp [digitPrefix]

theorem padStart_zero_digits (k : Nat) (s : JSString) (hs : ∀ c ∈ s, IsDecDigit c) :
    ∀ c ∈ padStart k '0' s, IsDecDigit c := by
  intro c hc
  simp only [padStart, List.mem_append, List.mem_replicate] at hc
  rcases hc with ⟨_, rfl⟩ | hc
  · decide
  · exact hs c hc

theorem padStart_ne_nil (k : Nat) (fill : Char) (s : JSString) (hs : s ≠ []) :
    padStart k fill s ≠ [] := by
  simp [padStart, hs]

/-- The zero-padded rendering of `n` parses back to `n`. -/
theorem parseInt_padStart_natToString (k n : Nat) :
    parseInt (padStart k '0' (natToString n)) = .int n := by
  rw [parseInt_digits _ (padStart_ne_nil _ _ _ (natToString_ne_nil n))
    (padStart_zero_digits k _ (natToString_digits n))]
  have h0 : (('0' : Char).toNat - 48) = 0 := by decide
  rw [padStart, List.map_append, List.map_replicate, h0, digitsToNat_replicate_zero,
    digitsToNat_natToString]

theorem splitHead_append_sep (sep : Char) (s rest : JSString) (hs : ∀ c ∈ s, c ≠ sep) :
    splitHead sep (s ++ sep :: rest) = s := by
  induction s with
  | nil => simp [splitHead, List.takeWhile]
  | cons c cs ih =>
    have hc : c ≠ sep := hs c (List.mem_cons_self _ _)
    have ih1 := ih (fun x hx => hs x (List.mem_cons_of_mem _ hx))
    have hb : (c != sep) = true := by simpa using hc
    unfold splitHead at ih1 ⊢
    rw [List.cons_append, List.takeWhile_cons_of_pos (p := fun x => x != sep) hb, ih1]

theorem intToString_natCast (n : Nat) : intToString (n : Int) = natToString n := by
  simp [intToString]

/-- The serial segment of a generated number, read back with `parseInt`. -/
theorem parseInt_splitHead_format (n : Nat) (date : JSDate) :
    parseInt (splitHead '/' (formatInvoiceNumber (.int n) date)) = .int n := by
  have hd := padStart_zero_digits 3 _ (natToString_digits n)
  have hs : ∀ c ∈ padStart 3 '0' (natToString n), c ≠ '/' :=
    fun c hc => ne_of_isDecDigit (hd c hc) (by decide)
  simp only [formatInvoiceNumber, JSNum.toJSString, intToString_natCast, scopeSuffix]
  rw [List.cons_append, splitHead_append_sep '/' _ _ hs, parseInt_padStart_natToString]

/-! ## The `LIKE` pattern of the scope -/

theorem IsNumChar.isPlain {c : Char} (h : IsNumChar c) : IsPlain c := by
  rcases h with h | rfl
  · exact ⟨ne_of_isDecDigit h (by decide), ne_of_isDecDigit h (by decide),
      isAsciiLetter_of_isDecDigit h⟩
  · exact ⟨by decide, by decide, by decide⟩

theorem IsNumChar.ne_slash {c : Char} (h : IsNumChar c) : c ≠ '/' := by
  rcases h with h | rfl
  · exact ne_of_isDecDigit h (by decide)
  · decide

theorem like_plain (p : JSString) (hp : ∀ c ∈ p, IsPlain c) :
    ∀ text : JSString, like p text = true ↔ text = p := by
  induction p with
  | nil => intro text; cases text <;> simp [like]
  | cons a ps ih =>
    intro text
    obtain ⟨h1, h2, h3⟩ := hp a (List.mem_cons_self _ _)
    have ih1 := ih (fun x hx => hp x (List.mem_cons_of_mem _ hx))
    cases text with
    | nil => simp [like, h1]
    | cons c cs =>
      simp only [like, h1, if_false, likeCharEq, h3, h2, Bool.false_and, Bool.or_false,
        decide_False, Bool.false_or, Bool.and_eq_true, decide_eq_true_eq, ih1 cs,
        List.cons.injEq]
      constructor
      · rintro ⟨rfl, rfl⟩; exact ⟨rfl, rfl⟩
      · rintro ⟨rfl, rfl⟩; exact ⟨rfl, rfl⟩

/-- With a literal tail `p`, the pattern `%p` selects the texts that end with `p`. -/
theorem like_percent_plain (p : JSString) (hp : ∀ c ∈ p, IsPlain c) (text : JSString) :
    like ('%' :: p) text = true ↔ p <:+ text := by
  simp only [like, if_true, List.any_eq_true, List.mem_tails]
  constructor
  · rintro ⟨t, ht, hl⟩
    rw [(like_plain p hp t).1 hl] at ht
    exact ht
  · intro h
    exact ⟨p, h, (like_plain p hp p).2 rfl⟩

theorem month_numChar (date : JSDate) : ∀ c ∈ month date, IsNumChar c :=
  fun c hc => Or.inl (padStart_zero_digits 2 _ (natToString_digits _) c hc)

theorem intToString_numChar (z : Int) : ∀ c ∈ intToString z, IsNumChar c := by
  intro c hc
  unfold intToString at hc
  split at hc
  · rcases List.mem_cons.1 hc with rfl | h
    · exact Or.inr rfl
    · exact Or.inl (natToString_digits _ c h)
  · exact Or.inl (natToString_digits _ c hc)

theorem year_numChar (date : JSDate) : ∀ c ∈ year date, IsNumChar c :=
  fun c hc => intToString_numChar _ c (List.mem_of_mem_drop hc)

theorem scopeSuffix_plain (date : JSDate) : ∀ c ∈ scopeSuffix date, IsPlain c := by
  intro c hc
  simp only [scopeSuffix, List.cons_append, List.mem_cons, List.mem_append] at hc
  rcases hc with rfl | hc | rfl | hc
  · exact ⟨by decide, by decide, by decide⟩
  · exact (month_numChar date c hc).isPlain
  · exact ⟨by decide, by decide, by decide⟩
  · exact (year_numChar date c hc).isPlain

theorem append_sep_inj (sep : Char) : ∀ (a a1 b b1 : JSString),
    (∀ c ∈ a, c ≠ sep) → (∀ c ∈ a1, c ≠ sep) → a ++ sep :: b = a1 ++ sep :: b1 →
    a = a1 ∧ b = b1 := by
  intro a
  induction a with
  | nil =>
    intro a1 b b1 _ h1 h
    cases a1 with
    | nil => simpa using h
    | cons x xs =>
      simp only [List.nil_append, List.cons_append, List.cons.injEq] at h
      exact absurd h.1.symm (h1 x (List.mem_cons_self _ _))
  | cons y ys ih =>
    intro a1 b b1 h0 h1 h
    cases a1 with
    | nil =>
      simp only [List.nil_append, List.cons_append, List.cons.injEq] at h
      exact absurd h.1 (h0 y (List.mem_cons_self _ _))
    | cons x xs =>
      simp only [List.cons_append, List.cons.injEq] at h
      obtain ⟨e1, e2⟩ := ih xs b b1 (fun c hc => h0 c (List.mem_cons_of_mem _ hc))
        (fun c hc => h1 c (List.mem_cons_of_mem _ hc)) h.2
      exact ⟨by rw [h.1, e1], e2⟩

theorem count_slash_scopeSuffix (date : JSDate) : (scopeSuffix date).count '/' = 2 := by
  have hm : (month date).count '/' = 0 :=
    List.count_eq_zero.2 (fun h => (month_numChar date _ h).ne_slash rfl)
  have hy : (year date).count '/' = 0 :=
    List.count_eq_zero.2 (fun h => (year_numChar date _ h).ne_slash rfl)
  simp [scopeSuffix, List.count_cons, List.count_append, hm, hy]

/-- A text `S/MM/YY` with a slash-free serial `S` ends with the suffix of a date exactly when
it carries that very suffix. -/
theorem scopeSuffix_suffix_iff (S : JSString) (hS : ∀ c ∈ S, c ≠ '/') (d d1 : JSDate) :
    scopeSuffix d1 <:+ S ++ scopeSuffix d ↔ scopeSuffix d1 = scopeSuffix d := by
  constructor
  · rintro ⟨X, hX⟩
    have hc := congrArg (List.count '/') hX
    rw [List.count_append, List.count_append, count_slash_scopeSuffix,
      count_slash_scopeSuffix, List.count_eq_zero.2 (fun h => hS _ h rfl)] at hc
    have hX0 : ∀ c ∈ X, c ≠ '/' := by
      intro c hc1 e
      subst e
      have := List.count_pos_iff.2 hc1
      omega
    simp only [scopeSuffix, List.cons_append] at hX ⊢
    obtain ⟨_, e⟩ := append_sep_inj '/' X S _ _ hX0 hS hX
    rw [e]
  · intro h
    rw [h]
    exact List.suffix_append _ _

/-! ## The lookup of the last invoice of a scope -/

theorem latestById_eq_none {l : List InvoiceRow} : latestById l = none ↔ l = [] := by
  cases l with
  | nil => simp [latestById]
  | cons r rs =>
    simp only [latestById]
    split
    · simp
    · split <;> simp

theorem latestById_spec : ∀ {l : List InvoiceRow} {r : InvoiceRow}, latestById l = some r →
    r ∈ l ∧ ∀ x ∈ l, x.id ≤ r.id := by
  intro l
  induction l with
  | nil => intro r h; simp [latestById] at h
  | cons a as ih =>
    intro r h
    simp only [latestById] at h
    split at h
    · rename_i hn
      rw [latestById_eq_none] at hn
      subst hn
      simp only [Option.some.injEq] at h
      subst h
      simp
    · rename_i best hb
      obtain ⟨hmem, hmax⟩ := ih hb
      split at h
      · simp only [Option.some.injEq] at h
        subst h
        refine ⟨List.mem_cons_of_mem _ hmem, ?_⟩
        intro x hx
        rcases List.mem_cons.1 hx with rfl | hx
        · omega
        · exact hmax x hx
      · simp only [Option.some.injEq] at h
        subst h
        refine ⟨List.mem_cons_self _ _, ?_⟩
        intro x hx
        rcases List.mem_cons.1 hx with rfl | hx
        · exact le_refl _
        · have := hmax x hx
          omega

/-- The row with the strictly largest `id` is the one `ORDER BY id DESC LIMIT 1` returns. -/
theorem latestById_of_max {l : List InvoiceRow} {r : InvoiceRow} (hr : r ∈ l)
    (hmax : ∀ x ∈ l, x = r ∨ x.id < r.id) : latestById l = some r := by
  cases h : latestById l with
  | none => rw [latestById_eq_none] at h; subst h; simp at hr
  | some b =>
    obtain ⟨hb, hle⟩ := latestById_spec h
    rcases hmax b hb with rfl | hlt
    · rfl
    · have := hle r hr
      omega

theorem mem_scope_filter (t : Tables) (date : JSDate) (r : InvoiceRow) :
    r ∈ t.invoices.filter (fun r => like ('%' :: scopeSuffix date) r.invoiceNumber) ↔
      r ∈ t.invoices ∧ scopeSuffix date <:+ r.invoiceNumber := by
  rw [List.mem_filter, like_percent_plain _ (scopeSuffix_plain date)]

theorem nextNumber_of_latest (t : Tables) (date : JSDate) (r : InvoiceRow)
    (hr : r ∈ t.invoices) (hs : scopeSuffix date <:+ r.invoiceNumber)
    (hmax : ∀ x ∈ t.invoices, scopeSuffix date <:+ x.invoiceNumber → x = r ∨ x.id < r.id) :
    nextNumber t date = (parseInt (splitHead '/' r.invoiceNumber)).succ := by
  have h : latestById (t.invoices.filter
      (fun r => like ('%' :: scopeSuffix date) r.invoiceNumber)) = some r := by
    apply latestById_of_max
    · exact (mem_scope_filter t date r).2 ⟨hr, hs⟩
    · intro x hx
      obtain ⟨hx1, hx2⟩ := (mem_scope_filter t date x).1 hx
      exact hmax x hx1 hx2
  simp [nextNumber, lastInvoiceQuery, h]

theorem nextNumber_of_none (t : Tables) (date : JSDate)
    (hnone : ∀ x ∈ t.invoices, ¬ scopeSuffix date <:+ x.invoiceNumber) :
    nextNumber t date = .int 1 := by
  have h : latestById (t.invoices.filter
      (fun r => like ('%' :: scopeSuffix date) r.invoiceNumber)) = none := by
    rw [latestById_eq_none, List.filter_eq_nil_iff]
    intro x hx hl
    exact hnone x hx ((like_percent_plain _ (scopeSuffix_plain date) _).1 hl)
  simp [nextNumber, lastInvoiceQuery, h]

/-! ## The statements of the store -/

theorem Storable.bindsNull {v : JSVal} (h : Storable v) : bindsNull v = false := by
  simp [Billing.bindsNull, h.2.1, h.2.2]

theorem storable_of_binds {v : JSVal} (h1 : ¬ v = JSVal.undefined) (h2 : ¬ bindsNull v = true) :
    Storable v := by
  simp only [Billing.bindsNull, Bool.or_eq_true, decide_eq_true_eq, not_or] at h2
  exact ⟨h1, h2.1, h2.2⟩

theorem insertInvoice_ok {db db1 : Db} {number : JSString} {date : JSDate} {total cid : JSVal}
    (h : db.insertInvoice number date total cid = .ok db1) :
    db1 = db.appendInvoice number date total cid ∧ Storable total ∧ Storable cid ∧
      ∀ r ∈ db.tables.invoices, r.invoiceNumber ≠ number := by
  unfold Db.insertInvoice bindParams checkNotNull at h
  by_cases h1 : ([JSVal.str number, total, cid].any (fun v => v = JSVal.undefined)) = true
  · simp [h1] at h
  · by_cases h2 : ([total, cid].any bindsNull) = true
    · simp [h1, h2] at h
    · by_cases h3 : (db.tables.invoices.any (fun r => r.invoiceNumber = number)) = true
      · simp [h1, h2, h3] at h
      · simp only [h1, h2, h3] at h
        simp only [Bool.false_eq_true, if_false, Except.ok.injEq] at h
        simp only [List.any_cons, List.any_nil, Bool.or_false, Bool.or_eq_true,
          decide_eq_true_eq, not_or] at h1 h2
        simp only [List.any_eq_true, decide_eq_true_eq, not_exists, not_and] at h3
        exact ⟨h.symm, storable_of_binds h1.2.1 h2.1, storable_of_binds h1.2.2 h2.2, h3⟩

theorem insertInvoice_eq_ok (db : Db) (number : JSString) (date : JSDate) {total cid : JSVal}
    (ht : Storable total) (hc : Storable cid)
    (hfresh : ∀ r ∈ db.tables.invoices, r.invoiceNumber ≠ number) :
    db.insertInvoice number date total cid = .ok (db.appendInvoice number date total cid) := by
  have h3 : (db.tables.invoices.any (fun r => r.invoiceNumber = number)) = false := by
    rw [List.any_eq_false]
    intro r hr
    simpa using hfresh r hr
  simp [Db.insertInvoice, bindParams, checkNotNull, ht.1, ht.bindsNull, hc.1, hc.bindsNull,
    h3]

theorem insertInvoiceItem_ok {db db1 : Db} {iid : Nat} {p q r t : JSVal}
    (h : db.insertInvoiceItem iid p q r t = .ok db1) :
    db1 = db.appendInvoiceItem iid p q r t ∧ Storable p ∧ Storable q ∧ Storable r ∧
      Storable t := by
  unfold Db.insertInvoiceItem bindParams checkNotNull at h
  by_cases h1 : ([p, q, r, t].any (fun v => v = JSVal.undefined)) = true
  · simp [h1] at h
  · by_cases h2 : ([p, q, r, t].any bindsNull) = true
    · simp [h1, h2] at h
    · simp only [h1, h2] at h
      simp only [Bool.false_eq_true, if_false, Except.ok.injEq] at h
      simp only [List.any_cons, List.any_nil, Bool.or_false, Bool.or_eq_true,
        decide_eq_true_eq, not_or] at h1 h2
      exact ⟨h.symm, storable_of_binds h1.1 h2.1, storable_of_binds h1.2.1 h2.2.1,
        storable_of_binds h1.2.2.1 h2.2.2.1, storable_of_binds h1.2.2.2 h2.2.2.2⟩

theorem insertInvoiceItem_eq_ok (db : Db) (iid : Nat) {p q r t : JSVal}
    (hp : Storable p) (hq : Storable q) (hr : Storable r) (ht : Storable t) :
    db.insertInvoiceItem iid p q r t = .ok (db.appendInvoiceItem iid p q r t) := by
  simp [Db.insertInvoiceItem, bindParams, checkNotNull, hp.1, hp.bindsNull, hq.1,
    hq.bindsNull, hr.1, hr.bindsNull, ht.1, ht.bindsNull]

theorem insertInvoiceItem_error_of_not_storable (db : Db) (iid : Nat) {p q r t : JSVal}
    (h : ¬ (Storable p ∧ Storable q ∧ Storable r ∧ Storable t)) :
    ∃ e, db.insertInvoiceItem iid p q r t = .error e := by
  cases hres : db.insertInvoiceItem iid p q r t with
  | error e => exact ⟨e, rfl⟩
  | ok db1 => exact absurd (insertInvoiceItem_ok hres).2 h

theorem insertItems_frame (iid : Nat) : ∀ (items : List Item) (db db1 : Db)
    (r : Except JSError Unit), insertItems iid db items = (r, db1) →
    db1.txn = db.txn ∧ db1.tables.invoices = db.tables.invoices ∧
      db1.tables.products = db.tables.products ∧
      db1.tables.customers = db.tables.customers ∧
      db1.tables.invoiceSeq = db.tables.invoiceSeq := by
  intro items
  induction items with
  | nil =>
    intro db db1 r h
    simp only [insertItems, Prod.mk.injEq] at h
    rw [← h.2]
    simp
  | cons it rest ih =>
    intro db db1 r h
    simp only [insertItems] at h
    split at h
    · simp only [Prod.mk.injEq] at h
      rw [← h.2]
      simp
    · rename_i db2 hins
      obtain ⟨rfl, -⟩ := insertInvoiceItem_ok hins
      simpa [Db.appendInvoiceItem] using ih _ _ _ h

theorem insertItems_ok (iid : Nat) : ∀ (items : List Item) (db db1 : Db) (u : Unit),
    insertItems iid db items = (.ok u, db1) →
    (∀ it ∈ items, it.Insertable) ∧
      ∃ rows, db1.tables.invoiceItems = db.tables.invoiceItems ++ rows ∧
        List.Forall₂ (ItemStored iid) rows items := by
  intro items
  induction items with
  | nil =>
    intro db db1 u h
    simp only [insertItems, Prod.mk.injEq] at h
    exact ⟨by simp, [], by rw [← h.2]; simp, List.Forall₂.nil⟩
  | cons it rest ih =>
    intro db db1 u h
    simp only [insertItems] at h
    split at h
    · simp at h
    · rename_i db2 hins
      obtain ⟨rfl, h1, h2, h3, h4⟩ := insertInvoiceItem_ok hins
      obtain ⟨hall, rows, hrows, hf⟩ := ih _ _ _ h
      refine ⟨?_,
        { id := nextRowid db.tables.invoiceItemSeq (db.tables.invoiceItems.map (fun r => r.id)),
          InvoiceId := iid, ProductId := it.id, quantity := it.quantity, rate := it.rate,
          total := it.total } :: rows, ?_, List.Forall₂.cons ⟨rfl, rfl, rfl, rfl, rfl⟩ hf⟩
      · intro x hx
        rcases List.mem_cons.1 hx with rfl | hx
        · exact ⟨h1, h2, h3, h4⟩
        · exact hall x hx
      · rw [hrows]
        simp [Db.appendInvoiceItem]

theorem insertItems_eq_ok (iid : Nat) : ∀ (items : List Item) (db : Db),
    (∀ it ∈ items, it.Insertable) → (insertItems iid db items).1 = .ok () := by
  intro items
  induction items with
  | nil => intro db _; rfl
  | cons it rest ih =>
    intro db h
    obtain ⟨h1, h2, h3, h4⟩ := h it (List.mem_cons_self _ _)
    simp only [insertItems, insertInvoiceItem_eq_ok db iid h1 h2 h3 h4]
    exact ih _ (fun x hx => h x (List.mem_cons_of_mem _ hx))

theorem insertItems_error (iid : Nat) (items : List Item) (db : Db)
    (h : ∃ it ∈ items, ¬ it.Insertable) : ∃ e, (insertItems iid db items).1 = .error e := by
  cases hres : insertItems iid db items with
  | mk r db1 =>
    cases r with
    | error e => exact ⟨e, rfl⟩
    | ok u =>
      obtain ⟨it, hit, hn⟩ := h
      exact absurd ((insertItems_ok iid items db db1 u hres).1 it hit) hn

theorem createTry_ok {db db1 : Db} {date : JSDate} {data : InvoiceData} {res : CreateResult}
    (h : Invoice.createTry db date data = (.ok res, db1)) :
    ∃ items rows, CreateOk db date data res db1 items rows := by
  unfold Invoice.createTry at h
  cases htxn : db.txn with
  | some saved => simp [Db.begin, htxn] at h
  | none =>
    have hb : db.begin = .ok { db with txn := some db.tables } := by simp [Db.begin, htxn]
    rw [hb] at h
    simp only at h
    split at h
    · simp at h
    · rename_i db2 hins
      obtain ⟨rfl, ht, hc, hfresh⟩ := insertInvoice_ok hins
      split at h
      · simp at h
      · rename_i items hitems
        split at h
        · simp at h
        · rename_i u db3 hloop
          obtain ⟨hall, rows, hrows, hf⟩ := insertItems_ok _ _ _ _ _ hloop
          obtain ⟨f1, f2, f3, f4, -⟩ := insertItems_frame _ _ _ _ _ hloop
          have hc3 : db3.commit = .ok { db3 with txn := none } := by
            simp [Db.commit, f1, Db.appendInvoice]
          rw [hc3] at h
          simp only [Prod.mk.injEq, Except.ok.injEq] at h
          obtain ⟨hres, hdb⟩ := h
          subst hdb
          refine ⟨items, rows, ?_⟩
          exact { txn_before := htxn, txn_after := rfl, total_storable := ht,
                  customer_storable := hc, fresh := hfresh, items_eq := hitems,
                  insertable := hall, result := hres.symm,
                  invoices := by simpa [Db.appendInvoice] using f2,
                  invoiceItems := by simpa [Db.appendInvoice] using hrows,
                  stored := hf,
                  products := by simpa [Db.appendInvoice] using f3,
                  customers := by simpa [Db.appendInvoice] using f4 }

theorem create_ok {db db1 : Db} {date : JSDate} {data : InvoiceData} {res : CreateResult}
    (h : Invoice.create db date data = (.ok res, db1)) :
    ∃ items rows, CreateOk db date data res db1 items rows := by
  unfold Invoice.create at h
  split at h
  · rename_i r db2 htry
    simp only [Prod.mk.injEq, Except.ok.injEq] at h
    obtain ⟨rfl, rfl⟩ := h
    exact createTry_ok htry
  · split at h <;> simp at h

theorem createTry_error {db db1 : Db} {date : JSDate} {data : InvoiceData} {e : JSError}
    (htxn : db.txn = none) (h : Invoice.createTry db date data = (.error e, db1)) :
    db1.txn = some db.tables := by
  unfold Invoice.createTry at h
  have hb : db.begin = .ok { db with txn := some db.tables } := by simp [Db.begin, htxn]
  rw [hb] at h
  simp only at h
  split at h
  · simp only [Prod.mk.injEq] at h
    rw [← h.2]
  · rename_i db2 hins
    obtain ⟨rfl, -⟩ := insertInvoice_ok hins
    split at h
    · simp only [Prod.mk.injEq] at h
      rw [← h.2]
      rfl
    · split at h
      · rename_i e1 db3 hloop
        obtain ⟨f1, -⟩ := insertItems_frame _ _ _ _ _ hloop
        simp only [Prod.mk.injEq] at h
        rw [← h.2, f1]
        rfl
      · rename_i u db3 hloop
        obtain ⟨f1, -⟩ := insertItems_frame _ _ _ _ _ hloop
        have hc3 : db3.commit = .ok { db3 with txn := none } := by
          simp [Db.commit, f1, Db.appendInvoice]
        rw [hc3] at h
        simp at h

/-- A failed `Invoice.create` leaves the tables as they were and no transaction open. -/
theorem create_error {db db1 : Db} {date : JSDate} {data : InvoiceData} {e : JSError}
    (htxn : db.txn = none) (h : Invoice.create db date data = (.error e, db1)) :
    db1.tables = db.tables ∧ db1.txn = none := by
  unfold Invoice.create at h
  split at h
  · simp at h
  · rename_i e0 db2 htry
    have ht := createTry_error htxn htry
    have hr : db2.rollback = .ok { db2 with tables := db.tables, txn := none } := by
      simp [Db.rollback, ht]
    rw [hr] at h
    simp only [Prod.mk.injEq] at h
    rw [← h.2]
    exact ⟨rfl, rfl⟩

/-- Sufficient conditions for `Invoice.create` to succeed. -/
theorem create_eq_ok {db : Db} {date : JSDate} {data : InvoiceData} {items : List Item}
    (htxn : db.txn = none) (ht : Storable data.total) (hc : Storable data.customerId)
    (hfresh : ∀ r ∈ db.tables.invoices, r.invoiceNumber ≠ invoiceNumber db.tables date)
    (hitems : data.items = some items) (hall : ∀ it ∈ items, it.Insertable) :
    ∃ res db1, Invoice.create db date data = (.ok res, db1) := by
  have hb : db.begin = .ok { db with txn := some db.tables } := by simp [Db.begin, htxn]
  cases hres : Invoice.create db date data with
  | mk r db1 =>
    cases r with
    | ok res => exact ⟨res, db1, rfl⟩
    | error e =>
      exfalso
      unfold Invoice.create at hres
      split at hres
      · simp at hres
      · rename_i e0 db2 htry
        unfold Invoice.createTry at htry
        rw [hb] at htry
        simp only at htry
        rw [insertInvoice_eq_ok { db with txn := some db.tables } _ date ht hc hfresh,
          hitems] at htry
        simp only at htry
        split at htry
        · rename_i e1 db3 hloop
          have hl := congrArg Prod.fst hloop
          rw [insertItems_eq_ok _ items _ hall] at hl
          simp at hl
        · rename_i u db3 hloop
          obtain ⟨f1, -⟩ := insertItems_frame _ _ _ _ _ hloop
          have hc3 : db3.commit = .ok { db3 with txn := none } := by
            simp [Db.commit, f1, Db.appendInvoice]
          rw [hc3] at htry
          simp at htry

/-- An item that cannot be inserted makes `Invoice.create` throw. -/
theorem create_error_of_not_insertable (db : Db) (date : JSDate) {data : InvoiceData}
    {items : List Item} (hitems : data.items = some items)
    (h : ∃ it ∈ items, ¬ it.Insertable) :
    ∃ e, (Invoice.create db date data).1 = .error e := by
  cases hres : Invoice.create db date data with
  | mk r db1 =>
    cases r with
    | error e => exact ⟨e, rfl⟩
    | ok res =>
      exfalso
      obtain ⟨items1, rows, hok⟩ := create_ok hres
      have he : items1 = items := by
        have := hok.items_eq
        rw [hitems] at this
        exact (Option.some.inj this).symm
      subst he
      obtain ⟨it, hit, hn⟩ := h
      exact hn (hok.insertable it hit)

/-! ## Invariants of the stores built by `Invoice.create` -/

theorem serialOf_format (n : Nat) (date : JSDate) :
    serialOf (formatInvoiceNumber (.int n) date) = .int n :=
  parseInt_splitHead_format n date

theorem format_suffix_iff (n : Nat) (d d1 : JSDate) :
    scopeSuffix d1 <:+ formatInvoiceNumber (.int n) d ↔ scopeSuffix d1 = scopeSuffix d := by
  have hd := padStart_zero_digits 3 _ (natToString_digits n)
  have hs : ∀ c ∈ padStart 3 '0' (natToString n), c ≠ '/' :=
    fun c hc => ne_of_isDecDigit (hd c hc) (by decide)
  simp only [formatInvoiceNumber, JSNum.toJSString, intToString_natCast]
  exact scopeSuffix_suffix_iff _ hs d d1

theorem format_inj {m n : Nat} {d d1 : JSDate}
    (h : formatInvoiceNumber (.int m) d = formatInvoiceNumber (.int n) d1) :
    scopeSuffix d = scopeSuffix d1 ∧ m = n := by
  have h1 : scopeSuffix d = scopeSuffix d1 := by
    rw [← format_suffix_iff n d1 d, ← h]
    exact List.suffix_append _ _
  have h2 := congrArg serialOf h
  rw [serialOf_format, serialOf_format] at h2
  simp only [JSNum.int.injEq, Nat.cast_inj] at h2
  exact ⟨h1, h2⟩

theorem lt_nextRowid (seq : Nat) (ids : List Nat) : ∀ x ∈ ids, x < nextRowid seq ids := by
  have hle : ∀ (l : List Nat), ∀ x ∈ l, x ≤ l.foldr max 0 := by
    intro l
    induction l with
    | nil => intro x hx; simp at hx
    | cons a as ih =>
      intro x hx
      rcases List.mem_cons.1 hx with rfl | hx
      · simp
      · have := ih x hx
        simp only [List.foldr_cons]
        omega
  intro x hx
  have := hle ids x hx
  unfold nextRowid
  omega

/-- In a store that satisfies the invariant the next sequence number is a positive integer
above every sequence number of the scope. -/
theorem nextNumber_inv {t : Tables} (hinv : StoreInv t) (date : JSDate) :
    ∃ n : Nat, 1 ≤ n ∧ nextNumber t date = .int n ∧
      ∀ r ∈ t.invoices, scopeSuffix r.date = scopeSuffix date →
        (serialOf r.invoiceNumber).lt (.int n) := by
  have hscope : ∀ r ∈ t.invoices,
      (scopeSuffix date <:+ r.invoiceNumber ↔ scopeSuffix date = scopeSuffix r.date) := by
    intro r hr
    obtain ⟨k, -, hk⟩ := hinv.fmt r hr
    rw [hk]
    exact format_suffix_iff k r.date date
  cases h : latestById (t.invoices.filter
      (fun r => like ('%' :: scopeSuffix date) r.invoiceNumber)) with
  | none =>
    refine ⟨1, le_refl _, by simp [nextNumber, lastInvoiceQuery, h], ?_⟩
    intro r hr hs
    rw [latestById_eq_none] at h
    have hm : r ∈ t.invoices.filter
        (fun r => like ('%' :: scopeSuffix date) r.invoiceNumber) :=
      (mem_scope_filter t date r).2 ⟨hr, (hscope r hr).2 hs.symm⟩
    rw [h] at hm
    simp at hm
  | some b =>
    obtain ⟨hb, hmax⟩ := latestById_spec h
    obtain ⟨hb1, hb2⟩ := (mem_scope_filter t date b).1 hb
    obtain ⟨nb, -, hnb⟩ := hinv.fmt b hb1
    have hsb : serialOf b.invoiceNumber = .int nb := by rw [hnb, serialOf_format]
    have hnext : nextNumber t date = .int ((nb + 1 : Nat) : Int) := by
      have : parseInt (splitHead '/' b.invoiceNumber) = .int nb := hsb
      simp [nextNumber, lastInvoiceQuery, h, this, JSNum.succ]
    refine ⟨nb + 1, by omega, hnext, ?_⟩
    intro r hr hs
    have hrm : r ∈ t.invoices.filter
        (fun r => like ('%' :: scopeSuffix date) r.invoiceNumber) :=
      (mem_scope_filter t date r).2 ⟨hr, (hscope r hr).2 hs.symm⟩
    have hle := hmax r hrm
    obtain ⟨nr, -, hnr⟩ := hinv.fmt r hr
    have hsr : serialOf r.invoiceNumber = .int nr := by rw [hnr, serialOf_format]
    by_cases hrb : r = b
    · subst hrb
      rw [hsb]
      simp only [JSNum.lt, Nat.cast_add, Nat.cast_one]
      omega
    · have hsym : Symmetric (fun a b : InvoiceRow => RowBefore a b ∨ RowBefore b a) :=
        fun _ _ h => h.symm
      have hp := (hinv.order.imp (S := fun a b => RowBefore a b ∨ RowBefore b a)
        (fun h => Or.inl h)).forall hsym hr hb1 hrb
      rcases hp with hp | hp
      · have hlt := hp.2 (hs.trans ((hscope b hb1).1 hb2))
        rw [hsr, hsb] at hlt
        rw [hsr]
        simp only [JSNum.lt, Nat.cast_add, Nat.cast_one] at hlt ⊢
        omega
      · have := hp.1
        omega

theorem StoreInv.append {t t1 : Tables} (hinv : StoreInv t) (date : JSDate)
    (total cid : JSVal)
    (h1 : t1.invoices = t.invoices ++
      [{ id := nextRowid t.invoiceSeq (t.invoices.map (fun r => r.id)),
         invoiceNumber := invoiceNumber t date, date := date, total := total,
         CustomerId := cid }]) : StoreInv t1 := by
  obtain ⟨n, hn1, hn, hlt⟩ := nextNumber_inv hinv date
  have hnum : invoiceNumber t date = formatInvoiceNumber (.int n) date := by
    rw [invoiceNumber, hn]
  constructor
  · intro r hr
    rw [h1, List.mem_append, List.mem_singleton] at hr
    rcases hr with hr | rfl
    · exact hinv.fmt r hr
    · exact ⟨n, hn1, hnum⟩
  · rw [h1, List.pairwise_append]
    refine ⟨hinv.order, List.pairwise_singleton _ _, ?_⟩
    intro a ha b hb
    rw [List.mem_singleton] at hb
    subst hb
    refine ⟨lt_nextRowid _ _ a.id (List.mem_map_of_mem _ ha), ?_⟩
    intro hs
    simp only at hs ⊢
    rw [hnum, serialOf_format]
    exact hlt a ha hs

/-- Under the invariant the number computed for any date is not yet in the table. -/
theorem StoreInv.fresh {t : Tables} (hinv : StoreInv t) (date : JSDate) :
    ∀ r ∈ t.invoices, r.invoiceNumber ≠ invoiceNumber t date := by
  intro r hr heq
  obtain ⟨n, -, hn, hlt⟩ := nextNumber_inv hinv date
  obtain ⟨nr, -, hnr⟩ := hinv.fmt r hr
  rw [invoiceNumber, hn, hnr] at heq
  obtain ⟨hs, he⟩ := format_inj heq
  have h := hlt r hr hs
  rw [hnr, serialOf_format] at h
  simp only [JSNum.lt] at h
  omega

theorem StoreInv.empty : StoreInv Db.empty.tables :=
  { fmt := by intro r hr; simp [Db.empty] at hr
    order := by simp [Db.empty] }

/-- Every reachable store has no open transaction and satisfies the invariant. -/
theorem Reachable.inv {db : Db} (h : Reachable db) : db.txn = none ∧ StoreInv db.tables := by
  induction h with
  | empty => exact ⟨rfl, StoreInv.empty⟩
  | create db date data _ ih =>
    obtain ⟨htxn, hinv⟩ := ih
    cases hres : Invoice.create db date data with
    | mk r db1 =>
      cases r with
      | ok res =>
        obtain ⟨items, rows, hok⟩ := create_ok hres
        exact ⟨hok.txn_after, hinv.append date _ _ hok.invoices⟩
      | error e =>
        obtain ⟨ht, hx⟩ := create_error htxn hres
        refine ⟨hx, ?_⟩
        show StoreInv db1.tables
        rw [ht]
        exact hinv

/-! ## Month and year text -/

theorem month_eq (date : JSDate) :
    month date = [Nat.digitChar ((date.month.val + 1) / 10),
      Nat.digitChar ((date.month.val + 1) % 10)] := by
  have h : ∀ m : Fin 12, padStart 2 '0' (natToString (m.val + 1)) =
      [Nat.digitChar ((m.val + 1) / 10), Nat.digitChar ((m.val + 1) % 10)] := by decide
  exact h date.month

theorem natToString_last_two {n : Nat} (h : 10 ≤ n) :
    ∃ pre, natToString n = pre ++ [Nat.digitChar (n / 10 % 10), Nat.digitChar (n % 10)] := by
  rw [natToString_ge_ten h]
  by_cases h1 : n / 10 < 10
  · refine ⟨[], ?_⟩
    rw [natToString_lt_ten h1, Nat.mod_eq_of_lt h1]
    rfl
  · refine ⟨natToString (n / 10 / 10), ?_⟩
    rw [natToString_ge_ten (by omega)]
    simp

theorem year_eq (date : JSDate) (h : 10 ≤ date.year) :
    year date = [Nat.digitChar (date.year.toNat / 10 % 10),
      Nat.digitChar (date.year.toNat % 10)] := by
  have hnat : date.year.natAbs = date.year.toNat := by omega
  have h10 : 10 ≤ date.year.toNat := by omega
  obtain ⟨pre, hpre⟩ := natToString_last_two h10
  have hneg : ¬ date.year < 0 := by omega
  simp only [year, intToString, hneg, if_false, hnat, sliceLast, hpre]
  simp

/-! ## Call sequences -/

theorem Reachable.runCreates {db : Db} (h : Reachable db) :
    ∀ calls : List (JSDate × InvoiceData), Reachable (runCreates db calls) := by
  intro calls
  induction calls generalizing db with
  | nil => exact h
  | cons c rest ih =>
    obtain ⟨date, data⟩ := c
    exact ih (Reachable.create db date data h)

/-- The `Invoices` table lists the created invoices in creation order, each with the number
and date that `Invoice.create` returned. -/
theorem invoices_runCreates : ∀ (calls : List (JSDate × InvoiceData)) (db : Db),
    db.txn = none →
    (runCreates db calls).tables.invoices.map (fun r => (r.invoiceNumber, r.date)) =
      db.tables.invoices.map (fun r => (r.invoiceNumber, r.date)) ++
        (createdInvoices db calls).map (fun i => (i.invoiceNumber, i.date)) := by
  intro calls
  induction calls with
  | nil => intro db _; simp [runCreates, createdInvoices]
  | cons c rest ih =>
    intro db htxn
    obtain ⟨date, data⟩ := c
    cases hres : Invoice.create db date data with
    | mk r db1 =>
      cases r with
      | ok res =>
        obtain ⟨items, rows, hok⟩ := create_ok hres
        simp only [runCreates, createdInvoices, hres]
        rw [ih db1 hok.txn_after, hok.invoices, hok.result]
        simp
      | error e =>
        obtain ⟨ht, hx⟩ := create_error htxn hres
        simp only [runCreates, createdInvoices, hres]
        rw [ih db1 hx, ht]

/-! ## Scopes and calendar months -/

theorem digitChar_inj {a b : Nat} (ha : a < 10) (hb : b < 10)
    (h : Nat.digitChar a = Nat.digitChar b) : a = b := by
  have := congrArg Char.toNat h
  rw [digitChar_toNat ha, digitChar_toNat hb] at this
  omega

/-- Two dates with years of at least two digits share a scope only if they agree on the month
and on the last two digits of the year. -/
theorem scopeSuffix_inj {a b : JSDate} (ha : 10 ≤ a.year) (hb : 10 ≤ b.year)
    (h : scopeSuffix a = scopeSuffix b) :
    a.month = b.month ∧ a.year.toNat % 100 = b.year.toNat % 100 := by
  simp only [scopeSuffix, month_eq, year_eq a ha, year_eq b hb, List.cons_append,
    List.nil_append, List.cons.injEq, and_true, true_and] at h
  obtain ⟨h1, h2, h3, h4⟩ := h
  have hma := a.month.isLt
  have hmb := b.month.isLt
  have e1 := digitChar_inj (by omega) (by omega) h1
  have e2 := digitChar_inj (by omega) (by omega) h2
  have e3 := digitChar_inj (by omega) (by omega) h3
  have e4 := digitChar_inj (by omega) (by omega) h4
  constructor
  · apply Fin.ext
    omega
  · omega

/-! ## Claims -/

/-- C1: whenever the sequence number computed from the store is a non-negative integer `n`
and the year of the creation date has at least two digits (in particular for every four-digit
year), the generated `invoiceNumber` is `S/MM/YY`: `S` is the decimal rendering of `n`
left-padded with zeros to at least three characters (and reads back as `n`), `MM` is the two
digits of the month number, which lies between 1 and 12, and `YY` is the last two digits of
the year; a successful `Invoice.create` returns this number. -/
theorem invoiceNumber_format (t : Tables) (date : JSDate) (n : Nat)
    (hy : 10 ≤ date.year) (hn : nextNumber t date = .int n) :
    invoiceNumber t date =
        (List.replicate (3 - (natToString n).length) '0' ++ natToString n) ++
          ('/' :: [Nat.digitChar ((date.month.val + 1) / 10),
                   Nat.digitChar ((date.month.val + 1) % 10)] ++
           '/' :: [Nat.digitChar (date.year.toNat / 10 % 10),
                   Nat.digitChar (date.year.toNat % 10)]) ∧
      3 ≤ (List.replicate (3 - (natToString n).length) '0' ++ natToString n).length ∧
      parseInt (List.replicate (3 - (natToString n).length) '0' ++ natToString n) = .int n ∧
      1 ≤ date.month.val + 1 ∧ date.month.val + 1 ≤ 12 ∧
      (∀ (db db1 : Db) (data : InvoiceData) (res : CreateResult), db.tables = t →
        Invoice.create db date data = (.ok res, db1) →
        res.invoice.invoiceNumber = invoiceNumber t date) := by
  refine ⟨?_, ?_, ?_, by omega, by have := date.month.isLt; omega, ?_⟩
  · simp only [invoiceNumber, hn, formatInvoiceNumber, JSNum.toJSString, intToString_natCast,
      scopeSuffix, month_eq, year_eq date hy, padStart]
  · simp only [List.length_append, List.length_replicate]
    omega
  · exact parseInt_padStart_natToString 3 n
  · intro db db1 data res ht hc
    obtain ⟨items, rows, hok⟩ := create_ok hc
    rw [hok.result, ← ht]

/-- Witness of C1: after `013/03/24` and `014/03/24` an invoice of March 2024 is numbered
`015/03/24`. -/
theorem invoiceNumber_format_witness :
    invoiceNumber sampleTables march2024 = "015/03/24".toList :=
  (invoiceNumber_format sampleTables march2024 15 (by decide) (by decide)).1

/-- C2: if the store holds an invoice whose number ends with `/MM/YY`, the sequence number of
the new invoice is one plus `parseInt` of the segment before the first `/` of the one with the
highest `id` among them; if it holds none, the sequence number is 1; the number returned by a
successful `Invoice.create` is built from this sequence number. -/
theorem nextNumber_spec (t : Tables) (date : JSDate) :
    (∀ r ∈ t.invoices, scopeSuffix date <:+ r.invoiceNumber →
        (∀ x ∈ t.invoices, scopeSuffix date <:+ x.invoiceNumber → x = r ∨ x.id < r.id) →
        nextNumber t date = (parseInt (splitHead '/' r.invoiceNumber)).succ ∧
          ∀ k : Int, parseInt (splitHead '/' r.invoiceNumber) = .int k →
            nextNumber t date = .int (k + 1)) ∧
      ((∀ x ∈ t.invoices, ¬ scopeSuffix date <:+ x.invoiceNumber) →
        nextNumber t date = .int 1) ∧
      (∀ (db db1 : Db) (data : InvoiceData) (res : CreateResult), db.tables = t →
        Invoice.create db date data = (.ok res, db1) →
        res.invoice.invoiceNumber = formatInvoiceNumber (nextNumber t date) date) := by
  refine ⟨?_, nextNumber_of_none t date, ?_⟩
  · intro r hr hs hmax
    have h := nextNumber_of_latest t date r hr hs hmax
    refine ⟨h, ?_⟩
    intro k hk
    rw [h, hk]
    rfl
  · intro db db1 data res ht hc
    obtain ⟨items, rows, hok⟩ := create_ok hc
    rw [hok.result, ← ht]
    rfl

/-- Witness of C2: in the sample store the March 2024 invoice with the highest `id` is
`014/03/24`, so the next sequence number is 15; for May 2024 it is 1. -/
theorem nextNumber_spec_witness :
    nextNumber sampleTables march2024 = .int 15 ∧
      nextNumber sampleTables { march2024 with month := 4 } = .int 1 :=
  ⟨((nextNumber_spec sampleTables march2024).1
      { id := 3, invoiceNumber := "014/03/24".toList, date := march2024, total := .num 30,
        CustomerId := .num 7 } (by decide) (by decide) (by decide)).2 14 (by decide),
   (nextNumber_spec sampleTables { march2024 with month := 4 }).2.1 (by decide)⟩

/-- C3: in every sequence of `Invoice.create` calls started on the empty store, of two
invoices created in the same (month, year) the one created later has the larger sequence
number, compared as integers. -/
theorem serial_strictly_increasing (calls : List (JSDate × InvoiceData)) :
    (createdInvoices Db.empty calls).Pairwise (fun a b =>
      a.date.month = b.date.month → a.date.year = b.date.year →
        ∃ m n : Int, serialOf a.invoiceNumber = .int m ∧ serialOf b.invoiceNumber = .int n ∧
          m < n) := by
  have hinv := (Reachable.empty.runCreates calls).inv.2
  have hlink := invoices_runCreates calls Db.empty rfl
  have he : Db.empty.tables.invoices = [] := rfl
  rw [he, List.map_nil, List.nil_append] at hlink
  have hp : ((runCreates Db.empty calls).tables.invoices.map
      (fun r => (r.invoiceNumber, r.date))).Pairwise
      (fun (a b : JSString × JSDate) => a.2.month = b.2.month → a.2.year = b.2.year →
        ∃ m n : Int, serialOf a.1 = .int m ∧ serialOf b.1 = .int n ∧ m < n) := by
    rw [List.pairwise_map]
    refine List.Pairwise.imp_of_mem ?_ hinv.order
    intro a b ha hb hab hm hyr
    obtain ⟨na, -, hna⟩ := hinv.fmt a ha
    obtain ⟨nb, -, hnb⟩ := hinv.fmt b hb
    simp only at hm hyr
    have hs : scopeSuffix a.date = scopeSuffix b.date := by
      simp only [scopeSuffix, month, year, hm, hyr]
    have hlt := hab.2 hs
    rw [hna, hnb, serialOf_format, serialOf_format] at hlt
    refine ⟨na, nb, ?_, ?_, hlt⟩
    · simp only [hna, serialOf_format]
    · simp only [hnb, serialOf_format]
  rw [hlink, List.pairwise_map] at hp
  exact hp

/-- Witness of C3: two invoices of March 2024 with one of April 2024 in between are numbered
`001/03/24`, `001/04/24`, `002/03/24`, and the sequence numbers of the two March invoices
increase. -/
theorem serial_strictly_increasing_witness :
    (createdInvoices Db.empty [(march2024, requestWithId), (april2024, requestWithId),
        (march2024, requestWithId)]).map (fun i => i.invoiceNumber) =
        ["001/03/24".toList, "001/04/24".toList, "002/03/24".toList] ∧
      (createdInvoices Db.empty [(march2024, requestWithId), (april2024, requestWithId),
        (march2024, requestWithId)]).Pairwise (fun a b =>
          a.date.month = b.date.month → a.date.year = b.date.year →
            ∃ m n : Int, serialOf a.invoiceNumber = .int m ∧
              serialOf b.invoiceNumber = .int n ∧ m < n) :=
  ⟨by decide, serial_strictly_increasing _⟩

/-- Counterexample to C4 as stated: after invoices of March 2024 and April 2024, an invoice
created with the clock back in March 2024 follows an invoice of a different (month, year) and
receives `002/03/24`; likewise an invoice of March 2124 created right after one of March 2024
receives `002/03/24`. -/
theorem restart_counterexample :
    ((runCreates Db.empty [(march2024, requestWithId),
          (april2024, requestWithId)]).tables.invoices.getLast?.map
        (fun prev => (prev.invoiceNumber, prev.date.month, prev.date.year)) =
        some ("001/04/24".toList, 3, 2024) ∧
      (Invoice.create (runCreates Db.empty [(march2024, requestWithId),
          (april2024, requestWithId)]) march2024 requestWithId).1.toOption.map
        (fun res => (res.invoice.invoiceNumber, res.invoice.date.month, res.invoice.date.year)) =
        some ("002/03/24".toList, 2, 2024)) ∧
    ((runCreates Db.empty [(march2024, requestWithId)]).tables.invoices.getLast?.map
        (fun prev => (prev.invoiceNumber, prev.date.month, prev.date.year)) =
        some ("001/03/24".toList, 2, 2024) ∧
      (Invoice.create (runCreates Db.empty [(march2024, requestWithId)])
          march2124 requestWithId).1.toOption.map
        (fun res => (res.invoice.invoiceNumber, res.invoice.date.month, res.invoice.date.year)) =
        some ("002/03/24".toList, 2, 2124)) := by
  decide

/-- C4 (amended): on a store built by `Invoice.create` calls, when the creation dates carry
years of at least two digits, the stored invoices are dated in non-decreasing months, the new
creation date is not in an earlier month than the previous (last stored) invoice and
less than 1200 months after every stored invoice, and the previous invoice lies in a
different (month, year), a successful `Invoice.create` returns the number `001/MM/YY`. -/
theorem restart_on_new_month (calls : List (JSDate × InvoiceData)) (date : JSDate)
    (data : InvoiceData) (res : CreateResult) (db1 : Db) (prev : InvoiceRow)
    (hc : Invoice.create (runCreates Db.empty calls) date data = (.ok res, db1))
    (hprev : (runCreates Db.empty calls).tables.invoices.getLast? = some prev)
    (hnew : prev.date.month ≠ date.month ∨ prev.date.year ≠ date.year)
    (hchron : (runCreates Db.empty calls).tables.invoices.Pairwise
      (fun a b => monthIndex a.date ≤ monthIndex b.date))
    (hnow : monthIndex prev.date ≤ monthIndex date)
    (hspan : ∀ r ∈ (runCreates Db.empty calls).tables.invoices,
      monthIndex date < monthIndex r.date + 1200)
    (hyear : 10 ≤ date.year)
    (hyears : ∀ r ∈ (runCreates Db.empty calls).tables.invoices, 10 ≤ r.date.year) :
    res.invoice.invoiceNumber = '0' :: '0' :: '1' :: scopeSuffix date ∧
      serialOf res.invoice.invoiceNumber = .int 1 := by
  have hinv := (Reachable.empty.runCreates calls).inv.2
  obtain ⟨items, rows, hok⟩ := create_ok hc
  have hlast : ∀ r ∈ (runCreates Db.empty calls).tables.invoices,
      monthIndex r.date ≤ monthIndex prev.date := by
    obtain ⟨ys, hys⟩ := List.getLast?_eq_some_iff.1 hprev
    rw [hys, List.pairwise_append] at hchron
    intro r hr
    rw [hys, List.mem_append, List.mem_singleton] at hr
    rcases hr with hr | rfl
    · exact hchron.2.2 r hr prev (List.mem_singleton_self _)
    · exact le_refl _
  have hnone : ∀ x ∈ (runCreates Db.empty calls).tables.invoices,
      ¬ scopeSuffix date <:+ x.invoiceNumber := by
    intro x hx hs
    obtain ⟨k, -, hk⟩ := hinv.fmt x hx
    rw [hk, format_suffix_iff] at hs
    obtain ⟨hm, hy100⟩ := scopeSuffix_inj hyear (hyears x hx) hs
    have h1 := hlast x hx
    have h2 := hspan x hx
    have h3 := hyears x hx
    have hmv : date.month.val = x.date.month.val := congrArg Fin.val hm
    have hpm := prev.date.month.isLt
    have hdm := date.month.isLt
    have hne : monthIndex prev.date ≠ monthIndex date := by
      intro he
      unfold monthIndex at he
      rcases hnew with hnew | hnew
      · apply hnew
        apply Fin.ext
        omega
      · apply hnew
        omega
    unfold monthIndex at h1 h2 hnow hne
    omega
  have hnext := nextNumber_of_none _ date hnone
  have hnum : res.invoice.invoiceNumber = formatInvoiceNumber (.int 1) date := by
    rw [hok.result]
    simp only [invoiceNumber, hnext]
  have h001 : formatInvoiceNumber (.int 1) date = '0' :: '0' :: '1' :: scopeSuffix date := rfl
  refine ⟨hnum.trans h001, ?_⟩
  rw [hnum]
  exact serialOf_format 1 date

/-- Witness of C4 (amended): the first invoice of April 2024 after one of March 2024 is
`001/04/24`. -/
theorem restart_on_new_month_witness :
    Invoice.create (runCreates Db.empty [(march2024, requestWithId)]) april2024
        requestWithId = (.ok aprilResult, (Invoice.create
          (runCreates Db.empty [(march2024, requestWithId)]) april2024 requestWithId).2) ∧
      aprilResult.invoice.invoiceNumber = '0' :: '0' :: '1' :: scopeSuffix april2024 ∧
      serialOf aprilResult.invoice.invoiceNumber = .int 1 :=
  ⟨rfl, restart_on_new_month [(march2024, requestWithId)] april2024 requestWithId
    aprilResult _ marchRow rfl (by decide) (by decide) (by decide) (by decide) (by decide)
    (by decide) (by decide)⟩

/-- C5: in every store reached from the empty store by `Invoice.create` calls with arbitrary
creation dates no two invoices have the same `invoiceNumber`, and the number that
`Invoice.create` computes for any date differs from the number of every stored invoice. -/
theorem invoiceNumber_unique (calls : List (JSDate × InvoiceData)) :
    ((runCreates Db.empty calls).tables.invoices.map (fun r => r.invoiceNumber)).Nodup ∧
      ∀ date : JSDate, ∀ r ∈ (runCreates Db.empty calls).tables.invoices,
        r.invoiceNumber ≠ invoiceNumber (runCreates Db.empty calls).tables date := by
  have hinv := (Reachable.empty.runCreates calls).inv.2
  constructor
  · unfold List.Nodup
    rw [List.pairwise_map]
    refine List.Pairwise.imp_of_mem ?_ hinv.order
    intro a b ha hb hab heq
    obtain ⟨na, -, hna⟩ := hinv.fmt a ha
    obtain ⟨nb, -, hnb⟩ := hinv.fmt b hb
    rw [hna, hnb] at heq
    obtain ⟨hs, hn⟩ := format_inj heq
    have hlt := hab.2 hs
    rw [hna, hnb, serialOf_format, serialOf_format] at hlt
    simp only [JSNum.lt] at hlt
    omega
  · exact fun date => hinv.fresh date

/-- Witness of C5: after invoices of March 2024, March 2124 and April 2024 the store holds
`001/03/24`, `002/03/24` and `001/04/24`, pairwise distinct, and the next number of any date
is new. -/
theorem invoiceNumber_unique_witness :
    (runCreates Db.empty [(march2024, requestWithId), (march2124, requestWithId),
        (april2024, requestWithId)]).tables.invoices.map (fun r => r.invoiceNumber) =
        ["001/03/24".toList, "002/03/24".toList, "001/04/24".toList] ∧
      ((runCreates Db.empty [(march2024, requestWithId), (march2124, requestWithId),
        (april2024, requestWithId)]).tables.invoices.map (fun r => r.invoiceNumber)).Nodup ∧
      ∀ date : JSDate, ∀ r ∈ (runCreates Db.empty [(march2024, requestWithId),
          (march2124, requestWithId), (april2024, requestWithId)]).tables.invoices,
        r.invoiceNumber ≠ invoiceNumber (runCreates Db.empty [(march2024, requestWithId),
          (march2124, requestWithId), (april2024, requestWithId)]).tables date :=
  ⟨by decide, invoiceNumber_unique _⟩

/-- C6: called with no transaction open, a failing `Invoice.create` reports the error and
leaves the tables exactly as they were, also when the failure comes after the header row
was inserted: an item that cannot be inserted, or an `items` value that is not an array,
makes the call fail. -/
theorem create_atomic (db : Db) (date : JSDate) (data : InvoiceData) (htxn : db.txn = none) :
    (∀ (e : JSError) (db1 : Db), Invoice.create db date data = (.error e, db1) →
        db1.tables = db.tables ∧ db1.txn = none) ∧
      (∀ items, data.items = some items → (∃ it ∈ items, ¬ it.Insertable) →
        ∃ e, Invoice.create db date data = (.error e, (Invoice.create db date data).2) ∧
          (Invoice.create db date data).2.tables = db.tables) ∧
      (data.items = none →
        ∃ e, Invoice.create db date data = (.error e, (Invoice.create db date data).2) ∧
          (Invoice.create db date data).2.tables = db.tables) := by
  have herr : ∀ e, (Invoice.create db date data).1 = .error e →
      Invoice.create db date data = (.error e, (Invoice.create db date data).2) ∧
        (Invoice.create db date data).2.tables = db.tables := by
    intro e he
    have hpair : Invoice.create db date data = (.error e, (Invoice.create db date data).2) := by
      rw [← he]
    exact ⟨hpair, (create_error htxn hpair).1⟩
  refine ⟨fun e db1 h => create_error htxn h, ?_, ?_⟩
  · intro items hitems hbad
    obtain ⟨e, he⟩ := create_error_of_not_insertable db date hitems hbad
    exact ⟨e, herr e he⟩
  · intro hnone
    cases hres : Invoice.create db date data with
    | mk r db1 =>
      cases r with
      | error e =>
        have := herr e (by rw [hres])
        rw [hres] at this
        exact ⟨e, this⟩
      | ok res =>
        obtain ⟨items, rows, hok⟩ := create_ok hres
        have := hok.items_eq
        rw [hnone] at this
        simp at this

/-- Witness of C6: on a store with one invoice, a request whose second item cannot be bound
fails after the header and the first line item were inserted (the `try` block stops with two
header rows and two line items in the tables); the call reports the error and the tables are
those of before. -/
theorem create_atomic_witness :
    (runCreates Db.empty [(march2024, requestWithId)]).txn = none ∧
      (Invoice.createTry (runCreates Db.empty [(march2024, requestWithId)]) april2024
        requestSecondItemFails).2.tables.invoices.length = 2 ∧
      (Invoice.createTry (runCreates Db.empty [(march2024, requestWithId)]) april2024
        requestSecondItemFails).2.tables.invoiceItems.length = 2 ∧
      (Invoice.create (runCreates Db.empty [(march2024, requestWithId)]) april2024
        requestSecondItemFails).1 = .error .bindUnknownType ∧
      (Invoice.create (runCreates Db.empty [(march2024, requestWithId)]) april2024
        requestSecondItemFails).2.tables =
        (runCreates Db.empty [(march2024, requestWithId)]).tables :=
  ⟨rfl, by decide, by decide, rfl,
    ((create_atomic (runCreates Db.empty [(march2024, requestWithId)]) april2024
      requestSecondItemFails rfl).1 .bindUnknownType _ rfl).1⟩

/-- C7: the value returned by a successful `Invoice.create` describes the header row it
appended: the `invoice` object carries the key assigned to that row (larger than every key of
the table), the generated `invoiceNumber`, the creation date, and the total and items of the
request unchanged. -/
theorem create_returns_persisted (db db1 : Db) (date : JSDate) (data : InvoiceData)
    (res : CreateResult) (h : Invoice.create db date data = (.ok res, db1)) :
    res.success = true ∧ res.invoice.date = date ∧ res.invoice.total = data.total ∧
      data.items = some res.invoice.items ∧
      res.invoice.invoiceNumber = invoiceNumber db.tables date ∧
      ∃ header, db1.tables.invoices = db.tables.invoices ++ [header] ∧
        (∀ r ∈ db.tables.invoices, r.id < header.id) ∧
        header.id = res.invoice.id ∧ header.invoiceNumber = res.invoice.invoiceNumber ∧
        header.date = res.invoice.date ∧ header.total = res.invoice.total ∧
        header.CustomerId = data.customerId := by
  obtain ⟨items, rows, hok⟩ := create_ok h
  rw [hok.result]
  refine ⟨rfl, rfl, rfl, hok.items_eq, rfl, _, hok.invoices, ?_, rfl, rfl, rfl, rfl, rfl⟩
  intro r hr
  exact lt_nextRowid _ _ r.id (List.mem_map_of_mem _ hr)

/-- Witness of C7: the first invoice of March 2024 on the empty store is returned with key 1
and number `001/03/24`. -/
theorem create_returns_persisted_witness :
    Invoice.create Db.empty march2024 requestWithId =
        (.ok marchResult, (Invoice.create Db.empty march2024 requestWithId).2) ∧
      marchResult.invoice.total = requestWithId.total ∧
      requestWithId.items = some marchResult.invoice.items :=
  ⟨rfl, (create_returns_persisted Db.empty _ march2024 requestWithId marchResult rfl).2.2.1,
    (create_returns_persisted Db.empty _ march2024 requestWithId marchResult rfl).2.2.2.1⟩

/-- Counterexample to C8 as stated: for `customerId=7, items=[{productId:3, quantity:2,
rate:50, total:100}], total=100` on the empty store `Invoice.create` throws (the item has no
`id` to bind) and stores neither a header nor a line item. -/
theorem documented_shape_counterexample :
    (Invoice.create Db.empty march2024 requestDocumented).1 = .error .bindUnknownType ∧
      (Invoice.create Db.empty march2024 requestDocumented).2.tables.invoiceItems = [] ∧
      (Invoice.create Db.empty march2024 requestDocumented).2.tables.invoices = [] :=
  ⟨rfl, by decide, by decide⟩

/-- C8 (amended): on a store built by `Invoice.create` calls, for every items list whose
items carry an `id`, quantity, rate and total that are present and not null, and a request
whose total and customer id are present and not null, `Invoice.create` succeeds and each line
item row it appends has `ProductId` equal to the `id` of the corresponding item, whatever the
item's `productId` field holds. -/
theorem product_reference_from_id (calls : List (JSDate × InvoiceData)) (date : JSDate)
    (data : InvoiceData) (items : List Item) (hitems : data.items = some items)
    (hall : ∀ it ∈ items, it.Insertable) (ht : Storable data.total)
    (hc : Storable data.customerId) :
    ∃ res db1 rows,
      Invoice.create (runCreates Db.empty calls) date data = (.ok res, db1) ∧
        db1.tables.invoiceItems = (runCreates Db.empty calls).tables.invoiceItems ++ rows ∧
        List.Forall₂ (fun (row : InvoiceItemRow) (it : Item) => row.ProductId = it.id)
          rows items := by
  obtain ⟨htxn, hinv⟩ := (Reachable.empty.runCreates calls).inv
  obtain ⟨res, db1, hres⟩ := create_eq_ok htxn ht hc (hinv.fresh date) hitems hall
  obtain ⟨items1, rows, hok⟩ := create_ok hres
  have he : items1 = items := by
    have := hok.items_eq
    rw [hitems] at this
    exact (Option.some.inj this).symm
  subst he
  exact ⟨res, db1, rows, hres, hok.invoiceItems, hok.stored.imp (fun _ _ h => h.2.1)⟩

/-- Witness of C8 (amended): an item `{id: 3, quantity: 2, rate: 50, total: 100}` is stored
as one line item that references product 3. -/
theorem product_reference_from_id_witness :
    (∃ res db1 rows,
      Invoice.create (runCreates Db.empty []) march2024 requestWithId = (.ok res, db1) ∧
        db1.tables.invoiceItems = (runCreates Db.empty []).tables.invoiceItems ++ rows ∧
        List.Forall₂ (fun (row : InvoiceItemRow) (it : Item) => row.ProductId = it.id)
          rows [itemWithId]) ∧
      (Invoice.create Db.empty march2024 requestWithId).2.tables.invoiceItems.map
        (fun row => row.ProductId) = [.num 3] :=
  ⟨product_reference_from_id [] march2024 requestWithId [itemWithId] rfl (by decide)
    (by decide) (by decide), by decide⟩

/-- C9: a successful `Invoice.create` appends to `InvoiceItems` exactly one row per item of
the request, in the order of the items; each row is owned by the new header row (its
`InvoiceId` is the returned invoice id, the key of the appended header) and holds the
quantity, rate and total of its item as given. -/
theorem create_line_items (db db1 : Db) (date : JSDate) (data : InvoiceData)
    (res : CreateResult) (h : Invoice.create db date data = (.ok res, db1)) :
    ∃ items rows, data.items = some items ∧
      db1.tables.invoiceItems = db.tables.invoiceItems ++ rows ∧
      rows.length = items.length ∧
      List.Forall₂ (fun (row : InvoiceItemRow) (it : Item) =>
        row.InvoiceId = res.invoice.id ∧ row.quantity = it.quantity ∧ row.rate = it.rate ∧
          row.total = it.total) rows items ∧
      ∃ header, db1.tables.invoices = db.tables.invoices ++ [header] ∧
        header.id = res.invoice.id := by
  obtain ⟨items, rows, hok⟩ := create_ok h
  refine ⟨items, rows, hok.items_eq, hok.invoiceItems, hok.stored.length_eq, ?_, _,
    hok.invoices, ?_⟩
  · rw [hok.result]
    exact hok.stored.imp (fun _ _ h => ⟨h.1, h.2.2.1, h.2.2.2.1, h.2.2.2.2⟩)
  · rw [hok.result]

/-- Witness of C9: the request with one item of quantity 2, rate 50 and total 100 appends
one line item with these values, owned by invoice 1. -/
theorem create_line_items_witness :
    (∃ items rows, requestWithId.items = some items ∧
      (Invoice.create Db.empty march2024 requestWithId).2.tables.invoiceItems =
        Db.empty.tables.invoiceItems ++ rows ∧
      rows.length = items.length ∧
      List.Forall₂ (fun (row : InvoiceItemRow) (it : Item) =>
        row.InvoiceId = marchResult.invoice.id ∧ row.quantity = it.quantity ∧
          row.rate = it.rate ∧ row.total = it.total) rows items ∧
      ∃ header, (Invoice.create Db.empty march2024 requestWithId).2.tables.invoices =
          Db.empty.tables.invoices ++ [header] ∧
        header.id = marchResult.invoice.id) ∧
      (Invoice.create Db.empty march2024 requestWithId).2.tables.invoiceItems =
        [{ id := 1, InvoiceId := 1, ProductId := .num 3, quantity := .num 2, rate := .num 50,
           total := .num 100 }] :=
  ⟨create_line_items Db.empty _ march2024 requestWithId marchResult rfl, by decide⟩

/-- C10: the header row appended by a successful `Invoice.create` holds the total of the
request, for every items list: the stored total does not depend on the items. -/
theorem create_total_trusted (db db1 : Db) (date : JSDate) (data : InvoiceData)
    (res : CreateResult) (h : Invoice.create db date data = (.ok res, db1)) :
    ∃ header, db1.tables.invoices = db.tables.invoices ++ [header] ∧
      header.total = data.total ∧ header.id = res.invoice.id := by
  obtain ⟨items, rows, hok⟩ := create_ok h
  exact ⟨_, hok.invoices, rfl, by rw [hok.result]⟩

/-- Witness of C10: a request with total 999 and a single line of total 100 is stored with
header total 999. -/
theorem create_total_trusted_witness :
    (∃ header, (Invoice.create Db.empty march2024 requestMismatch).2.tables.invoices =
        Db.empty.tables.invoices ++ [header] ∧
      header.total = requestMismatch.total ∧ header.id = mismatchResult.invoice.id) ∧
      (Invoice.create Db.empty march2024 requestMismatch).2.tables.invoices.map
        (fun r => r.total) = [.num 999] :=
  ⟨create_total_trusted Db.empty _ march2024 requestMismatch mismatchResult rfl, by decide⟩

/-! ## Listing invoices -/

theorem filter_key_length_le_one {α : Type} (key : α → Nat) (p : α → Bool) :
    ∀ (l : List α), (l.map key).Nodup → (∀ a b, p a = true → p b = true → key a = key b) →
      (l.filter p).length ≤ 1 := by
  intro l
  induction l with
  | nil => intro _ _; simp
  | cons a as ih =>
    intro hnd hp
    rw [List.map_cons, List.nodup_cons] at hnd
    by_cases ha : p a = true
    · have hnil : as.filter p = [] := by
        rw [List.filter_eq_nil_iff]
        intro b hb hpb
        exact hnd.1 (by rw [hp a b ha hpb]; exact List.mem_map_of_mem _ hb)
      simp [List.filter_cons, ha, hnil]
    · have := ih hnd.2 hp
      simpa [List.filter_cons, ha] using this

theorem sqlEqKey_inj {ref : JSVal} {a b : Nat} (ha : sqlEqKey ref a = true)
    (hb : sqlEqKey ref b = true) : a = b := by
  simp only [sqlEqKey, decide_eq_true_eq] at ha hb
  rw [ha] at hb
  simpa using hb

/-- With unique customer keys the customer join yields exactly one row per invoice row. -/
theorem leftJoinCustomers_eq (customers : List CustomerRow)
    (hpk : (customers.map (fun c => c.id)).Nodup) (i : InvoiceRow) :
    leftJoinCustomers customers i = [(i, customerDetailsOf customers i)] := by
  have hlen := filter_key_length_le_one (fun c : CustomerRow => c.id)
    (fun c => sqlEqKey i.CustomerId c.id) customers hpk (fun a b ha hb => sqlEqKey_inj ha hb)
  unfold leftJoinCustomers customerDetailsOf
  cases hf : customers.filter (fun c => sqlEqKey i.CustomerId c.id) with
  | nil => simp
  | cons c cs =>
    rw [hf] at hlen
    have hcs : cs = [] := by
      cases cs with
      | nil => rfl
      | cons _ _ => simp at hlen
    subst hcs
    simp

/-- With unique product keys the product join yields exactly one row per line item row. -/
theorem leftJoinProducts_eq (products : List ProductRow)
    (hpk : (products.map (fun p => p.id)).Nodup) (ii : InvoiceItemRow) :
    leftJoinProducts products ii = [(ii, productNameOf products ii)] := by
  have hlen := filter_key_length_le_one (fun p : ProductRow => p.id)
    (fun p => sqlEqKey ii.ProductId p.id) products hpk (fun a b ha hb => sqlEqKey_inj ha hb)
  unfold leftJoinProducts productNameOf
  cases hf : products.filter (fun p => sqlEqKey ii.ProductId p.id) with
  | nil => simp
  | cons c cs =>
    rw [hf] at hlen
    have hcs : cs = [] := by
      cases cs with
      | nil => rfl
      | cons _ _ => simp at hlen
    subst hcs
    simp

theorem flatMap_singleton_eq_map {α β : Type} (f : α → List β) (g : α → β)
    (h : ∀ a, f a = [g a]) (l : List α) : l.flatMap f = l.map g := by
  induction l with
  | nil => rfl
  | cons a as ih => simp [List.flatMap_cons, h a, ih]

/-- With unique customer keys `Invoice.findAll` lists the invoice rows, each once, sorted by
date. -/
theorem findAll_eq (db : Db) (hpk : (db.tables.customers.map (fun c => c.id)).Nodup) :
    Invoice.findAll db =
      ((db.tables.invoices.map
          (fun i => (i, customerDetailsOf db.tables.customers i))).insertionSort
        (fun a b => a.1.date.ge b.1.date = true)).map
      (fun row => { id := row.1.id, invoiceNumber := row.1.invoiceNumber, date := row.1.date,
                    total := row.1.total, CustomerId := row.1.CustomerId,
                    customerDetails := row.2, items := itemsQuery db.tables row.1.id }) := by
  unfold Invoice.findAll
  rw [flatMap_singleton_eq_map _ _ (leftJoinCustomers_eq db.tables.customers hpk)]

/-- With unique product keys `itemsQuery` lists the line item rows of the invoice, each once,
in table order. -/
theorem itemsQuery_eq (t : Tables) (hpk : (t.products.map (fun p => p.id)).Nodup)
    (invoiceId : Nat) :
    itemsQuery t invoiceId =
      (t.invoiceItems.filter (fun ii => ii.InvoiceId = invoiceId)).map
        (fun ii => { id := ii.id, quantity := ii.quantity, rate := ii.rate, total := ii.total,
                     name := productNameOf t.products ii }) := by
  unfold itemsQuery
  rw [flatMap_singleton_eq_map _ _ (leftJoinProducts_eq t.products hpk), List.map_map]
  rfl

theorem findAll_ids_perm (db : Db) (hpk : (db.tables.customers.map (fun c => c.id)).Nodup) :
    ((Invoice.findAll db).map (fun v => v.id)).Perm
      (db.tables.invoices.map (fun r => r.id)) := by
  rw [findAll_eq db hpk, List.map_map]
  have h1 := (List.perm_insertionSort (fun (a b : InvoiceRow × CustomerDetails) =>
    a.1.date.ge b.1.date = true)
    (db.tables.invoices.map (fun i => (i, customerDetailsOf db.tables.customers i)))).map
    (fun row => row.1.id)
  rw [List.map_map] at h1
  exact h1

theorem createdInvoices_length_of_allSucceed : ∀ (calls : List (JSDate × InvoiceData))
    (db : Db), AllSucceed db calls → (createdInvoices db calls).length = calls.length := by
  intro calls
  induction calls with
  | nil => intro db _; rfl
  | cons c rest ih =>
    intro db h
    obtain ⟨date, data⟩ := c
    obtain ⟨⟨res, hres⟩, hrest⟩ := h
    cases hc : Invoice.create db date data with
    | mk r db1 =>
      rw [hc] at hres hrest
      simp only at hres
      subst hres
      simp only [createdInvoices, hc, List.length_cons, ih db1 hrest]

theorem runCreates_frame : ∀ (calls : List (JSDate × InvoiceData)) (db : Db),
    db.txn = none →
    (runCreates db calls).txn = none ∧
      (runCreates db calls).tables.customers = db.tables.customers ∧
      (runCreates db calls).tables.products = db.tables.products := by
  intro calls
  induction calls with
  | nil => intro db h; exact ⟨h, rfl, rfl⟩
  | cons c rest ih =>
    intro db htxn
    obtain ⟨date, data⟩ := c
    cases hres : Invoice.create db date data with
    | mk r db1 =>
      simp only [runCreates, hres]
      cases r with
      | ok res =>
        obtain ⟨items, rows, hok⟩ := create_ok hres
        obtain ⟨h1, h2, h3⟩ := ih db1 hok.txn_after
        exact ⟨h1, h2.trans hok.customers, h3.trans hok.products⟩
      | error e =>
        obtain ⟨ht, hx⟩ := create_error htxn hres
        obtain ⟨h1, h2, h3⟩ := ih db1 hx
        rw [ht] at h2 h3
        exact ⟨h1, h2, h3⟩

/-- The keys of the `Invoices` table after a call sequence: those of before, then the ids
returned by the successful calls in creation order. -/
theorem invoiceIds_runCreates : ∀ (calls : List (JSDate × InvoiceData)) (db : Db),
    db.txn = none →
    (runCreates db calls).tables.invoices.map (fun r => r.id) =
      db.tables.invoices.map (fun r => r.id) ++
        (createdInvoices db calls).map (fun i => i.id) := by
  intro calls
  induction calls with
  | nil => intro db _; simp [runCreates, createdInvoices]
  | cons c rest ih =>
    intro db htxn
    obtain ⟨date, data⟩ := c
    cases hres : Invoice.create db date data with
    | mk r db1 =>
      cases r with
      | ok res =>
        obtain ⟨items, rows, hok⟩ := create_ok hres
        simp only [runCreates, createdInvoices, hres]
        rw [ih db1 hok.txn_after, hok.invoices, hok.result]
        simp
      | error e =>
        obtain ⟨ht, hx⟩ := create_error htxn hres
        simp only [runCreates, createdInvoices, hres]
        rw [ih db1 hx, ht]

/-- C11: on a store with an empty invoice table (and unique customer keys), after any
sequence of `Invoice.create` calls `Invoice.findAll` returns exactly one invoice per
successful call: the listed ids are the returned ids up to order, their number is the number
of successful calls, and it is the number of calls when every call succeeds. -/
theorem findAll_count (db0 : Db) (calls : List (JSDate × InvoiceData))
    (htxn : db0.txn = none) (hempty : db0.tables.invoices = [])
    (hpk : (db0.tables.customers.map (fun c => c.id)).Nodup) :
    ((Invoice.findAll (runCreates db0 calls)).map (fun v => v.id)).Perm
        ((createdInvoices db0 calls).map (fun i => i.id)) ∧
      (Invoice.findAll (runCreates db0 calls)).length = (createdInvoices db0 calls).length ∧
      (AllSucceed db0 calls →
        (Invoice.findAll (runCreates db0 calls)).length = calls.length) := by
  obtain ⟨-, hcust, -⟩ := runCreates_frame calls db0 htxn
  have hpk1 : ((runCreates db0 calls).tables.customers.map (fun c => c.id)).Nodup := by
    rw [hcust]; exact hpk
  have hids := invoiceIds_runCreates calls db0 htxn
  rw [hempty, List.map_nil, List.nil_append] at hids
  have hperm := findAll_ids_perm (runCreates db0 calls) hpk1
  rw [hids] at hperm
  have hlen : (Invoice.findAll (runCreates db0 calls)).length =
      (createdInvoices db0 calls).length := by
    have := hperm.length_eq
    simpa using this
  refine ⟨hperm, hlen, ?_⟩
  intro hall
  rw [hlen, createdInvoices_length_of_allSucceed calls db0 hall]

/-- Witness of C11: three successful calls on the shop store are listed as three invoices,
newest first. -/
theorem findAll_count_witness :
    (Invoice.findAll (runCreates shopDb [(march2024, requestWithId),
        (april2024, requestWithId), (march2024, requestMismatch)])).map
        (fun v => (v.id, v.invoiceNumber, v.customerDetails.name)) =
        [(2, "001/04/24".toList, .str "Asha".toList),
         (1, "001/03/24".toList, .str "Asha".toList),
         (3, "002/03/24".toList, .str "Asha".toList)] ∧
      (Invoice.findAll (runCreates shopDb [(march2024, requestWithId),
        (april2024, requestWithId), (march2024, requestMismatch)])).length = 3 :=
  ⟨by decide,
    (findAll_count shopDb [(march2024, requestWithId), (april2024, requestWithId),
      (march2024, requestMismatch)] rfl rfl (by decide)).2.2
      ⟨⟨_, rfl⟩, ⟨_, rfl⟩, ⟨_, rfl⟩, trivial⟩⟩

theorem forall₂_itemStored_owner {iid : Nat} {rows : List InvoiceItemRow} {items : List Item}
    (h : List.Forall₂ (ItemStored iid) rows items) : ∀ row ∈ rows, row.InvoiceId = iid := by
  induction h with
  | nil => intro row hrow; simp at hrow
  | cons hhead _ ih =>
    intro row hrow
    rcases List.mem_cons.1 hrow with rfl | hrow
    · exact hhead.1
    · exact ih row hrow

/-- Line items through a call sequence: the invariant is kept, the rows of an invoice that was
already stored are not touched, and the rows owned by each invoice a call returned are the
rows written for its items, in order. -/
theorem runCreates_items : ∀ (calls : List (JSDate × InvoiceData)) (db : Db), LedgerInv db →
    LedgerInv (runCreates db calls) ∧
      (∀ r ∈ db.tables.invoices, r ∈ (runCreates db calls).tables.invoices ∧
        (runCreates db calls).tables.invoiceItems.filter (fun ii => ii.InvoiceId = r.id) =
          db.tables.invoiceItems.filter (fun ii => ii.InvoiceId = r.id)) ∧
      (∀ inv ∈ createdInvoices db calls,
        (∃ r ∈ (runCreates db calls).tables.invoices, r.id = inv.id) ∧
          List.Forall₂ (ItemStored inv.id)
            ((runCreates db calls).tables.invoiceItems.filter
              (fun ii => ii.InvoiceId = inv.id)) inv.items) := by
  intro calls
  induction calls with
  | nil =>
    intro db hinv
    refine ⟨hinv, fun r hr => ⟨hr, rfl⟩, ?_⟩
    intro inv hinv1
    simp [createdInvoices] at hinv1
  | cons c rest ih =>
    intro db hinv
    obtain ⟨date, data⟩ := c
    cases hres : Invoice.create db date data with
    | mk r db1 =>
      cases r with
      | error e =>
        obtain ⟨ht, hx⟩ := create_error hinv.txn hres
        have hinv1 : LedgerInv db1 := ⟨hx, by rw [ht]; exact hinv.owned⟩
        obtain ⟨h1, h2, h3⟩ := ih db1 hinv1
        simp only [runCreates, createdInvoices, hres]
        rw [ht] at h2
        exact ⟨h1, h2, h3⟩
      | ok res =>
        obtain ⟨items, rows, hok⟩ := create_ok hres
        have hown := forall₂_itemStored_owner hok.stored
        have hlt : ∀ r ∈ db.tables.invoices,
            r.id < nextRowid db.tables.invoiceSeq (db.tables.invoices.map (fun r => r.id)) :=
          fun r hr => lt_nextRowid _ _ r.id (List.mem_map_of_mem _ hr)
        have hinv1 : LedgerInv db1 := by
          refine ⟨hok.txn_after, ?_⟩
          intro row hrow
          rw [hok.invoiceItems, List.mem_append] at hrow
          rw [hok.invoices]
          rcases hrow with hrow | hrow
          · obtain ⟨r, hr, hid⟩ := hinv.owned row hrow
            exact ⟨r, List.mem_append_left _ hr, hid⟩
          · exact ⟨_, List.mem_append_right _ (List.mem_singleton_self _), (hown row hrow).symm⟩
        obtain ⟨h1, h2, h3⟩ := ih db1 hinv1
        have hold : ∀ r ∈ db.tables.invoices,
            db1.tables.invoiceItems.filter (fun ii => ii.InvoiceId = r.id) =
              db.tables.invoiceItems.filter (fun ii => ii.InvoiceId = r.id) := by
          intro r hr
          rw [hok.invoiceItems, List.filter_append]
          have : rows.filter (fun ii => ii.InvoiceId = r.id) = [] := by
            rw [List.filter_eq_nil_iff]
            intro row hrow
            have h4 := hown row hrow
            have h5 := hlt r hr
            simp only [decide_eq_true_eq]
            omega
          rw [this, List.append_nil]
        have hnew : db1.tables.invoiceItems.filter (fun ii => ii.InvoiceId =
            nextRowid db.tables.invoiceSeq (db.tables.invoices.map (fun r => r.id))) = rows := by
          rw [hok.invoiceItems, List.filter_append]
          have h6 : db.tables.invoiceItems.filter (fun ii => ii.InvoiceId =
              nextRowid db.tables.invoiceSeq (db.tables.invoices.map (fun r => r.id))) = [] := by
            rw [List.filter_eq_nil_iff]
            intro row hrow
            obtain ⟨r, hr, hid⟩ := hinv.owned row hrow
            have h5 := hlt r hr
            simp only [decide_eq_true_eq]
            omega
          have h7 : rows.filter (fun ii => ii.InvoiceId =
              nextRowid db.tables.invoiceSeq (db.tables.invoices.map (fun r => r.id))) = rows := by
            rw [List.filter_eq_self]
            intro row hrow
            simp only [decide_eq_true_eq]
            exact hown row hrow
          rw [h6, h7, List.nil_append]
        have hmem : ∀ r ∈ db.tables.invoices, r ∈ db1.tables.invoices := by
          intro r hr
          rw [hok.invoices]
          exact List.mem_append_left _ hr
        simp only [runCreates, createdInvoices, hres]
        refine ⟨h1, ?_, ?_⟩
        · intro r hr
          obtain ⟨h8, h9⟩ := h2 r (hmem r hr)
          exact ⟨h8, h9.trans (hold r hr)⟩
        · intro inv hinv2
          rcases List.mem_cons.1 hinv2 with rfl | hinv2
          · have hheader : ∃ h ∈ db1.tables.invoices, h.id =
                nextRowid db.tables.invoiceSeq (db.tables.invoices.map (fun r => r.id)) := by
              rw [hok.invoices]
              exact ⟨_, List.mem_append_right _ (List.mem_singleton_self _), rfl⟩
            obtain ⟨hrow, hmem1, hid⟩ := hheader
            obtain ⟨h8, h9⟩ := h2 hrow hmem1
            rw [hid] at h9
            rw [hok.result]
            refine ⟨⟨hrow, h8, hid⟩, ?_⟩
            simp only at h9 ⊢
            rw [h9, hnew]
            exact hok.stored
          · exact h3 inv hinv2

theorem findAll_items_eq (db : Db) : ∀ v ∈ Invoice.findAll db,
    v.items = itemsQuery db.tables v.id := by
  intro v hv
  unfold Invoice.findAll at hv
  obtain ⟨row, -, rfl⟩ := List.mem_map.1 hv
  rfl

theorem get_productId (item : InvoiceItemView) : item.get "productId" = .undefined := by
  simp [InvoiceItemView.get]

/-- Counterexample to C12 as stated: an invoice created on the shop store from the item
`{id: 3, productId: 3, quantity: 2, rate: 50, total: 100}` is listed with one item that has no
`productId` and whose `id` is 1, the key of the line item row. -/
theorem findAll_productId_counterexample :
    (createdInvoices shopDb [(march2024, requestBoth)]).map (fun i => i.items) =
        [[itemBoth]] ∧
      itemBoth.productId = .num 3 ∧
      (Invoice.findAll (runCreates shopDb [(march2024, requestBoth)])).map
        (fun v => v.items.map (fun item => (item.get "productId", item.get "id"))) =
        [[(.undefined, .num 1)]] := by
  decide

/-- C12 (amended): on a store in which every line item belongs to a stored invoice (for instance
an empty store), with unique customer and product keys, after any sequence of
`Invoice.create` calls every invoice that a successful
call returned is listed by `Invoice.findAll`, and the `items` of a listed invoice with that
id have the length of the submitted items and, item by item in order, the submitted
quantity, rate and total; a listed item has no `productId`. -/
theorem findAll_items (db0 : Db) (calls : List (JSDate × InvoiceData))
    (htxn : db0.txn = none)
    (howned : ∀ row ∈ db0.tables.invoiceItems, ∃ r ∈ db0.tables.invoices, r.id = row.InvoiceId)
    (hcust : (db0.tables.customers.map (fun c => c.id)).Nodup)
    (hprod : (db0.tables.products.map (fun p => p.id)).Nodup) :
    ∀ inv ∈ createdInvoices db0 calls,
      (∃ v ∈ Invoice.findAll (runCreates db0 calls), v.id = inv.id) ∧
        ∀ v ∈ Invoice.findAll (runCreates db0 calls), v.id = inv.id →
          v.items.length = inv.items.length ∧
            List.Forall₂ (fun (out : InvoiceItemView) (it : Item) =>
              out.quantity = it.quantity ∧ out.rate = it.rate ∧ out.total = it.total ∧
                out.get "productId" = .undefined) v.items inv.items := by
  intro inv hinv
  have hled : LedgerInv db0 := ⟨htxn, howned⟩
  obtain ⟨-, -, h3⟩ := runCreates_items calls db0 hled
  obtain ⟨⟨r, hr, hid⟩, hstored⟩ := h3 inv hinv
  obtain ⟨-, hc, hp⟩ := runCreates_frame calls db0 htxn
  have hcust1 : ((runCreates db0 calls).tables.customers.map (fun c => c.id)).Nodup := by
    rw [hc]; exact hcust
  have hprod1 : ((runCreates db0 calls).tables.products.map (fun p => p.id)).Nodup := by
    rw [hp]; exact hprod
  constructor
  · have hmem : inv.id ∈ (runCreates db0 calls).tables.invoices.map (fun r => r.id) := by
      rw [← hid]
      exact List.mem_map_of_mem _ hr
    rw [← (findAll_ids_perm _ hcust1).mem_iff] at hmem
    obtain ⟨v, hv, hvid⟩ := List.mem_map.1 hmem
    exact ⟨v, hv, hvid⟩
  · intro v hv hvid
    have hf : List.Forall₂ (fun (out : InvoiceItemView) (it : Item) =>
        out.quantity = it.quantity ∧ out.rate = it.rate ∧ out.total = it.total ∧
          out.get "productId" = .undefined) v.items inv.items := by
      rw [findAll_items_eq _ v hv, hvid, itemsQuery_eq _ hprod1, List.forall₂_map_left_iff]
      exact hstored.imp (fun _ _ h => ⟨h.2.2.1, h.2.2.2.1, h.2.2.2.2, get_productId _⟩)
    exact ⟨hf.length_eq, hf⟩

/-- Witness of C12 (amended): the invoice created from `itemBoth` is listed with one item of
quantity 2, rate 50, total 100 and product name `Pen`. -/
theorem findAll_items_witness :
    (Invoice.findAll (runCreates shopDb [(march2024, requestBoth)])).map (fun v => v.items) =
        [[{ id := 1, quantity := .num 2, rate := .num 50, total := .num 100,
            name := .str "Pen".toList }]] ∧
      ∀ inv ∈ createdInvoices shopDb [(march2024, requestBoth)],
        (∃ v ∈ Invoice.findAll (runCreates shopDb [(march2024, requestBoth)]),
          v.id = inv.id) ∧
          ∀ v ∈ Invoice.findAll (runCreates shopDb [(march2024, requestBoth)]),
            v.id = inv.id →
            v.items.length = inv.items.length ∧
              List.Forall₂ (fun (out : InvoiceItemView) (it : Item) =>
                out.quantity = it.quantity ∧ out.rate = it.rate ∧ out.total = it.total ∧
                  out.get "productId" = .undefined) v.items inv.items :=
  ⟨by decide, findAll_items shopDb [(march2024, requestBoth)] rfl (by decide) (by decide)
    (by decide)⟩

/-! ## Windows of the analytics report -/

/-- Sorting the joined rows by the date of their invoice sorts the invoice rows. -/
theorem listedRows_map {β : Type} (rows : List InvoiceRow) (f : InvoiceRow → β) :
    (rows.map (fun i => (i, f i))).insertionSort
        (fun (a b : InvoiceRow × β) => a.1.date.ge b.1.date = true) =
      (listedRows rows).map (fun i => (i, f i)) :=
  (List.map_insertionSort (fun (a b : InvoiceRow) => a.date.ge b.date = true)
    (fun (a b : InvoiceRow × β) => a.1.date.ge b.1.date = true) (fun i => (i, f i)) rows
    (fun _ _ _ _ => Iff.rfl)).symm

/-- With unique customer keys, a sum of the handler over the listed invoices of a window is
the accumulation from 0, in listing order, over the invoice rows of that window. -/
theorem sumTotals_filter_findAll (db : Db)
    (hpk : (db.tables.customers.map (fun c => c.id)).Nodup) (w : JSDate → Bool) :
    sumTotals ((Invoice.findAll db).filter (fun inv => w inv.date)) =
      revenueOver db.tables.invoices w := by
  rw [findAll_eq db hpk, listedRows_map, List.map_map, List.filter_map]
  unfold sumTotals revenueOver accumulate
  rw [List.foldl_map]
  rfl

theorem monthIndex_monthOfIndex (idx : Int) : monthIndex (monthOfIndex idx) = idx := by
  simp only [monthIndex, monthOfIndex]
  omega

theorem newDate_eq_monthOfIndex (year month : Int) (hy : ¬ (0 ≤ year ∧ year ≤ 99)) :
    newDate year month = monthOfIndex (year * 12 + month) := by
  have h1 : (year * 12 + month) / 12 = year + month / 12 := by omega
  have h2 : (year * 12 + month) % 12 = month % 12 := by omega
  simp only [newDate, monthOfIndex, hy, if_false, h1, h2]

/-- A date is on or after the first instant of a month exactly when its month is not
earlier. -/
theorem ge_monthOfIndex (d : JSDate) (idx : Int) :
    d.ge (monthOfIndex idx) = decide (idx ≤ monthIndex d) := by
  have h := monthIndex_monthOfIndex idx
  rw [Bool.eq_iff_iff]
  simp only [JSDate.ge, h, Bool.or_eq_true, Bool.and_eq_true, decide_eq_true_eq]
  have h0 : (monthOfIndex idx).msInMonth = 0 := rfl
  rw [h0]
  constructor
  · rintro (h1 | ⟨h1, -⟩) <;> omega
  · intro h1
    rcases lt_or_eq_of_le h1 with h2 | h2
    · exact Or.inl h2
    · exact Or.inr ⟨h2.symm, Nat.zero_le _⟩

theorem startOfMonth_eq (now : JSDate) : startOfMonth now = monthOfIndex (monthIndex now) := by
  have hm := now.month.isLt
  have h1 : (now.year * 12 + (now.month.val : Int)) / 12 = now.year := by omega
  have h2 : ((now.year * 12 + (now.month.val : Int)) % 12).toNat = now.month.val := by omega
  simp only [startOfMonth, monthOfIndex, monthIndex, h1, h2]

theorem startOfPreviousMonth_eq (now : JSDate) :
    startOfPreviousMonth now = monthOfIndex (monthIndex now - 1) := by
  have hm := now.month.isLt
  unfold startOfPreviousMonth
  split
  · rename_i h0
    have h1 : (now.year * 12 + (now.month.val : Int) - 1) / 12 = now.year - 1 := by omega
    have h2 : ((now.year * 12 + (now.month.val : Int) - 1) % 12).toNat = 11 := by omega
    simp only [monthOfIndex, monthIndex, h1, h2]
    rfl
  · rename_i h0
    have h1 : (now.year * 12 + (now.month.val : Int) - 1) / 12 = now.year := by omega
    have h2 : ((now.year * 12 + (now.month.val : Int) - 1) % 12).toNat = now.month.val - 1 := by
      omega
    simp only [monthOfIndex, monthIndex, h1, h2]

theorem startOfYear_eq (now : JSDate) : startOfYear now = monthOfIndex (now.year * 12) := by
  have h1 : (now.year * 12) / 12 = now.year := by omega
  have h2 : ((now.year * 12) % 12).toNat = 0 := by omega
  simp only [startOfYear, monthOfIndex, h1, h2]
  rfl

theorem startOfPreviousYear_eq (now : JSDate) :
    startOfPreviousYear now = monthOfIndex ((now.year - 1) * 12) := by
  have h1 : ((now.year - 1) * 12) / 12 = now.year - 1 := by omega
  have h2 : (((now.year - 1) * 12) % 12).toNat = 0 := by omega
  simp only [startOfPreviousYear, monthOfIndex, h1, h2]
  rfl

theorem newDate_current (now : JSDate) (hy : 100 < now.year) :
    newDate now.year (now.month.val : Int) = startOfMonth now := by
  rw [newDate_eq_monthOfIndex _ _ (by omega), startOfMonth_eq]
  rfl

theorem newDate_previous (now : JSDate) (hy : 100 < now.year) :
    newDate now.year ((now.month.val : Int) - 1) = startOfPreviousMonth now := by
  rw [newDate_eq_monthOfIndex _ _ (by omega), startOfPreviousMonth_eq]
  congr 1
  unfold monthIndex
  omega

theorem newDate_year (now : JSDate) (hy : 100 < now.year) :
    newDate now.year 0 = startOfYear now := by
  rw [newDate_eq_monthOfIndex _ _ (by omega), startOfYear_eq]
  simp

theorem newDate_previousYear (now : JSDate) (hy : 100 < now.year) :
    newDate (now.year - 1) 0 = startOfPreviousYear now := by
  rw [newDate_eq_monthOfIndex _ _ (by omega), startOfPreviousYear_eq]
  simp

/-- The two handlers compute the same report. -/
theorem analyticsGet_eq (monthName : Fin 12 → JSString) (db : Db) (now : JSDate) :
    analyticsGet monthName db now = apiAnalytics monthName db now := rfl

/-- The four revenue figures of `GET /api/analytics` as accumulations over the invoice rows
in listing order. -/
theorem apiAnalytics_revenues (monthName : Fin 12 → JSString) (db : Db) (now : JSDate)
    (hpk : (db.tables.customers.map (fun c => c.id)).Nodup) (hy : 100 < now.year) :
    (apiAnalytics monthName db now).currentMonthRevenue =
        revenueOver db.tables.invoices (fun d => d.ge (startOfMonth now)) ∧
      (apiAnalytics monthName db now).lastMonthRevenue =
        revenueOver db.tables.invoices
          (fun d => d.ge (startOfPreviousMonth now) && d.lt (startOfMonth now)) ∧
      (apiAnalytics monthName db now).currentYearRevenue =
        revenueOver db.tables.invoices (fun d => d.ge (startOfYear now)) ∧
      (apiAnalytics monthName db now).lastYearRevenue =
        revenueOver db.tables.invoices
          (fun d => d.ge (startOfPreviousYear now) && d.lt (startOfYear now)) := by
  refine ⟨?_, ?_, ?_, ?_⟩
  · rw [← sumTotals_filter_findAll db hpk, ← newDate_current now hy]
    rfl
  · rw [← sumTotals_filter_findAll db hpk, ← newDate_current now hy, ← newDate_previous now hy]
    rfl
  · rw [← sumTotals_filter_findAll db hpk, ← newDate_year now hy]
    rfl
  · rw [← sumTotals_filter_findAll db hpk, ← newDate_year now hy,
      ← newDate_previousYear now hy]
    rfl

theorem mem_listedRows {rows : List InvoiceRow} {r : InvoiceRow} :
    r ∈ listedRows rows ↔ r ∈ rows :=
  List.mem_insertionSort _

theorem listedRows_perm (rows : List InvoiceRow) : (listedRows rows).Perm rows :=
  List.perm_insertionSort _ rows

/-- Two windows that hold the same dates of the table give the same revenue. -/
theorem filter_window_congr (rows : List InvoiceRow) (w1 w2 : JSDate → Bool)
    (h : ∀ r ∈ rows, w1 r.date = w2 r.date) : revenueOver rows w1 = revenueOver rows w2 := by
  unfold revenueOver
  rw [List.filter_congr (fun r hr => h r (mem_listedRows.1 hr))]

/-- The sum of two natural numbers below `2 ^ 53` is added without rounding. -/
theorem F64.add_nat (a b : Nat) (h : a + b < 2 ^ 53) :
    F64.add (.fin (a : Int) 0) (.fin (b : Int) 0) = .fin ((a + b : Nat) : Int) 0 := by
  have hc : ((a : Int) * 2 ^ (max 0 0 - 0) + (b : Int) * 2 ^ (max 0 0 - 0)) =
      ((a + b : Nat) : Int) := by
    simp
  simp only [F64.add, hc]
  by_cases h0 : ((a + b : Nat) : Int) = 0
  · rw [if_pos h0, h0]
  · rw [if_neg h0, if_pos ⟨by simpa using h, by simp⟩]
    rfl

theorem parseFloat_nat (n : Nat) (h : n < 2 ^ 53) :
    parseFloat (.num (n : Int)) = .fin (n : Int) 0 := by
  show F64.ofInt (n : Int) = _
  unfold F64.ofInt
  rw [if_pos (by simpa using h)]

theorem isNatNumber_eq {v : JSVal} (h : v.isNatNumber = true) : ∃ n : Nat, v = .num (n : Int) := by
  cases v with
  | num z =>
    simp only [JSVal.isNatNumber, decide_eq_true_eq] at h
    exact ⟨z.toNat, by rw [Int.toNat_of_nonneg h]⟩
  | undefined => simp [JSVal.isNatNumber] at h
  | null => simp [JSVal.isNatNumber] at h
  | real x => simp [JSVal.isNatNumber] at h
  | str t => simp [JSVal.isNatNumber] at h

/-- Natural-number totals whose sum stays below `2 ^ 53` are accumulated without rounding. -/
theorem accumulate_nat (rows : List InvoiceRow)
    (hnat : ∀ r ∈ rows, r.total.isNatNumber = true) (a : Nat)
    (hb : a + (rows.map natTotal).sum < 2 ^ 53) :
    accumulate rows (.fin (a : Int) 0) =
      .fin ((a + (rows.map natTotal).sum : Nat) : Int) 0 := by
  induction rows generalizing a with
  | nil => simp [accumulate]
  | cons r rs ih =>
    obtain ⟨n, hn⟩ := isNatNumber_eq (hnat r (List.mem_cons_self _ _))
    have hi : natTotal r = n := by simp [natTotal, hn]
    rw [List.map_cons, List.sum_cons, hi] at hb
    have hstep : F64.add (.fin (a : Int) 0) (parseFloat r.total) =
        .fin ((a + n : Nat) : Int) 0 := by
      rw [hn, parseFloat_nat n (by omega), F64.add_nat a n (by omega)]
    have hrs := ih (fun x hx => hnat x (List.mem_cons_of_mem _ hx)) (a + n) (by omega)
    unfold accumulate at hrs ⊢
    rw [List.foldl_cons, hstep, hrs, List.map_cons, List.sum_cons, hi, Nat.add_assoc]

/-- When every total is a natural number and the totals of the table add up to less than
`2 ^ 53`, the revenue of a window is the sum of the totals of its rows. -/
theorem revenueOver_nat (rows : List InvoiceRow) (w : JSDate → Bool)
    (hnat : ∀ r ∈ rows, r.total.isNatNumber = true)
    (hb : (rows.map natTotal).sum < 2 ^ 53) :
    revenueOver rows w =
      .fin ((((rows.filter (fun r => w r.date)).map natTotal).sum : Nat) : Int) 0 := by
  have hperm : ((listedRows rows).filter (fun r => w r.date)).Perm
      (rows.filter (fun r => w r.date)) := (listedRows_perm rows).filter _
  have hsum : (((listedRows rows).filter (fun r => w r.date)).map natTotal).sum =
      ((rows.filter (fun r => w r.date)).map natTotal).sum := (hperm.map natTotal).sum_eq
  have hle : ((rows.filter (fun r => w r.date)).map natTotal).sum ≤ (rows.map natTotal).sum :=
    List.Sublist.sum_le_sum ((List.filter_sublist rows).map natTotal) (fun _ _ => Nat.zero_le _)
  have h := accumulate_nat ((listedRows rows).filter (fun r => w r.date))
    (fun r hr => hnat r (mem_listedRows.1 (List.mem_of_mem_filter hr))) 0
    (by rw [hsum]; omega)
  unfold revenueOver
  rw [hsum] at h
  simpa using h

theorem ge_self (d : JSDate) : d.ge d = true := by
  simp [JSDate.ge]

/-- Counterexample to C13 as stated: at an instant in March 2024, a store that also holds
invoices dated April 2024 (70) and January 2025 (40) reports `currentMonthRevenue` 410, while
the totals of the invoices dated from the start of March up to now sum to 300. -/
theorem currentMonthRevenue_counterexample :
    (apiAnalytics shortMonthName futureDb midMarch2024).currentMonthRevenue =
        F64.ofInt 410 ∧
      revenueOver futureDb.tables.invoices
        (fun d => d.ge (startOfMonth midMarch2024) && midMarch2024.ge d) = F64.ofInt 300 := by
  decide

/-- C13 (amended): for every store with unique customer keys and every instant `now` (year
above 100), `currentMonthRevenue` of `GET /api/analytics` is what the accumulation `sum +
parseFloat(total)` gives from 0, in listing order (latest date first), over exactly the
invoices dated on or after the first instant of the current month, invoices dated after `now`
included; when no invoice is dated after `now` these are the invoices dated from the start of
the month up to `now`. Number addition rounds, so the order is part of the statement; when
every total is a natural number and the totals of the store add up to less than `2 ^ 53`
nothing is rounded and the figure is the sum of those totals. -/
theorem currentMonthRevenue_window (monthName : Fin 12 → JSString) (db : Db) (now : JSDate)
    (hpk : (db.tables.customers.map (fun c => c.id)).Nodup) (hy : 100 < now.year) :
    (apiAnalytics monthName db now).currentMonthRevenue =
        accumulate ((listedRows db.tables.invoices).filter
          (fun r => r.date.ge (startOfMonth now))) (.fin 0 0) ∧
      ((∀ r ∈ db.tables.invoices, now.ge r.date = true) →
        (apiAnalytics monthName db now).currentMonthRevenue =
          accumulate ((listedRows db.tables.invoices).filter
            (fun r => r.date.ge (startOfMonth now) && now.ge r.date)) (.fin 0 0)) ∧
      ((∀ r ∈ db.tables.invoices, r.total.isNatNumber = true) →
        (db.tables.invoices.map natTotal).sum < 2 ^ 53 →
        (apiAnalytics monthName db now).currentMonthRevenue =
          .fin ((((db.tables.invoices.filter
            (fun r => r.date.ge (startOfMonth now))).map natTotal).sum : Nat) : Int) 0) := by
  have h := (apiAnalytics_revenues monthName db now hpk hy).1
  refine ⟨h, ?_, ?_⟩
  · intro hpast
    rw [h]
    exact filter_window_congr _ (fun d => d.ge (startOfMonth now))
      (fun d => d.ge (startOfMonth now) && now.ge d)
      (fun r hr => by simp only [hpast r hr, Bool.and_true])
  · intro hnat hb
    rw [h, revenueOver_nat _ _ hnat hb]

/-- Witness of C13 (amended): invoices of 100 and 200 in the current month and one of 50 in
the prior month give `currentMonthRevenue` 300 and `lastMonthRevenue` 50; with the totals
99.5 and 0.25 in the current month the figure is 99.75. -/
theorem currentMonthRevenue_window_witness :
    (apiAnalytics shortMonthName ledgerDb midMarch2024).currentMonthRevenue =
        F64.ofInt 300 ∧
      (apiAnalytics shortMonthName ledgerDb midMarch2024).lastMonthRevenue = F64.ofInt 50 ∧
      (apiAnalytics shortMonthName fractionDb midMarch2024).currentMonthRevenue =
        decimal "99.75" :=
  ⟨(currentMonthRevenue_window shortMonthName ledgerDb midMarch2024 (by decide)
      (by decide)).2.2 (by decide) (by decide), by decide,
    (currentMonthRevenue_window shortMonthName fractionDb midMarch2024 (by decide)
      (by decide)).1.trans (by decide)⟩

/-- C14: for every store with unique customer keys and every instant `now` (year above
100), `lastMonthRevenue` of `GET /api/analytics` and of `analytics:get` is what the
accumulation `sum + parseFloat(total)` gives from 0, in listing order (latest date first),
over exactly the invoices dated on or after the first instant of the previous month and before
the first instant of the current month, the previous month of January being December of the
preceding year. When every total is a natural number and the totals of the store add up to
less than `2 ^ 53` nothing is rounded and the figure is the sum of those totals. -/
theorem lastMonthRevenue_window (monthName : Fin 12 → JSString) (db : Db) (now : JSDate)
    (hpk : (db.tables.customers.map (fun c => c.id)).Nodup) (hy : 100 < now.year) :
    (apiAnalytics monthName db now).lastMonthRevenue =
        accumulate ((listedRows db.tables.invoices).filter
          (fun r => r.date.ge (startOfPreviousMonth now) && r.date.lt (startOfMonth now)))
          (.fin 0 0) ∧
      (analyticsGet monthName db now).lastMonthRevenue =
        accumulate ((listedRows db.tables.invoices).filter
          (fun r => r.date.ge (startOfPreviousMonth now) && r.date.lt (startOfMonth now)))
          (.fin 0 0) ∧
      (now.month.val = 0 →
        startOfPreviousMonth now = { year := now.year - 1, month := 11, msInMonth := 0 }) ∧
      ((∀ r ∈ db.tables.invoices, r.total.isNatNumber = true) →
        (db.tables.invoices.map natTotal).sum < 2 ^ 53 →
        (apiAnalytics monthName db now).lastMonthRevenue =
          .fin ((((db.tables.invoices.filter
            (fun r => r.date.ge (startOfPreviousMonth now) &&
              r.date.lt (startOfMonth now))).map natTotal).sum : Nat) : Int) 0) := by
  have h := (apiAnalytics_revenues monthName db now hpk hy).2.1
  refine ⟨h, ?_, ?_, ?_⟩
  · rw [analyticsGet_eq]
    exact h
  · intro h0
    simp [startOfPreviousMonth, h0]
  · intro hnat hb
    rw [h, revenueOver_nat _ _ hnat hb]

/-- Witness of C14: in January 2025 an invoice of 40 dated December 2024 is last month's
revenue; in March 2024 the February invoices of 0.1 and 0.2 give 0.30000000000000004. -/
theorem lastMonthRevenue_window_witness :
    (apiAnalytics shortMonthName decemberDb january2025).lastMonthRevenue = F64.ofInt 40 ∧
      startOfPreviousMonth january2025 = { year := 2024, month := 11, msInMonth := 0 } ∧
      (apiAnalytics shortMonthName fractionDb midMarch2024).lastMonthRevenue =
        decimal "0.30000000000000004" :=
  ⟨(lastMonthRevenue_window shortMonthName decemberDb january2025 (by decide)
      (by decide)).2.2.2 (by decide) (by decide),
    (lastMonthRevenue_window shortMonthName decemberDb january2025 (by decide)
      (by decide)).2.2.1 rfl,
    (lastMonthRevenue_window shortMonthName fractionDb midMarch2024 (by decide)
      (by decide)).1.trans (by decide)⟩

/-- Counterexample to C15 as stated: at an instant in March 2024, a store that also holds an
invoice dated January 2025 (40) and one dated April 2024 (70) reports `currentYearRevenue`
460, while the totals of the invoices dated from the start of 2024 up to now sum to 350. -/
theorem currentYearRevenue_counterexample :
    (apiAnalytics shortMonthName futureDb midMarch2024).currentYearRevenue =
        F64.ofInt 460 ∧
      revenueOver futureDb.tables.invoices
        (fun d => d.ge (startOfYear midMarch2024) && midMarch2024.ge d) = F64.ofInt 350 := by
  decide

/-- C15 (amended): for every store with unique customer keys and every instant `now` (year
above 100), `currentYearRevenue` is what the accumulation `sum + parseFloat(total)` gives from
0, in listing order (latest date first), over exactly the invoices dated on or after the first
instant of the current year, invoices dated after `now` included (the invoices dated from the
start of the year up to `now` when none is dated later), and `lastYearRevenue` is the same
accumulation over exactly the invoices dated on or after the first instant of the previous
year and before the first instant of the current year. When every total is a natural number
and the totals of the store add up to less than `2 ^ 53` nothing is rounded and the figures
are the sums of those totals. -/
theorem yearRevenue_windows (monthName : Fin 12 → JSString) (db : Db) (now : JSDate)
    (hpk : (db.tables.customers.map (fun c => c.id)).Nodup) (hy : 100 < now.year) :
    (apiAnalytics monthName db now).currentYearRevenue =
        accumulate ((listedRows db.tables.invoices).filter
          (fun r => r.date.ge (startOfYear now))) (.fin 0 0) ∧
      ((∀ r ∈ db.tables.invoices, now.ge r.date = true) →
        (apiAnalytics monthName db now).currentYearRevenue =
          accumulate ((listedRows db.tables.invoices).filter
            (fun r => r.date.ge (startOfYear now) && now.ge r.date)) (.fin 0 0)) ∧
      (apiAnalytics monthName db now).lastYearRevenue =
        accumulate ((listedRows db.tables.invoices).filter
          (fun r => r.date.ge (startOfPreviousYear now) && r.date.lt (startOfYear now)))
          (.fin 0 0) ∧
      ((∀ r ∈ db.tables.invoices, r.total.isNatNumber = true) →
        (db.tables.invoices.map natTotal).sum < 2 ^ 53 →
        (apiAnalytics monthName db now).currentYearRevenue =
            .fin ((((db.tables.invoices.filter
              (fun r => r.date.ge (startOfYear now))).map natTotal).sum : Nat) : Int) 0 ∧
          (apiAnalytics monthName db now).lastYearRevenue =
            .fin ((((db.tables.invoices.filter
              (fun r => r.date.ge (startOfPreviousYear now) &&
                r.date.lt (startOfYear now))).map natTotal).sum : Nat) : Int) 0) := by
  obtain ⟨-, -, h3, h4⟩ := apiAnalytics_revenues monthName db now hpk hy
  refine ⟨h3, ?_, h4, ?_⟩
  · intro hpast
    rw [h3]
    exact filter_window_congr _ (fun d => d.ge (startOfYear now))
      (fun d => d.ge (startOfYear now) && now.ge d)
      (fun r hr => by simp only [hpast r hr, Bool.and_true])
  · intro hnat hb
    rw [h3, h4, revenueOver_nat _ _ hnat hb, revenueOver_nat _ _ hnat hb]
    exact ⟨rfl, rfl⟩

/-- Witness of C15 (amended): in January 2025 the invoice of 40 dated December 2024 is last
year's revenue and the current year has none; in March 2024 the totals 99.5 and 0.25 (March),
0.2 and 0.1 (February) give the `currentYearRevenue` 100.05. -/
theorem yearRevenue_windows_witness :
    ((apiAnalytics shortMonthName decemberDb january2025).currentYearRevenue =
        F64.ofInt 0 ∧
      (apiAnalytics shortMonthName decemberDb january2025).lastYearRevenue =
        F64.ofInt 40) ∧
      (apiAnalytics shortMonthName fractionDb midMarch2024).currentYearRevenue =
        decimal "100.05" :=
  ⟨(yearRevenue_windows shortMonthName decemberDb january2025 (by decide)
      (by decide)).2.2.2 (by decide) (by decide),
    (yearRevenue_windows shortMonthName fractionDb midMarch2024 (by decide)
      (by decide)).1.trans (by decide)⟩

theorem ge_trans {a b c : JSDate} (h1 : a.ge b = true) (h2 : b.ge c = true) :
    a.ge c = true := by
  simp only [JSDate.ge, Bool.or_eq_true, Bool.and_eq_true, decide_eq_true_eq] at h1 h2 ⊢
  omega

/-- Listing is stable: the listing of a table without one of its rows is the listing of the
table with that row left out. -/
theorem listedRows_sublist (pre post : List InvoiceRow) (r : InvoiceRow) :
    (listedRows (pre ++ post)).Sublist (listedRows (pre ++ r :: post)) := by
  haveI : IsTrans InvoiceRow (fun a b => a.date.ge b.date = true) :=
    ⟨fun _ _ _ h1 h2 => ge_trans h1 h2⟩
  haveI : IsTotal InvoiceRow (fun a b => a.date.ge b.date = true) :=
    ⟨fun a b => by
      simp only [JSDate.ge, Bool.or_eq_true, Bool.and_eq_true, decide_eq_true_eq]
      omega⟩
  induction pre with
  | nil => exact List.sublist_orderedInsert r _
  | cons a pre ih =>
    exact List.Sublist.orderedInsert_sublist a ih (List.sorted_insertionSort _ _)

theorem sublist_succ_length {α : Type} {l1 l2 : List α} (h : l1.Sublist l2)
    (hlen : l2.length = l1.length + 1) : ∃ A x B, l2 = A ++ x :: B ∧ l1 = A ++ B := by
  induction h with
  | slnil => simp at hlen
  | @cons l1 l2 a h _ =>
    have heq : l1 = l2 := h.eq_of_length (by simpa using hlen.symm)
    exact ⟨[], a, l2, rfl, heq⟩
  | @cons₂ l1 l2 a _ ih =>
    obtain ⟨A, x, B, h2, h1⟩ := ih (by simpa using hlen)
    exact ⟨a :: A, x, B, by rw [h2]; rfl, by rw [h1]; rfl⟩

theorem perm_cons_head {α : Type} [DecidableEq α] {x r : α} {M : List α}
    (h : (x :: M).Perm (r :: M)) : x = r := by
  have hc := h.count_eq x
  rw [List.count_cons_self, List.count_cons] at hc
  by_contra hne
  have hne2 : (r == x) = false := by
    simp only [beq_eq_false_iff_ne, ne_eq]
    exact fun h => hne h.symm
  rw [hne2] at hc
  simp at hc

/-- A row of the window is listed at one place of the window, and the rows around it are the
window of the table without that row. -/
theorem listed_window_with (pre post : List InvoiceRow) (r : InvoiceRow) (p : InvoiceRow → Bool)
    (hp : p r = true) :
    ∃ before after, (listedRows (pre ++ r :: post)).filter p = before ++ r :: after ∧
      (listedRows (pre ++ post)).filter p = before ++ after := by
  have hsub := (listedRows_sublist pre post r).filter p
  have hperm : ((listedRows (pre ++ r :: post)).filter p).Perm
      (r :: (listedRows (pre ++ post)).filter p) := by
    have h1 : (listedRows (pre ++ r :: post)).Perm (r :: listedRows (pre ++ post)) :=
      (listedRows_perm _).trans
        ((List.perm_middle).trans ((listedRows_perm (pre ++ post)).symm.cons r))
    have h2 := h1.filter p
    rwa [List.filter_cons_of_pos hp] at h2
  obtain ⟨A, x, B, h2, h1⟩ := sublist_succ_length hsub (by rw [hperm.length_eq]; rfl)
  have hx : x = r := by
    apply perm_cons_head (M := A ++ B)
    rw [h2, h1] at hperm
    exact (List.perm_middle).symm.trans hperm
  subst hx
  exact ⟨A, B, h2, h1⟩

/-- A row outside the window does not change the listed rows of the window. -/
theorem listed_window_without (pre post : List InvoiceRow) (r : InvoiceRow)
    (p : InvoiceRow → Bool) (hp : p r = false) :
    (listedRows (pre ++ r :: post)).filter p = (listedRows (pre ++ post)).filter p := by
  have hsub := (listedRows_sublist pre post r).filter p
  have hperm : ((listedRows (pre ++ r :: post)).filter p).Perm
      ((listedRows (pre ++ post)).filter p) := by
    have h1 : (listedRows (pre ++ r :: post)).Perm (r :: listedRows (pre ++ post)) :=
      (listedRows_perm _).trans
        ((List.perm_middle).trans ((listedRows_perm (pre ++ post)).symm.cons r))
    have h2 := h1.filter p
    rwa [List.filter_cons_of_neg (by simp [hp])] at h2
  exact (hsub.eq_of_length hperm.length_eq.symm).symm

/-- C16: for every store with unique customer keys and every instant `now` (year above
100), in both handlers, for an invoice row `r` of the table (`pre` the rows before it, `post`
the rows after it): when `r` is dated at the first instant of the current month, the rows that
`currentMonthRevenue` accumulates are those it accumulates for the table without `r`, with `r`
listed between them, so the figure is the accumulation in which the total of `r` is added at
that place, and `lastMonthRevenue` is what it is for the table without `r`; when `r` is dated
in the month before (so also one instant before the current month), the same holds with the
two figures exchanged. -/
theorem month_boundary (monthName : Fin 12 → JSString) (db : Db) (now : JSDate)
    (pre post : List InvoiceRow) (r : InvoiceRow)
    (hpk : (db.tables.customers.map (fun c => c.id)).Nodup) (hy : 100 < now.year)
    (hrows : db.tables.invoices = pre ++ r :: post) :
    (r.date = startOfMonth now →
        (∃ before after,
            (listedRows db.tables.invoices).filter (fun x => x.date.ge (startOfMonth now)) =
              before ++ r :: after ∧
            (listedRows (pre ++ post)).filter (fun x => x.date.ge (startOfMonth now)) =
              before ++ after ∧
            (apiAnalytics monthName db now).currentMonthRevenue =
              accumulate after ((accumulate before (.fin 0 0)).add (parseFloat r.total)) ∧
            revenueOver (pre ++ post) (fun d => d.ge (startOfMonth now)) =
              accumulate after (accumulate before (.fin 0 0))) ∧
          (apiAnalytics monthName db now).lastMonthRevenue =
            revenueOver (pre ++ post)
              (fun d => d.ge (startOfPreviousMonth now) && d.lt (startOfMonth now))) ∧
      (monthIndex r.date = monthIndex now - 1 →
        (∃ before after,
            (listedRows db.tables.invoices).filter
                (fun x => x.date.ge (startOfPreviousMonth now) &&
                  x.date.lt (startOfMonth now)) =
              before ++ r :: after ∧
            (listedRows (pre ++ post)).filter
                (fun x => x.date.ge (startOfPreviousMonth now) &&
                  x.date.lt (startOfMonth now)) =
              before ++ after ∧
            (apiAnalytics monthName db now).lastMonthRevenue =
              accumulate after ((accumulate before (.fin 0 0)).add (parseFloat r.total)) ∧
            revenueOver (pre ++ post)
                (fun d => d.ge (startOfPreviousMonth now) && d.lt (startOfMonth now)) =
              accumulate after (accumulate before (.fin 0 0))) ∧
          (apiAnalytics monthName db now).currentMonthRevenue =
            revenueOver (pre ++ post) (fun d => d.ge (startOfMonth now))) ∧
      analyticsGet monthName db now = apiAnalytics monthName db now := by
  obtain ⟨h1, h2, -, -⟩ := apiAnalytics_revenues monthName db now hpk hy
  unfold revenueOver at h1 h2
  rw [hrows] at h1 h2 ⊢
  refine ⟨?_, ?_, rfl⟩
  · intro hd
    have hc : r.date.ge (startOfMonth now) = true := by rw [hd]; exact ge_self _
    have hl : (r.date.ge (startOfPreviousMonth now) && r.date.lt (startOfMonth now)) =
        false := by
      simp [JSDate.lt, hc]
    obtain ⟨before, after, hwith, hwithout⟩ := listed_window_with pre post r
      (fun x => x.date.ge (startOfMonth now)) hc
    refine ⟨⟨before, after, hwith, hwithout, ?_, ?_⟩, ?_⟩
    · rw [h1, hwith]
      unfold accumulate
      rw [List.foldl_append, List.foldl_cons]
    · unfold revenueOver
      rw [hwithout]
      unfold accumulate
      rw [List.foldl_append]
    · rw [h2, listed_window_without pre post r
        (fun x => x.date.ge (startOfPreviousMonth now) && x.date.lt (startOfMonth now)) hl]
      rfl
  · intro hd
    have hc : r.date.ge (startOfMonth now) = false := by
      rw [startOfMonth_eq, ge_monthOfIndex]
      simp only [decide_eq_false_iff_not]
      omega
    have hp : r.date.ge (startOfPreviousMonth now) = true := by
      rw [startOfPreviousMonth_eq, ge_monthOfIndex]
      simp only [decide_eq_true_eq]
      omega
    have hl : (r.date.ge (startOfPreviousMonth now) && r.date.lt (startOfMonth now)) =
        true := by
      simp [JSDate.lt, hc, hp]
    obtain ⟨before, after, hwith, hwithout⟩ := listed_window_with pre post r
      (fun x => x.date.ge (startOfPreviousMonth now) && x.date.lt (startOfMonth now)) hl
    refine ⟨⟨before, after, hwith, hwithout, ?_, ?_⟩, ?_⟩
    · rw [h2, hwith]
      unfold accumulate
      rw [List.foldl_append, List.foldl_cons]
    · unfold revenueOver
      rw [hwithout]
      unfold accumulate
      rw [List.foldl_append]
    · rw [h1, listed_window_without pre post r (fun x => x.date.ge (startOfMonth now)) hc]
      rfl

/-- Witness of C16: in the ledger store the invoice of 100 is dated at the first instant of
March 2024 and the invoice of 50 lies in February; at an instant in March the February figure
is the one of the store without the invoice of 100 (50), the March figure is the one of the
store without the invoice of 50 (300), and the March invoices are listed with the later one,
of 200, first. -/
theorem month_boundary_witness :
    ((apiAnalytics shortMonthName ledgerDb midMarch2024).lastMonthRevenue =
        revenueOver
          ([{ id := 1, invoiceNumber := "001/02/24".toList, date := february2024,
              total := .num 50, CustomerId := .num 7 }] ++
            [{ id := 3, invoiceNumber := "002/03/24".toList,
               date := { year := 2024, month := 2, msInMonth := 5000 },
               total := .num 200, CustomerId := .num 8 }])
          (fun d => d.ge (startOfPreviousMonth midMarch2024) &&
            d.lt (startOfMonth midMarch2024)) ∧
      (apiAnalytics shortMonthName ledgerDb midMarch2024).currentMonthRevenue =
        revenueOver
          ([] ++
            [{ id := 2, invoiceNumber := "001/03/24".toList, date := march2024,
               total := .num 100, CustomerId := .num 7 },
             { id := 3, invoiceNumber := "002/03/24".toList,
               date := { year := 2024, month := 2, msInMonth := 5000 },
               total := .num 200, CustomerId := .num 8 }])
          (fun d => d.ge (startOfMonth midMarch2024))) ∧
      (listedRows ledgerDb.tables.invoices).filter
        (fun x => x.date.ge (startOfMonth midMarch2024)) =
        [{ id := 3, invoiceNumber := "002/03/24".toList,
           date := { year := 2024, month := 2, msInMonth := 5000 },
           total := .num 200, CustomerId := .num 8 },
         { id := 2, invoiceNumber := "001/03/24".toList, date := march2024,
           total := .num 100, CustomerId := .num 7 }] ∧
      (apiAnalytics shortMonthName ledgerDb midMarch2024).currentMonthRevenue =
        F64.ofInt 300 ∧
      (apiAnalytics shortMonthName ledgerDb midMarch2024).lastMonthRevenue = F64.ofInt 50 :=
  ⟨⟨((month_boundary shortMonthName ledgerDb midMarch2024
        [{ id := 1, invoiceNumber := "001/02/24".toList, date := february2024,
           total := .num 50, CustomerId := .num 7 }]
        [{ id := 3, invoiceNumber := "002/03/24".toList,
           date := { year := 2024, month := 2, msInMonth := 5000 },
           total := .num 200, CustomerId := .num 8 }]
        { id := 2, invoiceNumber := "001/03/24".toList, date := march2024,
          total := .num 100, CustomerId := .num 7 }
        (by decide) (by decide) rfl).1 rfl).2,
      ((month_boundary shortMonthName ledgerDb midMarch2024 []
        [{ id := 2, invoiceNumber := "001/03/24".toList, date := march2024,
           total := .num 100, CustomerId := .num 7 },
         { id := 3, invoiceNumber := "002/03/24".toList,
           date := { year := 2024, month := 2, msInMonth := 5000 },
           total := .num 200, CustomerId := .num 8 }]
        { id := 1, invoiceNumber := "001/02/24".toList, date := february2024,
          total := .num 50, CustomerId := .num 7 }
        (by decide) (by decide) rfl).2.1 (by decide)).2⟩,
    by decide, by decide, by decide⟩

theorem reverse_map_range {α : Type} (n : Nat) (f : Nat → α) :
    ((List.range n).map f).reverse = (List.range n).map (fun k => f (n - 1 - k)) := by
  apply List.ext_getElem
  · simp
  · intro i h1 h2
    simp only [List.length_reverse, List.length_map, List.length_range] at h1
    simp [List.getElem_reverse]

theorem apiAnalytics_monthlyRevenue (monthName : Fin 12 → JSString) (db : Db) (now : JSDate)
    (hy : 100 < now.year) :
    (apiAnalytics monthName db now).monthlyRevenue =
      (List.range 12).map (fun (k : Nat) =>
        monthEntry monthName db (monthOfIndex (monthIndex now - 11 + (k : Int)))) := by
  have h : (apiAnalytics monthName db now).monthlyRevenue =
      ((List.range 12).map (fun (i : Nat) =>
        monthEntry monthName db (newDate now.year ((now.month.val : Int) - (i : Int))))).reverse :=
    rfl
  rw [h, reverse_map_range]
  apply List.map_congr_left
  intro k hk
  rw [List.mem_range] at hk
  rw [newDate_eq_monthOfIndex _ _ (by omega)]
  congr 2
  unfold monthIndex
  omega

/-- C17: for every store and every instant `now` (year above 100), in both handlers
`monthlyRevenue` has exactly 12 entries; the entry at position `k` (from 0) is the entry of
the calendar month number `monthIndex now - 11 + k`, so the entries run through 12
consecutive calendar months in ascending order, and the last one is the entry of the month
and year of `now`. -/
theorem monthlyRevenue_months (monthName : Fin 12 → JSString) (db : Db) (now : JSDate)
    (hy : 100 < now.year) :
    (apiAnalytics monthName db now).monthlyRevenue.length = 12 ∧
      (∀ k : Nat, k < 12 →
        (apiAnalytics monthName db now).monthlyRevenue[k]? =
            some (monthEntry monthName db (monthOfIndex (monthIndex now - 11 + (k : Int)))) ∧
          monthIndex (monthOfIndex (monthIndex now - 11 + (k : Int))) =
            monthIndex now - 11 + (k : Int)) ∧
      (apiAnalytics monthName db now).monthlyRevenue.getLast? =
        some (monthEntry monthName db (startOfMonth now)) ∧
      (startOfMonth now).month = now.month ∧ (startOfMonth now).year = now.year ∧
      analyticsGet monthName db now = apiAnalytics monthName db now := by
  have h := apiAnalytics_monthlyRevenue monthName db now hy
  refine ⟨?_, ?_, ?_, rfl, rfl, rfl⟩
  · rw [h]
    simp
  · intro k hk
    refine ⟨?_, monthIndex_monthOfIndex _⟩
    rw [h, List.getElem?_map, List.getElem?_range hk]
    rfl
  · rw [h, startOfMonth_eq]
    have h12 : List.range 12 = List.range 11 ++ [11] := by decide
    rw [h12, List.map_append, List.map_singleton, List.getLast?_concat]
    congr 3
    omega

/-- Witness of C17: at an instant in March 2024 the twelve labels run from April (2023) to
March (2024), and the revenues of the ledger store sit in the last two entries. -/
theorem monthlyRevenue_months_witness :
    (apiAnalytics shortMonthName ledgerDb midMarch2024).monthlyRevenue.map
        (fun e => (String.mk e.month, e.revenue)) =
        [("Apr", F64.ofInt 0), ("May", F64.ofInt 0), ("Jun", F64.ofInt 0),
         ("Jul", F64.ofInt 0), ("Aug", F64.ofInt 0), ("Sep", F64.ofInt 0),
         ("Oct", F64.ofInt 0), ("Nov", F64.ofInt 0), ("Dec", F64.ofInt 0),
         ("Jan", F64.ofInt 0), ("Feb", F64.ofInt 50), ("Mar", F64.ofInt 300)] ∧
      (apiAnalytics shortMonthName ledgerDb midMarch2024).monthlyRevenue.length = 12 :=
  ⟨by decide, (monthlyRevenue_months shortMonthName ledgerDb midMarch2024 (by decide)).1⟩

/-- Counterexample to C18 as stated: at an instant in March 2024, with customers created in
March 2024, February 2024 and April 2024, `newCustomersThisMonth` is 2, while one customer
was created from the start of March up to now. -/
theorem newCustomers_counterexample :
    (apiAnalytics shortMonthName futureDb midMarch2024).newCustomersThisMonth = 2 ∧
      (futureDb.tables.customers.filter (fun c =>
        c.createdAt.ge (startOfMonth midMarch2024) && midMarch2024.ge c.createdAt)).length =
        1 := by
  decide

/-- C18 (amended): for every store and every instant `now` (year above 100), in both
handlers `totalCustomers` is the number of Customer rows and `newCustomersThisMonth` is the
number of Customer rows whose creation timestamp is on or after the first instant of the
current month, customers dated after `now` included; when no customer is dated after `now`
this is the number of those created from the start of the month up to `now`. -/
theorem customer_counts (monthName : Fin 12 → JSString) (db : Db) (now : JSDate)
    (hy : 100 < now.year) :
    (apiAnalytics monthName db now).totalCustomers = db.tables.customers.length ∧
      (apiAnalytics monthName db now).newCustomersThisMonth =
        (db.tables.customers.filter (fun c => c.createdAt.ge (startOfMonth now))).length ∧
      ((∀ c ∈ db.tables.customers, now.ge c.createdAt = true) →
        (apiAnalytics monthName db now).newCustomersThisMonth =
          (db.tables.customers.filter (fun c =>
            c.createdAt.ge (startOfMonth now) && now.ge c.createdAt)).length) ∧
      analyticsGet monthName db now = apiAnalytics monthName db now := by
  have hperm := List.perm_insertionSort (fun (a b : CustomerRow) => sqlLe a.name b.name = true)
    db.tables.customers
  have h1 : (apiAnalytics monthName db now).totalCustomers = db.tables.customers.length :=
    hperm.length_eq
  have h2 : (apiAnalytics monthName db now).newCustomersThisMonth =
      (db.tables.customers.filter (fun c => c.createdAt.ge (startOfMonth now))).length := by
    rw [← newDate_current now hy]
    exact (hperm.filter _).length_eq
  refine ⟨h1, h2, ?_, rfl⟩
  intro hpast
  rw [h2]
  congr 1
  apply List.filter_congr
  intro c hc
  rw [hpast c hc, Bool.and_true]

/-- Witness of C18 (amended): with two customers of which one was created in the current month
the report has `totalCustomers` 2 and `newCustomersThisMonth` 1. -/
theorem customer_counts_witness :
    (apiAnalytics shortMonthName shopDb midMarch2024).totalCustomers = 2 ∧
      (apiAnalytics shortMonthName shopDb midMarch2024).newCustomersThisMonth = 1 :=
  ⟨(customer_counts shortMonthName shopDb midMarch2024 (by decide)).1,
    (customer_counts shortMonthName shopDb midMarch2024 (by decide)).2.1⟩

/-- C19 (the code at the failing input): for every store and instant the report of the
`/analytics` route of `routes/invoices.js` has five properties and lacks `totalCustomers`,
`newCustomersThisMonth` and `totalProducts`, while the reports of `analytics:get` and of
`GET /api/analytics` have all eight. -/
theorem router_report_shape (monthName : Fin 12 → JSString) (db : Db) (now : JSDate) :
    (routerAnalytics monthName db now).keys =
        ["currentMonthRevenue", "lastMonthRevenue", "currentYearRevenue", "lastYearRevenue",
         "monthlyRevenue"] ∧
      "totalCustomers" ∉ (routerAnalytics monthName db now).keys ∧
      "newCustomersThisMonth" ∉ (routerAnalytics monthName db now).keys ∧
      "totalProducts" ∉ (routerAnalytics monthName db now).keys ∧
      (analyticsGet monthName db now).keys =
        ["currentMonthRevenue", "lastMonthRevenue", "currentYearRevenue", "lastYearRevenue",
         "totalCustomers", "newCustomersThisMonth", "totalProducts", "monthlyRevenue"] ∧
      (apiAnalytics monthName db now).keys = (analyticsGet monthName db now).keys := by
  refine ⟨rfl, ?_, ?_, ?_, rfl, rfl⟩ <;> simp [RouterAnalyticsReport.keys]

/-- C20: called with no transaction open and the customer id absent (`undefined`, or
`null`), `Invoice.create` throws and leaves the tables as they were. -/
theorem create_without_customer (db : Db) (date : JSDate) (data : InvoiceData)
    (htxn : db.txn = none) (hc : ¬ Storable data.customerId) :
    ∃ e, Invoice.create db date data = (.error e, (Invoice.create db date data).2) ∧
      (Invoice.create db date data).2.tables = db.tables ∧
      (Invoice.create db date data).2.txn = none := by
  cases hres : Invoice.create db date data with
  | mk r db1 =>
    cases r with
    | ok res =>
      obtain ⟨items, rows, hok⟩ := create_ok hres
      exact absurd hok.customer_storable hc
    | error e =>
      obtain ⟨h1, h2⟩ := create_error htxn hres
      exact ⟨e, rfl, h1, h2⟩

/-- Witness of C20: a request without `customerId` on the shop store fails at the bind of the
header insert and stores nothing. -/
theorem create_without_customer_witness :
    (Invoice.create shopDb march2024 requestNoCustomer).1 = .error .bindUnknownType ∧
      ∃ e, Invoice.create shopDb march2024 requestNoCustomer =
          (.error e, (Invoice.create shopDb march2024 requestNoCustomer).2) ∧
        (Invoice.create shopDb march2024 requestNoCustomer).2.tables = shopDb.tables ∧
        (Invoice.create shopDb march2024 requestNoCustomer).2.txn = none :=
  ⟨rfl, create_without_customer shopDb march2024 requestNoCustomer rfl (by decide)⟩

/-! ## Products and customers -/

theorem insertProduct_ok {db db1 : Db} {name rate : JSVal}
    (h : db.insertProduct name rate = .ok db1) :
    db1 = db.appendProduct name rate ∧ Storable name ∧ Storable rate ∧
      ∀ r ∈ db.tables.products, r.name ≠ name := by
  unfold Db.insertProduct bindParams checkNotNull at h
  by_cases h1 : ([name, rate].any (fun v => v = JSVal.undefined)) = true
  · simp [h1] at h
  · by_cases h2 : ([name, rate].any bindsNull) = true
    · simp [h1, h2] at h
    · by_cases h3 : (db.tables.products.any (fun r => r.name = name)) = true
      · simp [h1, h2, h3] at h
      · simp only [h1, h2, h3] at h
        simp only [Bool.false_eq_true, if_false, Except.ok.injEq] at h
        simp only [List.any_cons, List.any_nil, Bool.or_false, Bool.or_eq_true,
          decide_eq_true_eq, not_or] at h1 h2
        simp only [List.any_eq_true, decide_eq_true_eq, not_exists, not_and] at h3
        exact ⟨h.symm, storable_of_binds h1.1 h2.1, storable_of_binds h1.2 h2.2, h3⟩

theorem insertProduct_unique (db : Db) {name rate : JSVal} (hn : Storable name)
    (hr : Storable rate) (hdup : ∃ r ∈ db.tables.products, r.name = name) :
    db.insertProduct name rate = .error .uniqueConstraint := by
  have h3 : (db.tables.products.any (fun r => r.name = name)) = true := by
    rw [List.any_eq_true]
    obtain ⟨r, hr1, hr2⟩ := hdup
    exact ⟨r, hr1, by simpa using hr2⟩
  simp [Db.insertProduct, bindParams, checkNotNull, hn.1, hn.bindsNull, hr.1, hr.bindsNull,
    h3]

theorem insertCustomer_ok {db db1 : Db} {stamp : JSDate} {name mobile address : JSVal}
    (h : db.insertCustomer stamp name mobile address = .ok db1) :
    db1 = db.appendCustomer stamp name mobile address ∧ Storable name ∧ Storable mobile ∧
      Storable address ∧ ∀ r ∈ db.tables.customers, r.mobile ≠ mobile := by
  unfold Db.insertCustomer bindParams checkNotNull at h
  by_cases h1 : ([name, mobile, address].any (fun v => v = JSVal.undefined)) = true
  · simp [h1] at h
  · by_cases h2 : ([name, mobile, address].any bindsNull) = true
    · simp [h1, h2] at h
    · by_cases h3 : (db.tables.customers.any (fun r => r.mobile = mobile)) = true
      · simp [h1, h2, h3] at h
      · simp only [h1, h2, h3] at h
        simp only [Bool.false_eq_true, if_false, Except.ok.injEq] at h
        simp only [List.any_cons, List.any_nil, Bool.or_false, Bool.or_eq_true,
          decide_eq_true_eq, not_or] at h1 h2
        simp only [List.any_eq_true, decide_eq_true_eq, not_exists, not_and] at h3
        exact ⟨h.symm, storable_of_binds h1.1 h2.1, storable_of_binds h1.2.1 h2.2.1,
          storable_of_binds h1.2.2 h2.2.2, h3⟩

theorem insertCustomer_unique (db : Db) (stamp : JSDate) {name mobile address : JSVal}
    (hn : Storable name) (hm : Storable mobile) (ha : Storable address)
    (hdup : ∃ r ∈ db.tables.customers, r.mobile = mobile) :
    db.insertCustomer stamp name mobile address = .error .uniqueConstraint := by
  have h3 : (db.tables.customers.any (fun r => r.mobile = mobile)) = true := by
    rw [List.any_eq_true]
    obtain ⟨r, hr1, hr2⟩ := hdup
    exact ⟨r, hr1, by simpa using hr2⟩
  simp [Db.insertCustomer, bindParams, checkNotNull, hn.1, hn.bindsNull, hm.1, hm.bindsNull,
    ha.1, ha.bindsNull, h3]

/-- `Product.create` either throws and leaves the connection as it was, or returns and
appended one row. -/
theorem productCreate_cases (db : Db) (data : ProductData) :
    (∃ e, Product.create db data = (.error e, db)) ∨
      (∃ rec, Product.create db data = (.ok rec, db.appendProduct data.name data.rate) ∧
        ∀ r ∈ db.tables.products, r.name ≠ data.name) := by
  unfold Product.create
  cases h : db.insertProduct data.name data.rate with
  | error e => exact Or.inl ⟨e, rfl⟩
  | ok db1 =>
    obtain ⟨h1, -, -, h4⟩ := insertProduct_ok h
    subst h1
    exact Or.inr ⟨_, rfl, h4⟩

/-- `Customer.create` either throws and leaves the connection as it was, or returns and
appended one row. -/
theorem customerCreate_cases (db : Db) (stamp : JSDate) (data : CustomerData) :
    (∃ e, Customer.create db stamp data = (.error e, db)) ∨
      (∃ rec, Customer.create db stamp data =
          (.ok rec, db.appendCustomer stamp data.name data.mobile data.address) ∧
        ∀ r ∈ db.tables.customers, r.mobile ≠ data.mobile) := by
  unfold Customer.create
  cases h : db.insertCustomer stamp data.name data.mobile data.address with
  | error e => exact Or.inl ⟨e, rfl⟩
  | ok db1 =>
    obtain ⟨h1, -, -, -, h4⟩ := insertCustomer_ok h
    subst h1
    exact Or.inr ⟨_, rfl, h4⟩

/-- C21: on every store, `Product.create` with a name that a stored product already has, and
`Customer.create` with a mobile that a stored customer already has, throw and leave the
connection, hence every table, exactly as it was; when the submitted fields bind and are not
null the exception is the `UNIQUE` constraint failure. -/
theorem create_duplicate_rejected (db : Db) :
    (∀ data : ProductData, (∃ r ∈ db.tables.products, r.name = data.name) →
      ∃ e, Product.create db data = (.error e, db) ∧
        (Storable data.name → Storable data.rate → e = .uniqueConstraint)) ∧
      (∀ (stamp : JSDate) (data : CustomerData),
        (∃ r ∈ db.tables.customers, r.mobile = data.mobile) →
        ∃ e, Customer.create db stamp data = (.error e, db) ∧
          (Storable data.name → Storable data.mobile → Storable data.address →
            e = .uniqueConstraint)) := by
  constructor
  · intro data hdup
    rcases productCreate_cases db data with ⟨e, he⟩ | ⟨rec, -, hfresh⟩
    · refine ⟨e, he, fun hn hr => ?_⟩
      have h := insertProduct_unique db hn hr hdup
      unfold Product.create at he
      rw [h] at he
      simp only [Prod.mk.injEq, Except.error.injEq] at he
      exact he.1.symm
    · obtain ⟨r, hr1, hr2⟩ := hdup
      exact absurd hr2 (hfresh r hr1)
  · intro stamp data hdup
    rcases customerCreate_cases db stamp data with ⟨e, he⟩ | ⟨rec, -, hfresh⟩
    · refine ⟨e, he, fun hn hm ha => ?_⟩
      have h := insertCustomer_unique db stamp hn hm ha hdup
      unfold Customer.create at he
      rw [h] at he
      simp only [Prod.mk.injEq, Except.error.injEq] at he
      exact he.1.symm
    · obtain ⟨r, hr1, hr2⟩ := hdup
      exact absurd hr2 (hfresh r hr1)

/-- Witness of C21: the shop store holds the product `Pen` and a customer with mobile `900`;
creating another product `Pen` and another customer with mobile `900` throws the `UNIQUE`
failure and leaves the store as it was. -/
theorem create_duplicate_rejected_witness :
    Product.create shopDb duplicateProduct = (.error .uniqueConstraint, shopDb) ∧
      Customer.create shopDb april2024 duplicateCustomer = (.error .uniqueConstraint, shopDb) ∧
      (∃ e, Product.create shopDb duplicateProduct = (.error e, shopDb) ∧
        (Storable duplicateProduct.name → Storable duplicateProduct.rate →
          e = .uniqueConstraint)) ∧
      ∃ e, Customer.create shopDb april2024 duplicateCustomer = (.error e, shopDb) ∧
        (Storable duplicateCustomer.name → Storable duplicateCustomer.mobile →
          Storable duplicateCustomer.address → e = .uniqueConstraint) :=
  ⟨rfl, rfl, (create_duplicate_rejected shopDb).1 duplicateProduct (by decide),
    (create_duplicate_rejected shopDb).2 april2024 duplicateCustomer (by decide)⟩

theorem productUpdate_flag (db : Db) (id : JSNum) (data : ProductData) :
    (∃ db1, Product.update db id data = (.ok true, db1)) ∨
      ∃ e, Product.update db id data = (.error e, db) := by
  unfold Product.update
  cases h : db.updateProduct id data.name data.rate with
  | error e => exact Or.inr ⟨e, rfl⟩
  | ok db1 => exact Or.inl ⟨db1, rfl⟩

theorem customerUpdate_flag (db : Db) (id : JSNum) (data : CustomerData) :
    (∃ db1, Customer.update db id data = (.ok true, db1)) ∨
      ∃ e, Customer.update db id data = (.error e, db) := by
  unfold Customer.update
  cases h : db.updateCustomer id data.name data.mobile data.address with
  | error e => exact Or.inr ⟨e, rfl⟩
  | ok db1 => exact Or.inl ⟨db1, rfl⟩

/-- An `UPDATE` whose parameters bind and whose `WHERE` selects no row succeeds and changes
nothing. -/
theorem updateProduct_absent (db : Db) (id : JSNum) {name rate : JSVal}
    (hn : name ≠ .undefined) (hr : rate ≠ .undefined)
    (habsent : ∀ r ∈ db.tables.products, id.selects r.id = false) :
    db.updateProduct id name rate = .ok db := by
  have h1 : (db.tables.products.any (fun r => id.selects r.id)) = false := by
    rw [List.any_eq_false]
    intro r hr1
    simp [habsent r hr1]
  simp [Db.updateProduct, bindParams, hn, hr, h1]

theorem updateCustomer_absent (db : Db) (id : JSNum) {name mobile address : JSVal}
    (hn : name ≠ .undefined) (hm : mobile ≠ .undefined) (ha : address ≠ .undefined)
    (habsent : ∀ r ∈ db.tables.customers, id.selects r.id = false) :
    db.updateCustomer id name mobile address = .ok db := by
  have h1 : (db.tables.customers.any (fun r => id.selects r.id)) = false := by
    rw [List.any_eq_false]
    intro r hr1
    simp [habsent r hr1]
  simp [Db.updateCustomer, bindParams, hn, hm, ha, h1]

theorem putProduct_status (db : Db) (idParam : JSString) (body : ProductData) :
    (putProduct db idParam body).1.status = 200 ∨
      (putProduct db idParam body).1.status = 500 := by
  unfold putProduct
  rcases productUpdate_flag db (parseInt idParam) body with ⟨db1, h⟩ | ⟨e, h⟩
  · rw [h]
    exact Or.inl rfl
  · rw [h]
    exact Or.inr rfl

theorem putCustomer_status (db : Db) (idParam : JSString) (body : CustomerData) :
    (putCustomer db idParam body).1.status = 200 ∨
      (putCustomer db idParam body).1.status = 500 := by
  unfold putCustomer
  rcases customerUpdate_flag db (parseInt idParam) body with ⟨db1, h⟩ | ⟨e, h⟩
  · rw [h]
    exact Or.inl rfl
  · rw [h]
    exact Or.inr rfl

theorem filter_not_selects {α : Type} (key : α → Nat) (id : JSNum) (l : List α)
    (habsent : ∀ r ∈ l, id.selects (key r) = false) :
    l.filter (fun r => !id.selects (key r)) = l := by
  rw [List.filter_eq_self]
  intro r hr
  simp [habsent r hr]

theorem filter_selects_nil {α : Type} (key : α → Nat) (id : JSNum) (l : List α)
    (habsent : ∀ r ∈ l, id.selects (key r) = false) :
    l.filter (fun r => id.selects (key r)) = [] := by
  rw [List.filter_eq_nil_iff]
  intro r hr
  simp [habsent r hr]

/-- C22 (the code at the failing input): for every store and every `:id` parameter, the `PUT`
handlers of products and of customers never answer 404; when no row has the id and the body
binds they answer 200 with the body `null` and leave the store as it was; and the `DELETE`
handlers answer 200 with `success: true` whether or not a row has the id, leaving the store as
it was when none has. -/
theorem not_found_unreported (db : Db) (idParam : JSString) :
    (∀ body : ProductData, (putProduct db idParam body).1.status ≠ 404) ∧
      (∀ body : CustomerData, (putCustomer db idParam body).1.status ≠ 404) ∧
      (∀ body : ProductData, body.name ≠ .undefined → body.rate ≠ .undefined →
        (∀ r ∈ db.tables.products, (parseInt idParam).selects r.id = false) →
        putProduct db idParam body = (.json none, db)) ∧
      (∀ body : CustomerData, body.name ≠ .undefined → body.mobile ≠ .undefined →
        body.address ≠ .undefined →
        (∀ r ∈ db.tables.customers, (parseInt idParam).selects r.id = false) →
        putCustomer db idParam body = (.json none, db)) ∧
      (deleteProduct db idParam).1 = .json true ∧
      (deleteCustomer db idParam).1 = .json true ∧
      ((∀ r ∈ db.tables.products, (parseInt idParam).selects r.id = false) →
        (deleteProduct db idParam).2 = db) ∧
      ((∀ r ∈ db.tables.customers, (parseInt idParam).selects r.id = false) →
        (deleteCustomer db idParam).2 = db) := by
  refine ⟨?_, ?_, ?_, ?_, rfl, rfl, ?_, ?_⟩
  · intro body
    rcases putProduct_status db idParam body with h | h <;> rw [h] <;> decide
  · intro body
    rcases putCustomer_status db idParam body with h | h <;> rw [h] <;> decide
  · intro body hn hr habsent
    unfold putProduct Product.update
    rw [updateProduct_absent db _ hn hr habsent]
    simp only [if_true, Product.findOne]
    rw [filter_selects_nil (fun r : ProductRow => r.id) _ _ habsent]
    rfl
  · intro body hn hm ha habsent
    unfold putCustomer Customer.update
    rw [updateCustomer_absent db _ hn hm ha habsent]
    simp only [if_true, Customer.findOne]
    rw [filter_selects_nil (fun r : CustomerRow => r.id) _ _ habsent]
    rfl
  · intro habsent
    simp only [deleteProduct, Product.destroy]
    rw [filter_not_selects (fun r : ProductRow => r.id) _ _ habsent]
  · intro habsent
    simp only [deleteCustomer, Customer.destroy]
    rw [filter_not_selects (fun r : CustomerRow => r.id) _ _ habsent]

/-- Witness of C22: on the shop store, which has no product 5 and no customer 5, `PUT` with
the id 5 answers 200 with `null` and `DELETE` answers `success: true`, the store staying as it
was; for the product 3, which exists, `PUT` answers 200 with the rewritten product and
`DELETE` again `success: true`. -/
theorem not_found_unreported_witness :
    putProduct shopDb "5".toList inkProduct = (.json none, shopDb) ∧
      putCustomer shopDb "5".toList duplicateCustomer = (.json none, shopDb) ∧
      deleteProduct shopDb "5".toList = (.json true, shopDb) ∧
      deleteCustomer shopDb "5".toList = (.json true, shopDb) ∧
      (putProduct shopDb "3".toList inkProduct).1 =
        .json (some { id := 3, name := .str "Ink".toList, rate := .num 10 }) ∧
      (deleteProduct shopDb "3".toList).1 = .json true ∧
      (deleteProduct shopDb "3".toList).2.tables.products = [] :=
  ⟨(not_found_unreported shopDb "5".toList).2.2.1 inkProduct (by decide) (by decide)
      (by decide),
    (not_found_unreported shopDb "5".toList).2.2.2.1 duplicateCustomer (by decide) (by decide)
      (by decide) (by decide),
    Prod.ext (not_found_unreported shopDb "5".toList).2.2.2.2.1
      ((not_found_unreported shopDb "5".toList).2.2.2.2.2.2.1 (by decide)),
    Prod.ext (not_found_unreported shopDb "5".toList).2.2.2.2.2.1
      ((not_found_unreported shopDb "5".toList).2.2.2.2.2.2.2 (by decide)),
    by decide, by decide, by decide⟩

/-! ## The invoice tables under the operations of the store -/

theorem updateProduct_frame {db db1 : Db} {id : JSNum} {name rate : JSVal}
    (h : db.updateProduct id name rate = .ok db1) :
    db1.tables.invoices = db.tables.invoices ∧
      db1.tables.invoiceItems = db.tables.invoiceItems ∧ db1.txn = db.txn := by
  unfold Db.updateProduct at h
  repeat' (split at h)
  all_goals first
    | (simp only [Except.ok.injEq] at h
       subst h
       exact ⟨rfl, rfl, rfl⟩)
    | simp at h

theorem updateCustomer_frame {db db1 : Db} {id : JSNum} {name mobile address : JSVal}
    (h : db.updateCustomer id name mobile address = .ok db1) :
    db1.tables.invoices = db.tables.invoices ∧
      db1.tables.invoiceItems = db.tables.invoiceItems ∧ db1.txn = db.txn := by
  unfold Db.updateCustomer at h
  repeat' (split at h)
  all_goals first
    | (simp only [Except.ok.injEq] at h
       subst h
       exact ⟨rfl, rfl, rfl⟩)
    | simp at h

/-- The operations on products and on customers, and `Invoice.findAll`, leave the two invoice
tables and the transaction state as they were. -/
theorem StoreOp.run_other (db : Db) (op : StoreOp)
    (hop : ∀ date data, op ≠ .invoiceCreate date data) :
    (op.run db).tables.invoices = db.tables.invoices ∧
      (op.run db).tables.invoiceItems = db.tables.invoiceItems ∧ (op.run db).txn = db.txn := by
  cases op with
  | productCreate data =>
    rcases productCreate_cases db data with ⟨e, he⟩ | ⟨rec, he, -⟩ <;>
      simp [StoreOp.run, he, Db.appendProduct]
  | productUpdate id data =>
    simp only [StoreOp.run, Product.update]
    cases h : db.updateProduct id data.name data.rate with
    | error e => exact ⟨rfl, rfl, rfl⟩
    | ok db1 => exact updateProduct_frame h
  | productDestroy id => exact ⟨rfl, rfl, rfl⟩
  | customerCreate stamp data =>
    rcases customerCreate_cases db stamp data with ⟨e, he⟩ | ⟨rec, he, -⟩ <;>
      simp [StoreOp.run, he, Db.appendCustomer]
  | customerUpdate id data =>
    simp only [StoreOp.run, Customer.update]
    cases h : db.updateCustomer id data.name data.mobile data.address with
    | error e => exact ⟨rfl, rfl, rfl⟩
    | ok db1 => exact updateCustomer_frame h
  | customerDestroy id => exact ⟨rfl, rfl, rfl⟩
  | invoiceCreate date data => exact absurd rfl (hop date data)
  | invoiceFindAll => exact ⟨rfl, rfl, rfl⟩

/-- Every operation, started with no transaction open, keeps the rows of the two invoice
tables in place and ends with no transaction open. -/
theorem StoreOp.run_frame (db : Db) (htxn : db.txn = none) (op : StoreOp) :
    db.tables.invoices <+: (op.run db).tables.invoices ∧
      db.tables.invoiceItems <+: (op.run db).tables.invoiceItems ∧ (op.run db).txn = none := by
  by_cases hop : ∀ date data, op ≠ .invoiceCreate date data
  · obtain ⟨h1, h2, h3⟩ := StoreOp.run_other db op hop
    rw [h1, h2, h3]
    exact ⟨List.prefix_refl _, List.prefix_refl _, htxn⟩
  · push_neg at hop
    obtain ⟨date, data, rfl⟩ := hop
    simp only [StoreOp.run]
    cases hres : Invoice.create db date data with
    | mk r db1 =>
      cases r with
      | ok res =>
        obtain ⟨items, rows, hok⟩ := create_ok hres
        exact ⟨⟨_, hok.invoices.symm⟩, ⟨_, hok.invoiceItems.symm⟩, hok.txn_after⟩
      | error e =>
        obtain ⟨h1, h2⟩ := create_error htxn hres
        simp only [h1, h2]
        exact ⟨List.prefix_refl _, List.prefix_refl _, trivial⟩

theorem prefix_getElem? {α : Type} {l1 l2 : List α} (h : l1 <+: l2) {i : Nat} {x : α}
    (hx : l1[i]? = some x) : l2[i]? = some x := by
  obtain ⟨t, rfl⟩ := h
  have hi : i < l1.length := by
    by_contra hc
    rw [List.getElem?_eq_none (by omega)] at hx
    exact absurd hx (by simp)
  rw [List.getElem?_append_left hi]
  exact hx

theorem runOps_frame : ∀ (ops : List StoreOp) (db : Db), db.txn = none →
    db.tables.invoices <+: (runOps db ops).tables.invoices ∧
      db.tables.invoiceItems <+: (runOps db ops).tables.invoiceItems ∧
      (runOps db ops).txn = none
  | [], db, htxn => ⟨List.prefix_refl _, List.prefix_refl _, htxn⟩
  | op :: rest, db, htxn => by
    obtain ⟨h1, h2, h3⟩ := StoreOp.run_frame db htxn op
    obtain ⟨k1, k2, k3⟩ := runOps_frame rest (op.run db) h3
    exact ⟨h1.trans k1, h2.trans k2, k3⟩

/-- C23: started on a store with no transaction open, after every sequence of calls of
`Product.create/update/destroy`, `Customer.create/update/destroy`, `Invoice.create` and
`Invoice.findAll`, failed calls included, the `Invoices` table begins with the rows it had, in
their order and with every column as it was, and so does the `InvoiceItems` table; no
transaction is open afterwards, so the same holds for whatever is called next. Every call
other than `Invoice.create` leaves the two tables exactly as they were. -/
theorem invoices_never_modified (db : Db) (htxn : db.txn = none) (ops : List StoreOp) :
    db.tables.invoices <+: (runOps db ops).tables.invoices ∧
      db.tables.invoiceItems <+: (runOps db ops).tables.invoiceItems ∧
      (runOps db ops).txn = none ∧
      (∀ (i : Nat) (r : InvoiceRow), db.tables.invoices[i]? = some r →
        (runOps db ops).tables.invoices[i]? = some r) ∧
      (∀ (i : Nat) (row : InvoiceItemRow), db.tables.invoiceItems[i]? = some row →
        (runOps db ops).tables.invoiceItems[i]? = some row) ∧
      ∀ op : StoreOp, (∀ date data, op ≠ .invoiceCreate date data) →
        (op.run db).tables.invoices = db.tables.invoices ∧
          (op.run db).tables.invoiceItems = db.tables.invoiceItems := by
  obtain ⟨h1, h2, h3⟩ := runOps_frame ops db htxn
  refine ⟨h1, h2, h3, ?_, ?_, ?_⟩
  · intro i r hr
    exact prefix_getElem? h1 hr
  · intro i row hrow
    exact prefix_getElem? h2 hrow
  · intro op hop
    exact ⟨(StoreOp.run_other db op hop).1, (StoreOp.run_other db op hop).2.1⟩

/-- Witness of C23: on the ledger store, deleting product 3 and customer 7, renaming customer
8, a failed and a successful `Invoice.create`, a product creation and a listing leave the three
stored invoices in place; the only change of the `Invoices` table is the row appended by the
successful creation. -/
theorem invoices_never_modified_witness :
    (runOps ledgerDb sampleOps).tables.invoices =
        ledgerDb.tables.invoices ++
          [{ id := 4, invoiceNumber := "001/04/24".toList, date := april2024,
             total := .num 100, CustomerId := .num 7 }] ∧
      (runOps ledgerDb sampleOps).tables.products =
        [{ id := 4, name := .str "Ink".toList, rate := .num 10 }] ∧
      ledgerDb.tables.invoices <+: (runOps ledgerDb sampleOps).tables.invoices ∧
      ledgerDb.tables.invoiceItems <+: (runOps ledgerDb sampleOps).tables.invoiceItems ∧
      (runOps ledgerDb sampleOps).txn = none :=
  ⟨by decide, by decide, (invoices_never_modified ledgerDb rfl sampleOps).1,
    (invoices_never_modified ledgerDb rfl sampleOps).2.1,
    (invoices_never_modified ledgerDb rfl sampleOps).2.2.1⟩

/-! ## Sequence numbers of four and more digits -/

theorem natToString_length_ge_four {n : Nat} (h : 1000 ≤ n) : 4 ≤ (natToString n).length := by
  have h1 : 0 < (natToString (n / 10 / 10 / 10)).length :=
    List.length_pos.2 (natToString_ne_nil _)
  rw [natToString_ge_ten (by omega : 10 ≤ n), natToString_ge_ten (by omega : 10 ≤ n / 10),
    natToString_ge_ten (by omega : 10 ≤ n / 10 / 10)]
  simp only [List.length_append, List.length_singleton]
  omega

theorem padStart_of_length_le (k : Nat) (fill : Char) (s : JSString) (h : k ≤ s.length) :
    padStart k fill s = s := by
  simp [padStart, Nat.sub_eq_zero_of_le h]

/-- C24: if the invoice with the highest `id` among those of the scope of `date` has a
sequence number `n` of 999 or more, the next sequence number is `n + 1` and the generated
number is the plain decimal rendering of `n + 1`, of four or more digits and without padding,
followed by `/MM/YY`; it reads back as `n + 1`; on a store that satisfies the invariant of the
stores built by `Invoice.create`, a request whose fields can be stored succeeds and returns
that number. `padStart` only prepends: the padded text ends with the text it was given and is
that text when it already has the target length. -/
theorem sequence_rollover (t : Tables) (date : JSDate) (r : InvoiceRow) (n : Nat)
    (hr : r ∈ t.invoices) (hs : scopeSuffix date <:+ r.invoiceNumber)
    (hmax : ∀ x ∈ t.invoices, scopeSuffix date <:+ x.invoiceNumber → x = r ∨ x.id < r.id)
    (hserial : serialOf r.invoiceNumber = .int (n : Int)) (hn : 999 ≤ n) :
    nextNumber t date = .int ((n + 1 : Nat) : Int) ∧
      invoiceNumber t date = natToString (n + 1) ++ scopeSuffix date ∧
      4 ≤ (natToString (n + 1)).length ∧
      serialOf (invoiceNumber t date) = .int ((n + 1 : Nat) : Int) ∧
      (∀ (db : Db) (data : InvoiceData) (items : List Item), db.tables = t → db.txn = none →
        StoreInv t → Storable data.total → Storable data.customerId →
        data.items = some items → (∀ it ∈ items, it.Insertable) →
        ∃ res db1, Invoice.create db date data = (.ok res, db1) ∧
          res.invoice.invoiceNumber = natToString (n + 1) ++ scopeSuffix date) ∧
      (∀ (k : Nat) (s : JSString), s <:+ padStart k '0' s ∧
        (k ≤ s.length → padStart k '0' s = s)) := by
  have hnext : nextNumber t date = .int ((n + 1 : Nat) : Int) := by
    rw [nextNumber_of_latest t date r hr hs hmax]
    unfold serialOf at hserial
    rw [hserial]
    simp [JSNum.succ]
  have hlen := natToString_length_ge_four (by omega : 1000 ≤ n + 1)
  have hnum : invoiceNumber t date = natToString (n + 1) ++ scopeSuffix date := by
    rw [invoiceNumber, hnext, formatInvoiceNumber, JSNum.toJSString, intToString_natCast,
      padStart_of_length_le 3 '0' _ (by omega)]
  refine ⟨hnext, hnum, hlen, ?_, ?_, ?_⟩
  · rw [invoiceNumber, hnext, serialOf_format]
  · intro db data items ht htxn hinv htot hc hitems hall
    subst ht
    obtain ⟨res, db1, hres⟩ :=
      create_eq_ok htxn htot hc (hinv.fresh date) hitems hall
    obtain ⟨items1, rows, hok⟩ := create_ok hres
    refine ⟨res, db1, hres, ?_⟩
    rw [hok.result, hnum]
  · intro k s
    exact ⟨⟨List.replicate (k - s.length) '0', rfl⟩, padStart_of_length_le k '0' s⟩

/-- Witness of C24: after `999/03/24` the invoice created in March 2024 is numbered
`1000/03/24`. -/
theorem sequence_rollover_witness :
    invoiceNumber rolloverDb.tables march2024 = "1000/03/24".toList ∧
      (∃ res db1, Invoice.create rolloverDb march2024 requestWithId = (.ok res, db1) ∧
        res.invoice.invoiceNumber = natToString (999 + 1) ++ scopeSuffix march2024) ∧
      ((Invoice.create rolloverDb march2024 requestWithId).2.tables.invoices.map
        (fun x => x.invoiceNumber)) = ["999/03/24".toList, "1000/03/24".toList] :=
  ⟨(sequence_rollover rolloverDb.tables march2024 rolloverRow 999 (by decide) (by decide)
      (by decide) (by decide) (by decide)).2.1,
    (sequence_rollover rolloverDb.tables march2024 rolloverRow 999 (by decide) (by decide)
      (by decide) (by decide) (by decide)).2.2.2.2.1 rolloverDb requestWithId [itemWithId] rfl
      rfl
      ⟨fun x hx => ⟨999, by decide, by
          rw [List.mem_singleton.1 hx]
          decide⟩,
        List.pairwise_singleton _ _⟩
      (by decide) (by decide) rfl (by decide),
    by decide⟩

/-- C30: for every sequence number `n` and whatever follows the first `/`, `parseInt` of the
segment before the first `/` of `n` padded with zeros to three digits and joined with `/` and
the rest is `n`; in particular the sequence number of the number formatted from `n` and a
date is `n`, for `n` below 1000 and for `n` of 1000 and more alike. -/
theorem serial_round_trip (n : Nat) :
    (∀ rest : JSString,
      parseInt (splitHead '/' (padStart 3 '0' (natToString n) ++ '/' :: rest)) = .int n) ∧
      (∀ date : JSDate, serialOf (formatInvoiceNumber (.int n) date) = .int n) ∧
      (∀ date : JSDate, formatInvoiceNumber (.int n) date =
        padStart 3 '0' (natToString n) ++ '/' :: (month date ++ '/' :: year date)) ∧
      (1000 ≤ n → padStart 3 '0' (natToString n) = natToString n) := by
  have hd := padStart_zero_digits 3 _ (natToString_digits n)
  have hs : ∀ c ∈ padStart 3 '0' (natToString n), c ≠ '/' :=
    fun c hc => ne_of_isDecDigit (hd c hc) (by decide)
  refine ⟨?_, fun date => serialOf_format n date, ?_, ?_⟩
  · intro rest
    rw [splitHead_append_sep '/' _ _ hs, parseInt_padStart_natToString]
  · intro date
    simp only [formatInvoiceNumber, JSNum.toJSString, intToString_natCast, scopeSuffix,
      List.cons_append]
  · intro h
    exact padStart_of_length_le 3 '0' _ (by have := natToString_length_ge_four h; omega)

/-- Witness of C30: `1234/03/24` reads back as 1234 and `007/03/24` as 7. -/
theorem serial_round_trip_witness :
    padStart 3 '0' (natToString 1234) = natToString 1234 ∧
      serialOf "1234/03/24".toList = .int 1234 ∧ serialOf "007/03/24".toList = .int 7 ∧
      formatInvoiceNumber (.int 7) march2024 = "007/03/24".toList :=
  ⟨(serial_round_trip 1234).2.2.2 (by decide), (serial_round_trip 1234).2.1 march2024,
    (serial_round_trip 7).2.1 march2024, by decide⟩

/-! ## The monthly buckets of the analytics report -/

/-- A date lies in the calendar month that starts at `monthOfIndex idx` exactly when its
month number is `idx`. -/
theorem bucket_monthOfIndex (d : JSDate) (idx : Int) :
    (decide (d.month = (monthOfIndex idx).month) && decide (d.year = (monthOfIndex idx).year)) =
      decide (monthIndex d = idx) := by
  have hm := d.month.isLt
  rw [Bool.eq_iff_iff]
  simp only [Bool.and_eq_true, decide_eq_true_eq, monthOfIndex, monthIndex, Fin.ext_iff]
  constructor
  · rintro ⟨h1, h2⟩
    omega
  · intro h
    constructor <;> omega

/-- `new Date(year, month, 1)` is the first instant of the calendar month whose number is
twelve times the year the constructor reads plus `month`. -/
theorem newDate_eq_monthOfIndex_shift (year month : Int) :
    newDate year month =
      monthOfIndex ((if 0 ≤ year ∧ year ≤ 99 then 1900 + year else year) * 12 + month) := by
  unfold newDate
  generalize (if 0 ≤ year ∧ year ≤ 99 then 1900 + year else year) = Y
  have h1 : (Y * 12 + month) / 12 = Y + month / 12 := by omega
  have h2 : (Y * 12 + month) % 12 = month % 12 := by omega
  simp only [monthOfIndex, h1, h2]

/-- The bucket of the month before `new Date(year, month, 1)` and the window from the start
of that month to `new Date(year, month, 1)` hold the same dates. -/
theorem bucket_eq_window (d : JSDate) (year month : Int) :
    (decide (d.month = (newDate year (month - 1)).month) &&
        decide (d.year = (newDate year (month - 1)).year)) =
      (d.ge (newDate year (month - 1)) && d.lt (newDate year month)) := by
  rw [newDate_eq_monthOfIndex_shift year (month - 1), newDate_eq_monthOfIndex_shift year month,
    bucket_monthOfIndex, JSDate.lt, ge_monthOfIndex, ge_monthOfIndex, Bool.eq_iff_iff]
  simp only [Bool.and_eq_true, Bool.not_eq_true', decide_eq_true_eq, decide_eq_false_iff_not]
  constructor
  · intro h
    constructor <;> omega
  · rintro ⟨h1, h2⟩
    omega

theorem monthEntry_revenue (monthName : Fin 12 → JSString) (db : Db)
    (hpk : (db.tables.customers.map (fun c => c.id)).Nodup) (idx : Int) :
    (monthEntry monthName db (monthOfIndex idx)).revenue =
      revenueOver db.tables.invoices (fun d => decide (monthIndex d = idx)) := by
  have h := sumTotals_filter_findAll db hpk (fun d =>
    decide (d.month = (monthOfIndex idx).month) && decide (d.year = (monthOfIndex idx).year))
  refine Eq.trans h ?_
  apply filter_window_congr
  intro r _
  exact bucket_monthOfIndex r.date idx

/-- The revenues of the twelve entries of `GET /api/analytics`, oldest first. -/
theorem apiAnalytics_bucketRevenues (monthName : Fin 12 → JSString) (db : Db) (now : JSDate)
    (hpk : (db.tables.customers.map (fun c => c.id)).Nodup) (hy : 100 < now.year) :
    (apiAnalytics monthName db now).monthlyRevenue.map (fun e => e.revenue) =
      (List.range 12).map (fun (k : Nat) =>
        revenueOver db.tables.invoices
          (fun d => decide (monthIndex d = monthIndex now - 11 + (k : Int)))) := by
  rw [apiAnalytics_monthlyRevenue monthName db now hy, List.map_map]
  apply List.map_congr_left
  intro k _
  exact monthEntry_revenue monthName db hpk _

/-- C25: for every store with unique customer keys, every instant `now` (year above 100) and
every `k` below 12, in both handlers the revenue of the entry at position `k` of
`monthlyRevenue` is what the accumulation `sum + parseFloat(total)` gives from 0, in listing
order (latest date first), over exactly the invoices whose calendar month lies `11 - k` months
before the month of `now`, months being counted through year boundaries; these are the
invoices whose month and year are those of the first instant of that month, and one month
before January of year `Y` is December of year `Y - 1`. When every total is a natural number
and the totals of the store add up to less than `2 ^ 53` nothing is rounded and the revenue is
the sum of those totals. -/
theorem monthlyRevenue_bucket (monthName : Fin 12 → JSString) (db : Db) (now : JSDate)
    (hpk : (db.tables.customers.map (fun c => c.id)).Nodup) (hy : 100 < now.year) (k : Nat)
    (hk : k < 12) :
    ((apiAnalytics monthName db now).monthlyRevenue[k]?).map (fun e => e.revenue) =
        some (accumulate ((listedRows db.tables.invoices).filter
          (fun r => decide (monthIndex r.date = monthIndex now - (11 - (k : Int)))))
          (.fin 0 0)) ∧
      ((analyticsGet monthName db now).monthlyRevenue[k]?).map (fun e => e.revenue) =
        some (accumulate ((listedRows db.tables.invoices).filter
          (fun r => decide (monthIndex r.date = monthIndex now - (11 - (k : Int)))))
          (.fin 0 0)) ∧
      (∀ d : JSDate, monthIndex d = monthIndex now - (11 - (k : Int)) ↔
        d.month = (monthOfIndex (monthIndex now - (11 - (k : Int)))).month ∧
          d.year = (monthOfIndex (monthIndex now - (11 - (k : Int)))).year) ∧
      (now.month.val = 0 →
        monthOfIndex (monthIndex now - 1) =
          { year := now.year - 1, month := 11, msInMonth := 0 }) ∧
      ((∀ r ∈ db.tables.invoices, r.total.isNatNumber = true) →
        (db.tables.invoices.map natTotal).sum < 2 ^ 53 →
        ((apiAnalytics monthName db now).monthlyRevenue[k]?).map (fun e => e.revenue) =
          some (.fin ((((db.tables.invoices.filter
            (fun r => decide (monthIndex r.date = monthIndex now - (11 - (k : Int))))).map
              natTotal).sum : Nat) : Int) 0)) := by
  have hidx : monthIndex now - 11 + (k : Int) = monthIndex now - (11 - (k : Int)) := by omega
  have h : ((apiAnalytics monthName db now).monthlyRevenue[k]?).map (fun e => e.revenue) =
      some (revenueOver db.tables.invoices
        (fun d => decide (monthIndex d = monthIndex now - (11 - (k : Int))))) := by
    rw [← List.getElem?_map, apiAnalytics_bucketRevenues monthName db now hpk hy,
      List.getElem?_map, List.getElem?_range hk]
    simp only [Option.map_some', hidx]
  refine ⟨h, ?_, ?_, ?_, ?_⟩
  · rw [analyticsGet_eq]
    exact h
  · intro d
    have hb := bucket_monthOfIndex d (monthIndex now - (11 - (k : Int)))
    rw [Bool.eq_iff_iff] at hb
    simp only [Bool.and_eq_true, decide_eq_true_eq] at hb
    exact hb.symm
  · intro h0
    rw [← startOfPreviousMonth_eq]
    simp [startOfPreviousMonth, h0]
  · intro hnat hb
    rw [h, revenueOver_nat _ _ hnat hb]

/-- Witness of C25: in March 2024 the entries at positions 10 and 11 of the ledger store are
the revenues of February 2024 (50) and of March 2024 (300); in January 2025 the entry at
position 10 is the revenue of December 2024 (40); with the totals 0.1 and 0.2 in February
2024 the entry at position 10 is 0.30000000000000004. -/
theorem monthlyRevenue_bucket_witness :
    ((apiAnalytics shortMonthName ledgerDb midMarch2024).monthlyRevenue[10]?).map
        (fun e => e.revenue) = some (F64.ofInt 50) ∧
      ((apiAnalytics shortMonthName ledgerDb midMarch2024).monthlyRevenue[11]?).map
        (fun e => e.revenue) = some (F64.ofInt 300) ∧
      ((apiAnalytics shortMonthName decemberDb january2025).monthlyRevenue[10]?).map
        (fun e => e.revenue) = some (F64.ofInt 40) ∧
      monthOfIndex (monthIndex january2025 - 1) =
        { year := 2024, month := 11, msInMonth := 0 } ∧
      ((apiAnalytics shortMonthName fractionDb midMarch2024).monthlyRevenue[10]?).map
        (fun e => e.revenue) = some (decimal "0.30000000000000004") :=
  ⟨(monthlyRevenue_bucket shortMonthName ledgerDb midMarch2024 (by decide) (by decide) 10
      (by decide)).2.2.2.2 (by decide) (by decide),
    (monthlyRevenue_bucket shortMonthName ledgerDb midMarch2024 (by decide) (by decide) 11
      (by decide)).2.2.2.2 (by decide) (by decide),
    (monthlyRevenue_bucket shortMonthName decemberDb january2025 (by decide) (by decide) 10
      (by decide)).2.2.2.2 (by decide) (by decide),
    (monthlyRevenue_bucket shortMonthName decemberDb january2025 (by decide) (by decide) 10
      (by decide)).2.2.2.1 rfl,
    (monthlyRevenue_bucket shortMonthName fractionDb midMarch2024 (by decide) (by decide) 10
      (by decide)).1.trans (by decide)⟩

/-- C27: for every store, every instant `now` and one locale table, the report computed by
the handler of `analytics:get` in `main.js` is the report computed by the handler of `GET
/api/analytics` in `server.js`, field by field. -/
theorem analytics_handlers_agree (monthName : Fin 12 → JSString) (db : Db) (now : JSDate) :
    analyticsGet monthName db now = apiAnalytics monthName db now ∧
      (analyticsGet monthName db now).currentMonthRevenue =
        (apiAnalytics monthName db now).currentMonthRevenue ∧
      (analyticsGet monthName db now).lastMonthRevenue =
        (apiAnalytics monthName db now).lastMonthRevenue ∧
      (analyticsGet monthName db now).currentYearRevenue =
        (apiAnalytics monthName db now).currentYearRevenue ∧
      (analyticsGet monthName db now).lastYearRevenue =
        (apiAnalytics monthName db now).lastYearRevenue ∧
      (analyticsGet monthName db now).totalCustomers =
        (apiAnalytics monthName db now).totalCustomers ∧
      (analyticsGet monthName db now).newCustomersThisMonth =
        (apiAnalytics monthName db now).newCustomersThisMonth ∧
      (analyticsGet monthName db now).totalProducts =
        (apiAnalytics monthName db now).totalProducts ∧
      (analyticsGet monthName db now).monthlyRevenue =
        (apiAnalytics monthName db now).monthlyRevenue ∧
      (analyticsGet monthName db now).keys = (apiAnalytics monthName db now).keys :=
  ⟨rfl, rfl, rfl, rfl, rfl, rfl, rfl, rfl, rfl, rfl⟩

/-- C28: for every store and every instant `now`, in both handlers `monthlyRevenue` has 12
entries and the revenue of the entry at position 10, the second-to-last one, is
`lastMonthRevenue`; a date has the month and the year of the first instant of the previous
month exactly when it lies on or after that instant and before the first instant of the
current month, so the bucket and the window select the same listed invoices. -/
theorem lastMonth_is_second_to_last (monthName : Fin 12 → JSString) (db : Db) (now : JSDate) :
    (apiAnalytics monthName db now).monthlyRevenue.length = 12 ∧
      ((apiAnalytics monthName db now).monthlyRevenue[10]?).map (fun e => e.revenue) =
        some (apiAnalytics monthName db now).lastMonthRevenue ∧
      ((analyticsGet monthName db now).monthlyRevenue[10]?).map (fun e => e.revenue) =
        some (analyticsGet monthName db now).lastMonthRevenue ∧
      (∀ d : JSDate,
        (decide (d.month = (newDate now.year ((now.month.val : Int) - 1)).month) &&
            decide (d.year = (newDate now.year ((now.month.val : Int) - 1)).year)) =
          (d.ge (newDate now.year ((now.month.val : Int) - 1)) &&
            d.lt (newDate now.year (now.month.val : Int)))) ∧
      (Invoice.findAll db).filter (fun inv =>
          decide (inv.date.month = (newDate now.year ((now.month.val : Int) - 1)).month) &&
            decide (inv.date.year = (newDate now.year ((now.month.val : Int) - 1)).year)) =
        (Invoice.findAll db).filter (fun inv =>
          inv.date.ge (newDate now.year ((now.month.val : Int) - 1)) &&
            inv.date.lt (newDate now.year (now.month.val : Int))) := by
  have hlist : (Invoice.findAll db).filter (fun inv =>
        decide (inv.date.month = (newDate now.year ((now.month.val : Int) - 1)).month) &&
          decide (inv.date.year = (newDate now.year ((now.month.val : Int) - 1)).year)) =
      (Invoice.findAll db).filter (fun inv =>
        inv.date.ge (newDate now.year ((now.month.val : Int) - 1)) &&
          inv.date.lt (newDate now.year (now.month.val : Int))) :=
    List.filter_congr (fun inv _ => bucket_eq_window inv.date now.year (now.month.val : Int))
  have hshape : (apiAnalytics monthName db now).monthlyRevenue =
      ((List.range 12).map (fun (i : Nat) =>
        monthEntry monthName db (newDate now.year ((now.month.val : Int) - (i : Int))))).reverse :=
    rfl
  have hlast : (apiAnalytics monthName db now).lastMonthRevenue =
      sumTotals ((Invoice.findAll db).filter (fun inv =>
        inv.date.ge (newDate now.year ((now.month.val : Int) - 1)) &&
          inv.date.lt (newDate now.year (now.month.val : Int)))) := rfl
  have h10 : ((apiAnalytics monthName db now).monthlyRevenue[10]?).map (fun e => e.revenue) =
      some (apiAnalytics monthName db now).lastMonthRevenue := by
    rw [hshape, reverse_map_range, List.getElem?_map,
      List.getElem?_range (by decide : 10 < 12), hlast, ← hlist]
    rfl
  refine ⟨?_, h10, ?_, fun d => bucket_eq_window d now.year (now.month.val : Int), hlist⟩
  · rw [hshape]
    simp
  · rw [analyticsGet_eq]
    exact h10

/-- A date falls into exactly one of `n` consecutive monthly buckets when its month lies in
their span, and into none otherwise. -/
theorem bucket_count (d : JSDate) (base : Int) (n : Nat) :
    ((List.range n).filter
        (fun (k : Nat) => decide (monthIndex d = base + (k : Int)))).length =
      if base ≤ monthIndex d ∧ monthIndex d < base + (n : Int) then 1 else 0 := by
  by_cases hspan : base ≤ monthIndex d ∧ monthIndex d < base + (n : Int)
  · rw [if_pos hspan]
    apply Nat.le_antisymm
    · refine filter_key_length_le_one (fun (k : Nat) => k) _ (List.range n) ?_ ?_
      · rw [List.map_id']
        exact List.nodup_range n
      · intro a b ha hb
        have ha2 := of_decide_eq_true ha
        have hb2 := of_decide_eq_true hb
        show a = b
        omega
    · apply List.length_pos_of_mem (a := (monthIndex d - base).toNat)
      rw [List.mem_filter, List.mem_range]
      refine ⟨by omega, ?_⟩
      simp only [decide_eq_true_eq]
      omega
  · rw [if_neg hspan, List.length_eq_zero, List.filter_eq_nil_iff]
    intro k hk
    rw [List.mem_range] at hk
    simp only [decide_eq_true_eq]
    omega

theorem natSum_filter_or (rows : List InvoiceRow) (p q : InvoiceRow → Bool)
    (hdisj : ∀ r, p r = true → q r = true → False) :
    ((rows.filter (fun r => p r || q r)).map natTotal).sum =
      ((rows.filter p).map natTotal).sum + ((rows.filter q).map natTotal).sum := by
  induction rows with
  | nil => rfl
  | cons r rows ih =>
    rw [List.filter_cons, List.filter_cons, List.filter_cons]
    cases hp : p r <;> cases hq : q r
    · simpa using ih
    · simp only [Bool.false_or, if_true, Bool.false_eq_true, if_false, List.map_cons,
        List.sum_cons, ih]
      omega
    · simp only [Bool.true_or, Bool.or_false, if_true, Bool.false_eq_true, if_false,
        List.map_cons, List.sum_cons, ih]
      omega
    · exact (hdisj r hp hq).elim

/-- The totals of `n` consecutive calendar months add up to the total of the span they
cover. -/
theorem natSum_buckets (rows : List InvoiceRow) (base : Int) (n : Nat) :
    ((List.range n).map (fun (k : Nat) =>
        ((rows.filter (fun r => decide (monthIndex r.date = base + (k : Int)))).map
          natTotal).sum)).sum =
      ((rows.filter (fun r =>
        decide (base ≤ monthIndex r.date) &&
          decide (monthIndex r.date < base + (n : Int)))).map natTotal).sum := by
  induction n with
  | zero =>
    have hnil : rows.filter (fun r =>
        decide (base ≤ monthIndex r.date) &&
          decide (monthIndex r.date < base + ((0 : Nat) : Int))) = [] := by
      rw [List.filter_eq_nil_iff]
      intro r _
      simp only [Bool.and_eq_true, decide_eq_true_eq, not_and]
      intro h
      omega
    rw [hnil]
    rfl
  | succ n ih =>
    rw [List.range_succ, List.map_append, List.sum_append, ih, List.map_singleton,
      List.sum_singleton,
      ← natSum_filter_or rows
        (fun r => decide (base ≤ monthIndex r.date) &&
          decide (monthIndex r.date < base + (n : Int)))
        (fun r => decide (monthIndex r.date = base + (n : Int)))]
    · congr 2
      apply List.filter_congr
      intro r _
      rw [Bool.eq_iff_iff]
      simp only [Bool.or_eq_true, Bool.and_eq_true, decide_eq_true_eq]
      constructor
      · rintro (⟨h1, h2⟩ | h)
        · constructor <;> omega
        · constructor <;> omega
      · rintro ⟨h1, h2⟩
        by_cases h : monthIndex r.date = base + (n : Int)
        · exact Or.inr h
        · refine Or.inl ⟨h1, ?_⟩
          omega
    · intro r h1 h2
      simp only [Bool.and_eq_true, decide_eq_true_eq] at h1 h2
      omega

/-- Natural numbers whose sum stays below `2 ^ 53` are added up without rounding. -/
theorem foldl_add_nat (l : List Nat) (a : Nat) (h : a + l.sum < 2 ^ 53) :
    (l.map (fun (n : Nat) => F64.fin (n : Int) 0)).foldl F64.add (.fin (a : Int) 0) =
      .fin ((a + l.sum : Nat) : Int) 0 := by
  induction l generalizing a with
  | nil => simp
  | cons n l ih =>
    rw [List.sum_cons] at h
    rw [List.map_cons, List.foldl_cons, F64.add_nat a n (by omega), ih (a + n) (by omega),
      List.sum_cons, Nat.add_assoc]

/-- Counterexample to C29 as stated: with the totals 0.1 and 0.1 in February 2024 and 0.6
and 0.7 in March 2024, the entries of `monthlyRevenue` for the two months are 0.2 and
1.2999999999999998 and the twelve revenues add up to 1.4999999999999998, in either direction,
while the same four totals accumulated by the handler (`currentYearRevenue`), or accumulated
in table order, give 1.5. -/
theorem monthlyRevenue_sum_counterexample :
    (apiAnalytics shortMonthName roundingDb midMarch2024).monthlyRevenue.map
        (fun e => e.revenue) =
        List.replicate 10 (F64.ofInt 0) ++ [decimal "0.2", decimal "1.2999999999999998"] ∧
      ((apiAnalytics shortMonthName roundingDb midMarch2024).monthlyRevenue.map
        (fun e => e.revenue)).foldl F64.add (.fin 0 0) = decimal "1.4999999999999998" ∧
      ((apiAnalytics shortMonthName roundingDb midMarch2024).monthlyRevenue.map
        (fun e => e.revenue)).foldr F64.add (.fin 0 0) = decimal "1.4999999999999998" ∧
      (apiAnalytics shortMonthName roundingDb midMarch2024).currentYearRevenue =
        decimal "1.5" ∧
      revenueOver roundingDb.tables.invoices (fun d =>
        decide (monthIndex midMarch2024 - 11 ≤ monthIndex d) &&
          decide (monthIndex d ≤ monthIndex midMarch2024)) = decimal "1.5" ∧
      accumulate roundingDb.tables.invoices (.fin 0 0) = decimal "1.5" ∧
      decimal "1.4999999999999998" ≠ decimal "1.5" := by
  have hentry : decimal "1.2999999999999998" = .fin 1463669878895411 50 := by decide
  refine ⟨?_, by decide, by decide, by decide, by decide, by decide, by decide⟩
  rw [hentry]
  decide

/-- C29 (amended): for every instant `now` the twelve (month, year) pairs of the buckets of
`monthlyRevenue` are pairwise distinct and every date falls into at most one bucket; for every
store with unique customer keys and `now` in a year above 100, the revenue of the entry at
position `k` accumulates the totals of exactly the invoices of the month `11 - k` months
before the month of `now`, an invoice dated within the twelve calendar months that end with
the month of `now` is accumulated in exactly one entry and any other invoice in none. The
twelve revenues add up to the revenue of the twelve months when nothing is rounded: when every
total is a natural number and the totals of the store add up to less than `2 ^ 53`, both are
the sum of the totals of the invoices of the twelve months. -/
theorem monthlyRevenue_partition (monthName : Fin 12 → JSString) (db : Db) (now : JSDate)
    (hpk : (db.tables.customers.map (fun c => c.id)).Nodup) (hy : 100 < now.year) :
    ((List.range 12).map (fun (i : Nat) =>
        ((newDate now.year ((now.month.val : Int) - (i : Int))).month,
          (newDate now.year ((now.month.val : Int) - (i : Int))).year))).Nodup ∧
      (∀ d : JSDate, ((List.range 12).filter (fun (i : Nat) =>
        decide (d.month = (newDate now.year ((now.month.val : Int) - (i : Int))).month) &&
          decide (d.year = (newDate now.year ((now.month.val : Int) - (i : Int))).year))).length
        ≤ 1) ∧
      (apiAnalytics monthName db now).monthlyRevenue.map (fun e => e.revenue) =
        (List.range 12).map (fun (k : Nat) =>
          accumulate ((listedRows db.tables.invoices).filter
            (fun r => decide (monthIndex r.date = monthIndex now - 11 + (k : Int))))
            (.fin 0 0)) ∧
      (∀ r ∈ db.tables.invoices,
        ((List.range 12).filter (fun (k : Nat) =>
          decide (monthIndex r.date = monthIndex now - 11 + (k : Int)))).length =
          if monthIndex now - 11 ≤ monthIndex r.date ∧ monthIndex r.date ≤ monthIndex now
          then 1 else 0) ∧
      ((∀ r ∈ db.tables.invoices, r.total.isNatNumber = true) →
        (db.tables.invoices.map natTotal).sum < 2 ^ 53 →
        ((apiAnalytics monthName db now).monthlyRevenue.map (fun e => e.revenue)).foldl
            F64.add (.fin 0 0) =
          .fin ((((db.tables.invoices.filter (fun r =>
            decide (monthIndex now - 11 ≤ monthIndex r.date) &&
              decide (monthIndex r.date ≤ monthIndex now))).map natTotal).sum : Nat) : Int) 0 ∧
        revenueOver db.tables.invoices (fun d =>
            decide (monthIndex now - 11 ≤ monthIndex d) &&
              decide (monthIndex d ≤ monthIndex now)) =
          .fin ((((db.tables.invoices.filter (fun r =>
            decide (monthIndex now - 11 ≤ monthIndex r.date) &&
              decide (monthIndex r.date ≤ monthIndex now))).map natTotal).sum : Nat) : Int)
            0) := by
  have hbucket : ∀ (d : JSDate) (i : Nat),
      (decide (d.month = (newDate now.year ((now.month.val : Int) - (i : Int))).month) &&
          decide (d.year = (newDate now.year ((now.month.val : Int) - (i : Int))).year)) =
        decide (monthIndex d =
          (if 0 ≤ now.year ∧ now.year ≤ 99 then 1900 + now.year else now.year) * 12 +
            ((now.month.val : Int) - (i : Int))) := by
    intro d i
    rw [newDate_eq_monthOfIndex_shift, bucket_monthOfIndex]
  refine ⟨?_, ?_, apiAnalytics_bucketRevenues monthName db now hpk hy, ?_, ?_⟩
  · refine (List.nodup_range 12).map_on ?_
    intro i _ j _ hij
    simp only [Prod.mk.injEq] at hij
    have hi := hbucket (newDate now.year ((now.month.val : Int) - (i : Int))) j
    rw [hij.1, hij.2] at hi
    simp only [decide_True, Bool.and_self, newDate_eq_monthOfIndex_shift,
      monthIndex_monthOfIndex] at hi
    have hi2 := of_decide_eq_true hi.symm
    omega
  · intro d
    refine filter_key_length_le_one (fun (i : Nat) => i) _ (List.range 12) ?_ ?_
    · rw [List.map_id']
      exact List.nodup_range 12
    · intro a b ha hb
      rw [hbucket] at ha hb
      have ha2 := of_decide_eq_true ha
      have hb2 := of_decide_eq_true hb
      show a = b
      omega
  · intro r _
    rw [bucket_count]
    by_cases hspan : monthIndex now - 11 ≤ monthIndex r.date ∧
        monthIndex r.date ≤ monthIndex now
    · rw [if_pos hspan, if_pos ⟨hspan.1, by omega⟩]
    · rw [if_neg hspan, if_neg (fun h => hspan ⟨h.1, by omega⟩)]
  · intro hnat hb
    have hspan : (db.tables.invoices.filter (fun r =>
          decide (monthIndex now - 11 ≤ monthIndex r.date) &&
            decide (monthIndex r.date < monthIndex now - 11 + ((12 : Nat) : Int)))) =
        db.tables.invoices.filter (fun r =>
          decide (monthIndex now - 11 ≤ monthIndex r.date) &&
            decide (monthIndex r.date ≤ monthIndex now)) := by
      apply List.filter_congr
      intro r _
      rw [Bool.eq_iff_iff]
      simp only [Bool.and_eq_true, decide_eq_true_eq]
      constructor
      · rintro ⟨h1, h2⟩
        constructor <;> omega
      · rintro ⟨h1, h2⟩
        constructor <;> omega
    have hle : ((db.tables.invoices.filter (fun r =>
          decide (monthIndex now - 11 ≤ monthIndex r.date) &&
            decide (monthIndex r.date ≤ monthIndex now))).map natTotal).sum ≤
        (db.tables.invoices.map natTotal).sum :=
      List.Sublist.sum_le_sum ((List.filter_sublist db.tables.invoices).map natTotal)
        (fun _ _ => Nat.zero_le _)
    refine ⟨?_, revenueOver_nat _ _ hnat hb⟩
    have hrev : (apiAnalytics monthName db now).monthlyRevenue.map (fun e => e.revenue) =
        ((List.range 12).map (fun (k : Nat) =>
          ((db.tables.invoices.filter (fun r =>
            decide (monthIndex r.date = monthIndex now - 11 + (k : Int)))).map
              natTotal).sum)).map (fun (n : Nat) => F64.fin (n : Int) 0) := by
      rw [apiAnalytics_bucketRevenues monthName db now hpk hy, List.map_map]
      apply List.map_congr_left
      intro k _
      exact revenueOver_nat _ _ hnat hb
    have hsum := natSum_buckets db.tables.invoices (monthIndex now - 11) 12
    rw [hspan] at hsum
    rw [hrev]
    have hfold := foldl_add_nat ((List.range 12).map (fun (k : Nat) =>
      ((db.tables.invoices.filter (fun r =>
        decide (monthIndex r.date = monthIndex now - 11 + (k : Int)))).map natTotal).sum)) 0
      (by rw [hsum]; omega)
    rw [hsum] at hfold
    simpa using hfold

/-- Witness of C29 (amended): in March 2024 the twelve revenues of the store with invoices of
50 (February 2024), 100 and 200 (March 2024), 70 (April 2024) and 40 (January 2025) add up to
350, the total of the invoices dated from April 2023 to March 2024. -/
theorem monthlyRevenue_partition_witness :
    (((apiAnalytics shortMonthName futureDb midMarch2024).monthlyRevenue.map
        (fun e => e.revenue)).foldl F64.add (.fin 0 0) = F64.ofInt 350 ∧
      revenueOver futureDb.tables.invoices (fun d =>
        decide (monthIndex midMarch2024 - 11 ≤ monthIndex d) &&
          decide (monthIndex d ≤ monthIndex midMarch2024)) = F64.ofInt 350) ∧
      ((List.range 12).map (fun (i : Nat) =>
        ((newDate midMarch2024.year ((midMarch2024.month.val : Int) - (i : Int))).month,
          (newDate midMarch2024.year
            ((midMarch2024.month.val : Int) - (i : Int))).year))).Nodup :=
  ⟨(monthlyRevenue_partition shortMonthName futureDb midMarch2024 (by decide)
      (by decide)).2.2.2.2 (by decide) (by decide),
    (monthlyRevenue_partition shortMonthName futureDb midMarch2024 (by decide)
      (by decide)).1⟩

/-! ## Text totals in the revenue sums -/

/-- C26 (the code at the failing input): with two invoices of the current month whose totals
are held as the texts `100` and `200`, the `/analytics` route of `routes/invoices.js` reports
`currentMonthRevenue`, `currentYearRevenue` and the revenue of the last entry of
`monthlyRevenue` as the string `0100200`, while `GET /api/analytics` and `analytics:get`
report the number 300; with the texts `100 Rs` and `200 Rs` the route reports the string
`0100 Rs200 Rs` and the two other handlers 300. In the route, adding a text total to any
accumulator gives a string, and a string accumulator stays a string whatever is added. On
number totals the route reports the number the other handlers report. -/
theorem router_revenue_concatenates :
    (routerAnalytics shortMonthName textDb midMarch2024).currentMonthRevenue =
        .str "0100200".toList ∧
      (routerAnalytics shortMonthName textDb midMarch2024).currentYearRevenue =
        .str "0100200".toList ∧
      ((routerAnalytics shortMonthName textDb midMarch2024).monthlyRevenue.getLast?).map
        (fun e => e.revenue) = some (.str "0100200".toList) ∧
      (apiAnalytics shortMonthName textDb midMarch2024).currentMonthRevenue =
        F64.ofInt 300 ∧
      (analyticsGet shortMonthName textDb midMarch2024).currentMonthRevenue =
        F64.ofInt 300 ∧
      (routerAnalytics shortMonthName labelledDb midMarch2024).currentMonthRevenue =
        .str "0100 Rs200 Rs".toList ∧
      (apiAnalytics shortMonthName labelledDb midMarch2024).currentMonthRevenue =
        F64.ofInt 300 ∧
      (analyticsGet shortMonthName labelledDb midMarch2024).currentMonthRevenue =
        F64.ofInt 300 ∧
      (∀ (sum : JSSum) (s : JSString), ∃ t, jsPlus sum (.str s) = .str t) ∧
      (∀ (t : JSString) (v : JSVal), ∃ u, jsPlus (.str t) v = .str u) ∧
      (routerAnalytics shortMonthName ledgerDb midMarch2024).currentMonthRevenue =
        .num (F64.ofInt 300) ∧
      (apiAnalytics shortMonthName ledgerDb midMarch2024).currentMonthRevenue =
        F64.ofInt 300 := by
  refine ⟨by decide, by decide, by decide, by decide, by decide, by decide, by decide,
    by decide, ?_, ?_, by decide, by decide⟩
  · intro sum s
    cases sum with
    | num x => exact ⟨_, rfl⟩
    | str t => exact ⟨_, rfl⟩
  · intro t v
    cases v with
    | undefined => exact ⟨_, rfl⟩
    | null => exact ⟨_, rfl⟩
    | num n => exact ⟨_, rfl⟩
    | real y => exact ⟨_, rfl⟩
    | str s => exact ⟨_, rfl⟩

end Billing
